import Mathlib

/-! Admin-Dashboard backend: authentication gate and analytics read path.

A shallow embedding of `src/backend/server.js`.  The document store is a pair of
lists (the `User` and `Analytics` collections) threaded through the handlers;
the password hasher and the token codec are external libraries and enter as the
fields of `Prims`.  A middleware either answers the request or hands it to the
next stage, exactly as an Express middleware either calls `res.json` or `next()`.
The numeric fields of an analytics document are binary64 values, added and parsed
with the rounding of the language.  A second rendering of the handlers keeps `try`
and `catch` apart and lets every operation on the store fail.
-/

set_option autoImplicit false

namespace AdminDashboard

/-! ## Data model (`userSchema`, `analyticsSchema`) -/

/-- A stored document of the `User` collection. -/
structure User where
  _id : Nat
  name : String
  email : String
  password : String
  role : String
  status : String
  joinDate : Int
  deriving DecidableEq, Repr

/-- A JavaScript Number: an IEEE 754 binary64 value. A finite value is
`mant * 2 ^ expo`, negated when `neg` is set; the sign of a zero is not kept, JSON prints
both zeros as `0`. -/
inductive JsNumber where
  | finite (neg : Bool) (mant : Nat) (expo : Int)
  | infinite (neg : Bool)
  | nan
  deriving DecidableEq, Repr

/-- A JSON number literal: `digits * 10 ^ exp10`, negated when `neg` is set. -/
structure JsonNumber where
  neg : Bool := false
  digits : Nat
  exp10 : Int := 0
  deriving DecidableEq, Repr

/-- A stored document of the `Analytics` collection. -/
structure Analytics where
  _id : Nat
  date : Int
  activeUsers : JsNumber
  newSignups : JsNumber
  sales : JsNumber
  revenue : JsNumber
  deriving DecidableEq, Repr

/-- The state of the document store: both collections and the identifier supply. -/
structure Db where
  users : List User
  analytics : List Analytics
  nextId : Nat
  deriving DecidableEq, Repr

/-- The payload carried by a token: what `jwt.verify` hands back as `req.user`. -/
structure Claims where
  id : Nat
  email : String
  role : Option String
  deriving DecidableEq, Repr

/-- The external libraries: `bcrypt.genSalt`, `bcrypt.hash`, `bcrypt.compare`,
`jwt.sign` and `jwt.verify`.  Each may throw, except `jwt.sign`.  The clock is
passed explicitly (milliseconds since the epoch). -/
structure Prims where
  genSalt : Nat → Except String String
  hash : Option String → String → Except String String
  compare : Option String → String → Except String Bool
  sign : Claims → String → String → Int → String
  verify : String → String → Int → Except String Claims

/-- Process-wide configuration and environment of one request. -/
structure Ctx where
  prims : Prims
  jwtSecretEnv : Option String
  now : Int
  /-- The offset of local time from UTC at a UTC instant (`LocalTZA(t, true)`). -/
  tzOffset : Int → Int
  /-- The offset of local time from UTC at a local instant (`LocalTZA(t, false)`). -/
  tzOffsetLocal : Int → Int
  /-- The label `toLocaleDateString('en-US', { month: 'short' })` of an instant. -/
  monthShort : Int → String
  /-- The stream behind `Math.random()`: the raw value of draw number `k`. -/
  random : Nat → Nat

/-! ## Requests and responses -/

/-- The JSON body of a request: every key may be absent. -/
structure ReqBody where
  name : Option String := none
  email : Option String := none
  password : Option String := none
  role : Option String := none
  status : Option String := none
  activeUsers : Option JsonNumber := none
  newSignups : Option JsonNumber := none
  sales : Option JsonNumber := none
  revenue : Option JsonNumber := none
  deriving DecidableEq, Repr

/-- An incoming request; `user` is the `req.user` slot written by `authenticateToken`. -/
structure Request where
  authorization : Option String := none
  paramId : String := ""
  body : ReqBody := {}
  user : Option Claims := none
  deriving DecidableEq, Repr

/-- A `User` document with the password removed (`.select('-password')`). -/
structure UserView where
  _id : Nat
  name : String
  email : String
  role : String
  status : String
  joinDate : Int
  deriving DecidableEq, Repr

/-- The value of the `growthRate` key: the number `0` or the string made by `toFixed(1)`. -/
inductive JsVal where
  | number (n : Int)
  | string (s : String)
  deriving DecidableEq, Repr

/-- The object returned by `GET /api/analytics/metrics`. -/
structure Metrics where
  totalUsers : Nat
  activeUsers : Nat
  newSignups : Nat
  totalSales : JsNumber
  totalRevenue : JsNumber
  growthRate : JsVal
  deriving DecidableEq, Repr

/-- One row of `GET /api/analytics/charts`. -/
structure ChartRow where
  date : String
  sales : JsNumber
  users : JsNumber
  revenue : JsNumber
  deriving DecidableEq, Repr

/-- The JSON bodies the server sends. -/
inductive Body where
  | message (message : String)
  | failure (message error : String)
  | registered (message : String) (userId : Nat)
  | session (token : String) (id : Nat) (name email role : String)
  | userList (users : List UserView)
  | userDoc (user : UserView)
  | analyticsDoc (doc : Analytics)
  | metrics (m : Metrics)
  | chart (rows : List ChartRow)
  deriving DecidableEq, Repr

/-- A response: HTTP status and JSON body. -/
structure Response where
  status : Nat
  body : Body
  deriving DecidableEq, Repr

/-- What a middleware does: answer, or call `next()` with the (possibly updated) request. -/
inductive Outcome where
  | respond (r : Response)
  | next (req : Request)
  deriving DecidableEq, Repr

/-! ## Store operations (the Mongoose model methods the handlers call) -/

/-- `User.findOne({ email })`: the first document whose email is the given string;
an `undefined` email matches no document, every stored email being a string. -/
def findOneByEmail (users : List User) : Option String → Option User
  | some e => users.find? (fun u => u.email == e)
  | none => none

/-- The argument object of `new User(...)`. -/
structure NewUser where
  name : Option String
  email : Option String
  password : Option String
  role : Option String
  status : Option String
  deriving DecidableEq, Repr

/-- Mongoose `required: true` on a string path: present and non-empty. -/
def requiredString : Option String → Bool
  | some s => s != ""
  | none => false

/-- Schema validation of a new `User` document: the three required paths and the two enums. -/
def validateUser (d : NewUser) : Bool :=
  requiredString d.name && requiredString d.email && requiredString d.password
    && (match d.role with
        | some r => r == "Admin" || r == "User"
        | none => true)
    && (match d.status with
        | some s => s == "Active" || s == "Inactive"
        | none => true)

/-- The document `save()` writes: schema defaults filled in, identifier assigned by the store. -/
def buildUser (id : Nat) (now : Int) (d : NewUser) : User :=
  { _id := id
    name := d.name.getD ""
    email := d.email.getD ""
    password := d.password.getD ""
    role := d.role.getD "User"
    status := d.status.getD "Active"
    joinDate := now }

/-- `user.save()` on a new document: validation first, then the insert, which the unique
index on `email` rejects when the email is already stored. -/
def saveUser (now : Int) (db : Db) (d : NewUser) : Except String (Db × User) :=
  if validateUser d then
    if db.users.any (fun u => some u.email == d.email) then
      .error "E11000 duplicate key error"
    else
      let u := buildUser db.nextId now d
      .ok ({ db with users := db.users ++ [u], nextId := db.nextId + 1 }, u)
  else
    .error "User validation failed"

/-! ## Helpers for JavaScript expressions -/

/-- The expression `v || d` on an optional string: `undefined` and the empty string are falsy. -/
def orElse (v : Option String) (d : String) : String :=
  match v with
  | some s => if s = "" then d else s
  | none => d

/-- The expression `process.env.JWT_SECRET || 'your_jwt_secret_key'`. -/
def jwtSecret (ctx : Ctx) : String :=
  orElse ctx.jwtSecretEnv "your_jwt_secret_key"

/-- String `replace(pat, '')` with a string pattern: the first occurrence of `pat` is deleted. -/
def removeFirst (pat : List Char) : List Char → List Char
  | [] => []
  | c :: cs =>
    if pat.isPrefixOf (c :: cs) then (c :: cs).drop pat.length
    else c :: removeFirst pat cs

/-- The expression `req.header('Authorization')?.replace('Bearer ', '')`. -/
def extractToken (header : Option String) : Option String :=
  header.map (fun h => String.mk (removeFirst "Bearer ".data h.data))

/-! ## Middleware -/

/-- The middleware `authenticateToken` (server.js 53-67). -/
def authenticateToken (ctx : Ctx) (_db : Db) (req : Request) : Outcome :=
  match extractToken req.authorization with
  | none => .respond ⟨401, .message "Access denied. No token provided."⟩
  | some token =>
    if token = "" then
      .respond ⟨401, .message "Access denied. No token provided."⟩
    else
      match ctx.prims.verify token (jwtSecret ctx) ctx.now with
      | .ok verified => .next { req with user := some verified }
      | .error _ => .respond ⟨400, .message "Invalid token"⟩

/-- The middleware `isAdmin` (server.js 70-75); it runs after `authenticateToken`, and
reading `.role` of a missing `req.user` throws, which Express answers with status 500. -/
def isAdmin (_ctx : Ctx) (_db : Db) (req : Request) : Outcome :=
  match req.user with
  | none => .respond ⟨500, .failure "Internal Server Error" "TypeError"⟩
  | some claims =>
    if claims.role ≠ some "Admin" then
      .respond ⟨403, .message "Access denied. Admin only."⟩
    else .next req

/-! ## Auth routes -/

/-- Route `POST /api/auth/register` (server.js 82-110). -/
def register (ctx : Ctx) (db : Db) (req : Request) : Db × Response :=
  match findOneByEmail db.users req.body.email with
  | some _ => (db, ⟨400, .message "User already exists"⟩)
  | none =>
    match ctx.prims.genSalt 10 with
    | .error e => (db, ⟨500, .failure "Server error" e⟩)
    | .ok salt =>
      match ctx.prims.hash req.body.password salt with
      | .error e => (db, ⟨500, .failure "Server error" e⟩)
      | .ok hashedPassword =>
        match saveUser ctx.now db
            { name := req.body.name, email := req.body.email,
              password := some hashedPassword,
              role := some (orElse req.body.role "User"), status := none } with
        | .error e => (db, ⟨500, .failure "Server error" e⟩)
        | .ok (db1, user) =>
          (db1, ⟨201, .registered "User registered successfully" user._id⟩)

/-- Route `POST /api/auth/login` (server.js 113-148). -/
def login (ctx : Ctx) (db : Db) (req : Request) : Db × Response :=
  match findOneByEmail db.users req.body.email with
  | none => (db, ⟨400, .message "Invalid credentials"⟩)
  | some user =>
    match ctx.prims.compare req.body.password user.password with
    | .error e => (db, ⟨500, .failure "Server error" e⟩)
    | .ok false => (db, ⟨400, .message "Invalid credentials"⟩)
    | .ok true =>
      let token := ctx.prims.sign
        { id := user._id, email := user.email, role := some user.role }
        (jwtSecret ctx) "24h" ctx.now
      (db, ⟨200, .session token user._id user.name user.email user.role⟩)

/-! ## Route composition -/

/-- A middleware of the application. -/
abbrev Middleware := Ctx → Db → Request → Outcome

/-- The final handler of a route. -/
abbrev Handler := Ctx → Db → Request → Db × Response

/-- Express runs the middleware of a route in order; the handler runs only when each of
them called `next()`, and a middleware that answers leaves the store as it found it. -/
def chain (mws : List Middleware) (h : Handler) (ctx : Ctx) (db : Db) (req : Request) :
    Db × Response :=
  match mws with
  | [] => h ctx db req
  | m :: ms =>
    match m ctx db req with
    | .respond r => (db, r)
    | .next req1 => chain ms h ctx db req1

/-! ## User management routes -/

/-- The projection `.select('-password')`. -/
def User.view (u : User) : UserView :=
  { _id := u._id, name := u.name, email := u.email, role := u.role, status := u.status,
    joinDate := u.joinDate }

/-- The value of a hexadecimal digit, in either case. -/
def hexDigit (c : Char) : Option Nat :=
  if 48 ≤ c.toNat ∧ c.toNat ≤ 57 then some (c.toNat - 48)
  else if 97 ≤ c.toNat ∧ c.toNat ≤ 102 then some (c.toNat - 87)
  else if 65 ≤ c.toNat ∧ c.toNat ≤ 70 then some (c.toNat - 55)
  else none

/-- The number written by a list of hexadecimal digits, continuing from `acc`. -/
def hexToNat : List Char → Nat → Option Nat
  | [], acc => some acc
  | c :: cs, acc =>
    match hexDigit c with
    | some d => hexToNat cs (acc * 16 + d)
    | none => none

/-- Casting the `:id` path parameter to an `ObjectId`: a string of exactly 24 hexadecimal
digits is the identifier it writes; any other string is a `CastError` (`none`). -/
def castId (s : String) : Option Nat :=
  if s.data.length = 24 then hexToNat s.data 0 else none

/-- Handler of `GET /api/users` (server.js 155-162). -/
def getUsers (_ctx : Ctx) (db : Db) (_req : Request) : Db × Response :=
  (db, ⟨200, .userList (db.users.map User.view)⟩)

/-- The update document `{ name, email, role, status }`: keys that are `undefined` are
dropped, the others overwrite the stored field. -/
def applyUpdate (b : ReqBody) (u : User) : User :=
  { u with
    name := b.name.getD u.name
    email := b.email.getD u.email
    role := b.role.getD u.role
    status := b.status.getD u.status }

/-- The first document satisfying `p` is replaced by its image under `f`. -/
def updateFirst (p : User → Bool) (f : User → User) : List User → List User
  | [] => []
  | u :: us => if p u then f u :: us else u :: updateFirst p f us

/-- Handler of `PUT /api/users/:id` (server.js 178-196). -/
def updateUser (_ctx : Ctx) (db : Db) (req : Request) : Db × Response :=
  match castId req.paramId with
  | none => (db, ⟨500, .failure "Server error" "Cast to ObjectId failed"⟩)
  | some id =>
    match db.users.find? (fun u => u._id == id) with
    | none => (db, ⟨404, .message "User not found"⟩)
    | some u =>
      let u1 := applyUpdate req.body u
      if db.users.any (fun v => v._id != id && v.email == u1.email) then
        (db, ⟨500, .failure "Server error" "E11000 duplicate key error"⟩)
      else
        ({ db with users := updateFirst (fun v => v._id == id) (fun _ => u1) db.users },
          ⟨200, .userDoc u1.view⟩)

/-- Handler of `DELETE /api/users/:id` (server.js 199-211). -/
def deleteUser (_ctx : Ctx) (db : Db) (req : Request) : Db × Response :=
  match castId req.paramId with
  | none => (db, ⟨500, .failure "Server error" "Cast to ObjectId failed"⟩)
  | some id =>
    match db.users.find? (fun u => u._id == id) with
    | none => (db, ⟨404, .message "User not found"⟩)
    | some _ =>
      ({ db with users := db.users.eraseP (fun u => u._id == id) },
        ⟨200, .message "User deleted successfully"⟩)

/-- Route `GET /api/users`: `authenticateToken, isAdmin`, then the handler. -/
def getUsersRoute : Handler := chain [authenticateToken, isAdmin] getUsers

/-- Route `PUT /api/users/:id`: `authenticateToken, isAdmin`, then the handler. -/
def updateUserRoute : Handler := chain [authenticateToken, isAdmin] updateUser

/-- Route `DELETE /api/users/:id`: `authenticateToken, isAdmin`, then the handler. -/
def deleteUserRoute : Handler := chain [authenticateToken, isAdmin] deleteUser

/-! ## Binary64 arithmetic of the growth-rate expression

JavaScript numbers are IEEE 754 binary64 values.  The expression
`((newSignups / totalUsers) * 100).toFixed(1)` performs one correctly rounded division,
one correctly rounded multiplication and one exact decimal rounding.  The values that
occur are finite, non-negative and far from the subnormal and overflow ranges, so a value
is kept as `mant * 2 ^ expo` with a significand of at most 53 bits. -/

/-- A finite non-negative binary64 value `mant * 2 ^ expo`. -/
structure F64 where
  mant : Nat
  expo : Int
  deriving DecidableEq, Repr

/-- The fraction `p / q * 2 ^ s` as a numerator and a denominator. -/
def scale2 (p q : Nat) (s : Int) : Nat × Nat :=
  if 0 ≤ s then (p * 2 ^ s.toNat, q) else (p, q * 2 ^ (-s).toNat)

/-- Halving `n` until it drops below two, counting the steps; `fuel` bounds the count. -/
def floorLog2Aux : Nat → Nat → Nat
  | 0, _ => 0
  | fuel + 1, n => if 2 ≤ n then floorLog2Aux fuel (n / 2) + 1 else 0

/-- The position of the leading bit of `n`: `2 ^ floorLog2 n ≤ n < 2 ^ (floorLog2 n + 1)`. -/
def floorLog2 (n : Nat) : Nat := floorLog2Aux n n

/-- The exponent `e` with `2 ^ e ≤ p / q < 2 ^ (e + 1)`, for positive `p` and `q`. -/
def binade (p q : Nat) : Int :=
  let e0 : Int := (floorLog2 p : Int) - (floorLog2 q : Int)
  let pq := scale2 p q (-e0)
  if pq.2 ≤ pq.1 then e0 else e0 - 1

/-- The integer nearest to `p / q`, ties to the even one (the IEEE default rounding). -/
def roundNearestEven (p q : Nat) : Nat :=
  let n := p / q
  let r := p % q
  if 2 * r < q then n
  else if q < 2 * r then n + 1
  else if n % 2 = 0 then n else n + 1

/-- The binary64 value nearest to the fraction `p / q`: 53 significant bits, ties to even. -/
def roundF64 (p q : Nat) : F64 :=
  if p = 0 then ⟨0, 0⟩
  else
    let e := binade p q
    let pq := scale2 p q (52 - e)
    ⟨roundNearestEven pq.1 pq.2, e - 52⟩

/-- The quotient `a / b` of two counts as JavaScript computes it; a count below `2 ^ 53` is
itself a binary64 value, so the quotient of the two integers is rounded once. -/
def F64.ofDiv (a b : Nat) : F64 := roundF64 a b

/-- The product `x * c` of a binary64 value and a small integer as JavaScript computes it. -/
def F64.mulNat (x : F64) (c : Nat) : F64 :=
  let pq := scale2 (x.mant * c) 1 x.expo
  roundF64 pq.1 pq.2

/-- The integer `n` of `toFixed(1)`: `n / 10 - x` is as close to zero as possible, and the
larger `n` is taken when two are equally close. -/
def F64.tenths (x : F64) : Nat :=
  let pq := scale2 x.mant 1 x.expo
  (20 * pq.1 + pq.2) / (2 * pq.2)

/-- The decimal string of `n / 10` with one digit after the point. -/
def renderTenths (n : Nat) : String :=
  toString (n / 10) ++ "." ++ toString (n % 10)

/-- Method `toFixed(1)` of a non-negative number below `10 ^ 21`. -/
def F64.toFixed1 (x : F64) : String := renderTenths x.tenths

/-- The growth rate as the specification words it, in tenths: `newSignups / totalUsers * 100`
in exact arithmetic, rounded to one decimal place with halves going up. -/
def specGrowthTenths (newSignups totalUsers : Nat) : Nat :=
  (2000 * newSignups + totalUsers) / (2 * totalUsers)

/-- The new-signup count as the specification words it: the accounts whose join timestamp
is at or after `now` minus the fixed duration of thirty days. -/
def specNewSignups (now : Int) (users : List User) : Nat :=
  users.countP (fun u => decide (now - 30 * 86400000 ≤ u.joinDate))

/-- The rational number a binary64 value stands for. -/
def F64.toRat (x : F64) : ℚ := (x.mant : ℚ) * (2 : ℚ) ^ x.expo

/-! ## Numbers stored in the analytics collection

The fields of an analytics document are JavaScript Numbers. A number of the request body
is a JSON literal, which `JSON.parse` rounds to the nearest binary64 value; the totals of
the metrics handler are binary64 additions, each rounded to nearest with ties to even. -/

/-- The binary64 value nearest to the fraction `p / q`, ties to even, as a significand and
an exponent: 53 significant bits from `2 ^ (-1022)` on, multiples of `2 ^ (-1074)` below
it, and `none` when the rounded value is beyond the largest finite one. -/
def roundBinary64 (p q : Nat) : Option (Nat × Int) :=
  if p = 0 then some (0, 0)
  else
    let e := binade p q
    if e < -1022 then
      let pq := scale2 p q 1074
      some (roundNearestEven pq.1 pq.2, -1074)
    else
      let pq := scale2 p q (52 - e)
      let m := roundNearestEven pq.1 pq.2
      if m = 2 ^ 53 then
        (if 1023 ≤ e then none else some (2 ^ 52, e - 51))
      else
        (if 1023 < e then none else some (m, e - 52))

/-- The Number with the given sign and rounded magnitude; an overflow is an infinity. -/
def JsNumber.ofRounded (neg : Bool) : Option (Nat × Int) → JsNumber
  | none => .infinite neg
  | some (m, e) => if m = 0 then .finite false 0 0 else .finite neg m e

/-- The Number that `JSON.parse` makes of a number literal. -/
def JsNumber.ofLiteral (l : JsonNumber) : JsNumber :=
  let pq : Nat × Nat :=
    if 0 ≤ l.exp10 then (l.digits * 10 ^ l.exp10.toNat, 1)
    else (l.digits, 10 ^ (-l.exp10).toNat)
  JsNumber.ofRounded l.neg (roundBinary64 pq.1 pq.2)

/-- The Number of an integer. -/
def JsNumber.ofInt (z : Int) : JsNumber :=
  JsNumber.ofRounded (decide (z < 0)) (roundBinary64 z.natAbs 1)

/-- The Number of a natural number. -/
def JsNumber.ofNat (n : Nat) : JsNumber := JsNumber.ofInt (n : Int)

/-- The operator `+` on two Numbers. -/
def JsNumber.add (x y : JsNumber) : JsNumber :=
  match x, y with
  | .nan, _ => .nan
  | _, .nan => .nan
  | .infinite s, .infinite t => if s = t then .infinite s else .nan
  | .infinite s, .finite _ _ _ => .infinite s
  | .finite _ _ _, .infinite t => .infinite t
  | .finite na ma ea, .finite nb mb eb =>
    let e := min ea eb
    let a : Int := (if na then -1 else 1) * ((ma * 2 ^ (ea - e).toNat : Nat) : Int)
    let b : Int := (if nb then -1 else 1) * ((mb * 2 ^ (eb - e).toNat : Nat) : Int)
    let s := a + b
    let pq := scale2 s.natAbs 1 e
    JsNumber.ofRounded (decide (s < 0)) (roundBinary64 pq.1 pq.2)

/-- Numbers added up from left to right, starting from `0`: the value of
`list.reduce((sum, x) => sum + x, 0)`, every addition rounded. -/
def sumNumbers (l : List JsNumber) : JsNumber :=
  l.foldl JsNumber.add (JsNumber.ofNat 0)

/-- The rational value of a finite Number. -/
def JsNumber.toRat? : JsNumber → Option ℚ
  | .finite neg m e => some ((if neg then -1 else 1) * (m : ℚ) * (2 : ℚ) ^ e)
  | _ => none

/-- The integer a finite Number stands for, when it is one. -/
def JsNumber.toInt? : JsNumber → Option Int
  | .finite neg m e =>
    if 0 ≤ e then some ((if neg then -1 else 1) * ((m * 2 ^ e.toNat : Nat) : Int))
    else if m % 2 ^ (-e).toNat = 0 then
      some ((if neg then -1 else 1) * ((m / 2 ^ (-e).toNat : Nat) : Int))
    else none
  | _ => none

/-- Handler of `POST /api/analytics` (server.js 268-284): each key of the body is parsed
as a Number, and the schema default `0` fills an absent key. -/
def addAnalytics (ctx : Ctx) (db : Db) (req : Request) : Db × Response :=
  let doc : Analytics :=
    { _id := db.nextId
      date := ctx.now
      activeUsers := (req.body.activeUsers.map JsNumber.ofLiteral).getD (JsNumber.ofNat 0)
      newSignups := (req.body.newSignups.map JsNumber.ofLiteral).getD (JsNumber.ofNat 0)
      sales := (req.body.sales.map JsNumber.ofLiteral).getD (JsNumber.ofNat 0)
      revenue := (req.body.revenue.map JsNumber.ofLiteral).getD (JsNumber.ofNat 0) }
  ({ db with analytics := db.analytics ++ [doc], nextId := db.nextId + 1 },
    ⟨201, .analyticsDoc doc⟩)

/-- Route `POST /api/analytics`: `authenticateToken, isAdmin`, then the handler. -/
def addAnalyticsRoute : Handler := chain [authenticateToken, isAdmin] addAnalytics

/-! ## Analytics routes -/

/-- `new Date()` followed by `setDate(getDate() - 30)`: the local calendar date moves back
thirty days and the local time of day is kept; the result is converted back to UTC. -/
def thirtyDaysAgo (ctx : Ctx) : Int :=
  let localNow := ctx.now + ctx.tzOffset ctx.now
  let localThen := localNow - 30 * 86400000
  localThen - ctx.tzOffsetLocal localThen

/-- `Analytics.find().sort({ date: -1 }).limit(k)`: latest first, at most `k` documents. -/
def recentAnalytics (k : Nat) (analytics : List Analytics) : List Analytics :=
  (analytics.insertionSort (fun a b => b.date ≤ a.date)).take k

/-- The expression `totalUsers > 0 ? ((newSignups / totalUsers) * 100).toFixed(1) : 0`. -/
def growthRate (newSignups totalUsers : Nat) : JsVal :=
  if totalUsers > 0 then .string ((F64.ofDiv newSignups totalUsers).mulNat 100).toFixed1
  else .number 0

/-- The metrics object computed by `GET /api/analytics/metrics` (server.js 220-243). -/
def computeMetrics (ctx : Ctx) (db : Db) : Metrics :=
  let totalUsers := db.users.length
  let activeUsers := db.users.countP (fun u => u.status == "Active")
  let newSignups := db.users.countP (fun u => decide (thirtyDaysAgo ctx ≤ u.joinDate))
  let recent := recentAnalytics 30 db.analytics
  let totalSales := recent.foldl (fun sum item => sum.add item.sales) (JsNumber.ofNat 0)
  let totalRevenue := recent.foldl (fun sum item => sum.add item.revenue) (JsNumber.ofNat 0)
  { totalUsers := totalUsers
    activeUsers := activeUsers
    newSignups := newSignups
    totalSales := totalSales
    totalRevenue := totalRevenue
    growthRate := growthRate newSignups totalUsers }

/-- Handler of `GET /api/analytics/metrics` (server.js 218-247). -/
def getMetrics (ctx : Ctx) (db : Db) (_req : Request) : Db × Response :=
  (db, ⟨200, .metrics (computeMetrics ctx db)⟩)

/-- Route `GET /api/analytics/metrics`: `authenticateToken`, then the handler. -/
def getMetricsRoute : Handler := chain [authenticateToken] getMetrics

/-- One row of the chart: the month label of the date, then three fields of the document. -/
def chartRow (ctx : Ctx) (item : Analytics) : ChartRow :=
  { date := ctx.monthShort item.date
    sales := item.sales
    users := item.activeUsers
    revenue := item.revenue }

/-- The array computed by `GET /api/analytics/charts` (server.js 252-259): the six latest
documents, reversed into ascending order, mapped to rows. -/
def computeChart (ctx : Ctx) (db : Db) : List ChartRow :=
  (recentAnalytics 6 db.analytics).reverse.map (chartRow ctx)

/-- Handler of `GET /api/analytics/charts` (server.js 250-265). -/
def getChart (ctx : Ctx) (db : Db) (_req : Request) : Db × Response :=
  (db, ⟨200, .chart (computeChart ctx db)⟩)

/-- Route `GET /api/analytics/charts`: `authenticateToken`, then the handler. -/
def getChartRoute : Handler := chain [authenticateToken] getChart

/-- Handler of `GET /api/users/:id` (server.js 165-175). -/
def getUser (_ctx : Ctx) (db : Db) (req : Request) : Db × Response :=
  match castId req.paramId with
  | none => (db, ⟨500, .failure "Server error" "Cast to ObjectId failed"⟩)
  | some id =>
    match db.users.find? (fun u => u._id == id) with
    | none => (db, ⟨404, .message "User not found"⟩)
    | some u => (db, ⟨200, .userDoc u.view⟩)

/-- Route `GET /api/users/:id`: `authenticateToken`, then the handler. -/
def getUserRoute : Handler := chain [authenticateToken] getUser

/-- The store with each password field replaced by what `f` makes of the account. -/
def rewritePasswords (f : User → String) (db : Db) : Db :=
  { db with users := db.users.map (fun u => { u with password := f u }) }

/-! ## Seeding -/

/-- The sample user number `i` of the seeding loop (server.js 317-323). -/
def seedUserDoc (i : Nat) (userPassword : String) : NewUser :=
  { name := some ("User " ++ toString i)
    email := some ("user" ++ toString i ++ "@example.com")
    password := some userPassword
    role := some "User"
    status := some (if i % 3 = 0 then "Inactive" else "Active") }

/-- The loop over the sample users (server.js 315-325): each turn hashes, builds and saves.
A throw ends the loop; what was saved before stays in the store, and the message of the
throw is returned with it. -/
def seedUsers (ctx : Ctx) (salt : String) : List Nat → Db → Db × Option String
  | [], db => (db, none)
  | i :: rest, db =>
    match ctx.prims.hash (some "user123") salt with
    | .error e => (db, some e)
    | .ok userPassword =>
      match saveUser ctx.now db (seedUserDoc i userPassword) with
      | .error e => (db, some e)
      | .ok (db1, _) => seedUsers ctx salt rest db1

/-- Days from the epoch to the first day of month `i` (January is `0`) of 2024, for the
six months the seeding loop visits. -/
def firstOfMonth2024 (i : Nat) : Int :=
  match i with
  | 0 => 19723
  | 1 => 19754
  | 2 => 19783
  | 3 => 19814
  | 4 => 19844
  | _ => 19875

/-- The instant `new Date(2024, i, 1)`: local midnight of that day, converted to UTC. -/
def seedDate (ctx : Ctx) (i : Nat) : Int :=
  let localMidnight := firstOfMonth2024 i * 86400000
  localMidnight - ctx.tzOffsetLocal localMidnight

/-- The expression `Math.floor(Math.random() * n)`: draw number `k`, an integer below `n`. -/
def randomBelow (ctx : Ctx) (k n : Nat) : Int := ((ctx.random k % n : Nat) : Int)

/-- The loop over the sample analytics documents (server.js 328-337); these saves pass. -/
def seedAnalytics (ctx : Ctx) : List Nat → Db → Db
  | [], db => db
  | i :: rest, db =>
    let doc : Analytics :=
      { _id := db.nextId
        date := seedDate ctx i
        activeUsers := JsNumber.ofInt (200 + randomBelow ctx (4 * i) 200)
        newSignups := JsNumber.ofInt (50 + randomBelow ctx (4 * i + 1) 100)
        sales := JsNumber.ofInt (3000 + randomBelow ctx (4 * i + 2) 3000)
        revenue := JsNumber.ofInt (30000 + randomBelow ctx (4 * i + 3) 30000) }
    seedAnalytics ctx rest
      { db with analytics := db.analytics ++ [doc], nextId := db.nextId + 1 }

/-- The message sent when the administrator account is already there. -/
def alreadySeeded : String :=
  "Database already seeded! Use admin@example.com / admin123 to login."

/-- The message sent after a complete run. -/
def seededNow : String :=
  "Database seeded successfully! Login with admin@example.com / admin123"

/-- Handler `seedDatabase` of `GET` and `POST /api/seed` (server.js 290-346). -/
def seedDatabase (ctx : Ctx) (db : Db) (_req : Request) : Db × Response :=
  match findOneByEmail db.users (some "admin@example.com") with
  | some _ => (db, ⟨200, .message alreadySeeded⟩)
  | none =>
    match ctx.prims.genSalt 10 with
    | .error e => (db, ⟨500, .failure "Seed error" e⟩)
    | .ok salt =>
      match ctx.prims.hash (some "admin123") salt with
      | .error e => (db, ⟨500, .failure "Seed error" e⟩)
      | .ok adminPassword =>
        match saveUser ctx.now db
            { name := some "Admin User", email := some "admin@example.com",
              password := some adminPassword, role := some "Admin",
              status := some "Active" } with
        | .error e => (db, ⟨500, .failure "Seed error" e⟩)
        | .ok (db1, _) =>
          match seedUsers ctx salt (List.range' 1 10) db1 with
          | (db2, some e) => (db2, ⟨500, .failure "Seed error" e⟩)
          | (db2, none) =>
            (seedAnalytics ctx (List.range 6) db2, ⟨200, .message seededNow⟩)

/-! ## Handlers with exceptions and store outages

The handlers above are written for a store that answers every operation, and each `catch`
block is folded into the branch that reaches it.  Here the same handlers are written once
more with `try` and `catch` apart, and every `await` on the store may throw: a schedule of
outages says which store operations of the request fail.  Casting an identifier and
validating a document happen in the process, before the operation is sent. -/

/-- A schedule of outages: `faults k = some e` makes store operation number `k` of the
request, counted from `0`, throw an error with message `e`; an operation that throws
leaves the store as it was. -/
abbrev Faults := Nat → Option String

/-- What a `try` block leaves behind: the store, the number of store operations issued, and
the response sent or the message of the error thrown. -/
structure Attempt where
  db : Db
  ops : Nat
  result : Except String Response

/-- The end of a request as the transport layer sees it: the handler answered, or an error
left the handler. -/
inductive Run where
  | responded (db : Db) (ops : Nat) (r : Response)
  | uncaught (db : Db) (ops : Nat) (error : String)
  deriving DecidableEq, Repr

/-- The statement `try { ... } catch (error) { res.status(500).json({ message, error:
error.message }) }` around a whole handler body. -/
def tryCatch (message : String) (a : Attempt) : Run :=
  match a.result with
  | .ok r => .responded a.db a.ops r
  | .error e => .responded a.db a.ops ⟨500, .failure message e⟩

/-- `user.save()` as store operation `k`: an invalid document is refused before anything is
sent; a valid one is sent, and the store may be out or may reject a duplicate email. The
first component is the number of operations issued so far. -/
def saveUserWith (faults : Faults) (k : Nat) (now : Int) (db : Db) (d : NewUser) :
    Nat × Except String (Db × User) :=
  if validateUser d then
    match faults k with
    | some e => (k + 1, .error e)
    | none => (k + 1, saveUser now db d)
  else (k, .error "User validation failed")

/-- The `try` block of `POST /api/auth/register` (server.js 83-106). -/
def registerAttempt (faults : Faults) (ctx : Ctx) (db : Db) (req : Request) : Attempt :=
  match faults 0 with
  | some e => ⟨db, 1, .error e⟩
  | none =>
    match findOneByEmail db.users req.body.email with
    | some _ => ⟨db, 1, .ok ⟨400, .message "User already exists"⟩⟩
    | none =>
      match ctx.prims.genSalt 10 with
      | .error e => ⟨db, 1, .error e⟩
      | .ok salt =>
        match ctx.prims.hash req.body.password salt with
        | .error e => ⟨db, 1, .error e⟩
        | .ok hashedPassword =>
          match saveUserWith faults 1 ctx.now db
              { name := req.body.name, email := req.body.email,
                password := some hashedPassword,
                role := some (orElse req.body.role "User"), status := none } with
          | (n, .error e) => ⟨db, n, .error e⟩
          | (n, .ok (db1, user)) =>
            ⟨db1, n, .ok ⟨201, .registered "User registered successfully" user._id⟩⟩

/-- Route `POST /api/auth/register` with its `catch` block (server.js 82-110). -/
def registerRun (faults : Faults) (ctx : Ctx) (db : Db) (req : Request) : Run :=
  tryCatch "Server error" (registerAttempt faults ctx db req)

/-- The `try` block of `POST /api/auth/login` (server.js 114-144). -/
def loginAttempt (faults : Faults) (ctx : Ctx) (db : Db) (req : Request) : Attempt :=
  match faults 0 with
  | some e => ⟨db, 1, .error e⟩
  | none =>
    match findOneByEmail db.users req.body.email with
    | none => ⟨db, 1, .ok ⟨400, .message "Invalid credentials"⟩⟩
    | some user =>
      match ctx.prims.compare req.body.password user.password with
      | .error e => ⟨db, 1, .error e⟩
      | .ok false => ⟨db, 1, .ok ⟨400, .message "Invalid credentials"⟩⟩
      | .ok true =>
        let token := ctx.prims.sign
          { id := user._id, email := user.email, role := some user.role }
          (jwtSecret ctx) "24h" ctx.now
        ⟨db, 1, .ok ⟨200, .session token user._id user.name user.email user.role⟩⟩

/-- Route `POST /api/auth/login` with its `catch` block (server.js 113-148). -/
def loginRun (faults : Faults) (ctx : Ctx) (db : Db) (req : Request) : Run :=
  tryCatch "Server error" (loginAttempt faults ctx db req)

/-- The `try` block of `GET /api/users` (server.js 156-158). -/
def getUsersAttempt (faults : Faults) (_ctx : Ctx) (db : Db) (_req : Request) : Attempt :=
  match faults 0 with
  | some e => ⟨db, 1, .error e⟩
  | none => ⟨db, 1, .ok ⟨200, .userList (db.users.map User.view)⟩⟩

/-- Handler of `GET /api/users` with its `catch` block (server.js 155-162). -/
def getUsersRun (faults : Faults) (ctx : Ctx) (db : Db) (req : Request) : Run :=
  tryCatch "Server error" (getUsersAttempt faults ctx db req)

/-- The `try` block of `GET /api/users/:id` (server.js 166-171). -/
def getUserAttempt (faults : Faults) (_ctx : Ctx) (db : Db) (req : Request) : Attempt :=
  match castId req.paramId with
  | none => ⟨db, 0, .error "Cast to ObjectId failed"⟩
  | some id =>
    match faults 0 with
    | some e => ⟨db, 1, .error e⟩
    | none =>
      match db.users.find? (fun u => u._id == id) with
      | none => ⟨db, 1, .ok ⟨404, .message "User not found"⟩⟩
      | some u => ⟨db, 1, .ok ⟨200, .userDoc u.view⟩⟩

/-- Handler of `GET /api/users/:id` with its `catch` block (server.js 165-175). -/
def getUserRun (faults : Faults) (ctx : Ctx) (db : Db) (req : Request) : Run :=
  tryCatch "Server error" (getUserAttempt faults ctx db req)

/-- The `try` block of `PUT /api/users/:id` (server.js 179-192): one `findByIdAndUpdate`. -/
def updateUserAttempt (faults : Faults) (_ctx : Ctx) (db : Db) (req : Request) : Attempt :=
  match castId req.paramId with
  | none => ⟨db, 0, .error "Cast to ObjectId failed"⟩
  | some id =>
    match faults 0 with
    | some e => ⟨db, 1, .error e⟩
    | none =>
      match db.users.find? (fun u => u._id == id) with
      | none => ⟨db, 1, .ok ⟨404, .message "User not found"⟩⟩
      | some u =>
        let u1 := applyUpdate req.body u
        if db.users.any (fun v => v._id != id && v.email == u1.email) then
          ⟨db, 1, .error "E11000 duplicate key error"⟩
        else
          ⟨{ db with users := updateFirst (fun v => v._id == id) (fun _ => u1) db.users }, 1,
            .ok ⟨200, .userDoc u1.view⟩⟩

/-- Handler of `PUT /api/users/:id` with its `catch` block (server.js 178-196). -/
def updateUserRun (faults : Faults) (ctx : Ctx) (db : Db) (req : Request) : Run :=
  tryCatch "Server error" (updateUserAttempt faults ctx db req)

/-- The `try` block of `DELETE /api/users/:id` (server.js 200-207): one
`findByIdAndDelete`. -/
def deleteUserAttempt (faults : Faults) (_ctx : Ctx) (db : Db) (req : Request) : Attempt :=
  match castId req.paramId with
  | none => ⟨db, 0, .error "Cast to ObjectId failed"⟩
  | some id =>
    match faults 0 with
    | some e => ⟨db, 1, .error e⟩
    | none =>
      match db.users.find? (fun u => u._id == id) with
      | none => ⟨db, 1, .ok ⟨404, .message "User not found"⟩⟩
      | some _ =>
        ⟨{ db with users := db.users.eraseP (fun u => u._id == id) }, 1,
          .ok ⟨200, .message "User deleted successfully"⟩⟩

/-- Handler of `DELETE /api/users/:id` with its `catch` block (server.js 199-211). -/
def deleteUserRun (faults : Faults) (ctx : Ctx) (db : Db) (req : Request) : Run :=
  tryCatch "Server error" (deleteUserAttempt faults ctx db req)

/-- The `try` block of `GET /api/analytics/metrics` (server.js 219-243): three counts and
one query, in this order. -/
def getMetricsAttempt (faults : Faults) (ctx : Ctx) (db : Db) (_req : Request) : Attempt :=
  match faults 0 with
  | some e => ⟨db, 1, .error e⟩
  | none =>
    match faults 1 with
    | some e => ⟨db, 2, .error e⟩
    | none =>
      match faults 2 with
      | some e => ⟨db, 3, .error e⟩
      | none =>
        match faults 3 with
        | some e => ⟨db, 4, .error e⟩
        | none => ⟨db, 4, .ok ⟨200, .metrics (computeMetrics ctx db)⟩⟩

/-- Handler of `GET /api/analytics/metrics` with its `catch` block (server.js 218-247). -/
def getMetricsRun (faults : Faults) (ctx : Ctx) (db : Db) (req : Request) : Run :=
  tryCatch "Server error" (getMetricsAttempt faults ctx db req)

/-- The `try` block of `GET /api/analytics/charts` (server.js 251-261). -/
def getChartAttempt (faults : Faults) (ctx : Ctx) (db : Db) (_req : Request) : Attempt :=
  match faults 0 with
  | some e => ⟨db, 1, .error e⟩
  | none => ⟨db, 1, .ok ⟨200, .chart (computeChart ctx db)⟩⟩

/-- Handler of `GET /api/analytics/charts` with its `catch` block (server.js 250-265). -/
def getChartRun (faults : Faults) (ctx : Ctx) (db : Db) (req : Request) : Run :=
  tryCatch "Server error" (getChartAttempt faults ctx db req)

/-- The `try` block of `POST /api/analytics` (server.js 269-280): the document is built in
the process and saved with one store operation. -/
def addAnalyticsAttempt (faults : Faults) (ctx : Ctx) (db : Db) (req : Request) : Attempt :=
  match faults 0 with
  | some e => ⟨db, 1, .error e⟩
  | none => ⟨(addAnalytics ctx db req).1, 1, .ok (addAnalytics ctx db req).2⟩

/-- Handler of `POST /api/analytics` with its `catch` block (server.js 268-284). -/
def addAnalyticsRun (faults : Faults) (ctx : Ctx) (db : Db) (req : Request) : Run :=
  tryCatch "Server error" (addAnalyticsAttempt faults ctx db req)

/-- The loop over the sample users (server.js 315-325) from store operation `k` on: the
store reached, the number of operations issued, and the message of a throw if there was
one. -/
def seedUsersWith (faults : Faults) (ctx : Ctx) (salt : String) :
    List Nat → Nat → Db → Db × Nat × Option String
  | [], k, db => (db, k, none)
  | i :: rest, k, db =>
    match ctx.prims.hash (some "user123") salt with
    | .error e => (db, k, some e)
    | .ok userPassword =>
      match saveUserWith faults k ctx.now db (seedUserDoc i userPassword) with
      | (n, .error e) => (db, n, some e)
      | (n, .ok (db1, _)) => seedUsersWith faults ctx salt rest n db1

/-- The loop over the sample analytics documents (server.js 328-337) from store operation
`k` on. -/
def seedAnalyticsWith (faults : Faults) (ctx : Ctx) :
    List Nat → Nat → Db → Db × Nat × Option String
  | [], k, db => (db, k, none)
  | i :: rest, k, db =>
    match faults k with
    | some e => (db, k + 1, some e)
    | none => seedAnalyticsWith faults ctx rest (k + 1) (seedAnalytics ctx [i] db)

/-- The `try` block of `seedDatabase` (server.js 291-342). -/
def seedDatabaseAttempt (faults : Faults) (ctx : Ctx) (db : Db) (_req : Request) : Attempt :=
  match faults 0 with
  | some e => ⟨db, 1, .error e⟩
  | none =>
    match findOneByEmail db.users (some "admin@example.com") with
    | some _ => ⟨db, 1, .ok ⟨200, .message alreadySeeded⟩⟩
    | none =>
      match ctx.prims.genSalt 10 with
      | .error e => ⟨db, 1, .error e⟩
      | .ok salt =>
        match ctx.prims.hash (some "admin123") salt with
        | .error e => ⟨db, 1, .error e⟩
        | .ok adminPassword =>
          match saveUserWith faults 1 ctx.now db
              { name := some "Admin User", email := some "admin@example.com",
                password := some adminPassword, role := some "Admin",
                status := some "Active" } with
          | (n, .error e) => ⟨db, n, .error e⟩
          | (n, .ok (db1, _)) =>
            match seedUsersWith faults ctx salt (List.range' 1 10) n db1 with
            | (db2, n2, some e) => ⟨db2, n2, .error e⟩
            | (db2, n2, none) =>
              match seedAnalyticsWith faults ctx (List.range 6) n2 db2 with
              | (db3, n3, some e) => ⟨db3, n3, .error e⟩
              | (db3, n3, none) => ⟨db3, n3, .ok ⟨200, .message seededNow⟩⟩

/-- Handler `seedDatabase` with its `catch` block (server.js 290-346). -/
def seedDatabaseRun (faults : Faults) (ctx : Ctx) (db : Db) (req : Request) : Run :=
  tryCatch "Seed error" (seedDatabaseAttempt faults ctx db req)

/-- What a middleware does, with a throw kept apart from an answer. -/
inductive Step where
  | respond (r : Response)
  | next (req : Request)
  | throws (error : String)
  deriving DecidableEq, Repr

/-- The middleware `authenticateToken` (server.js 53-67) as a step: its own `try` block
catches what `jwt.verify` throws, and nothing else in it throws. -/
def authenticateTokenStep (ctx : Ctx) (db : Db) (req : Request) : Step :=
  match authenticateToken ctx db req with
  | .respond r => .respond r
  | .next req1 => .next req1

/-- The middleware `isAdmin` (server.js 70-75) as a step. It has no `try` block: reading
`.role` of a missing `req.user` throws. -/
def isAdminStep (_ctx : Ctx) (_db : Db) (req : Request) : Step :=
  match req.user with
  | none => .throws "Cannot read properties of undefined (reading 'role')"
  | some claims =>
    if claims.role ≠ some "Admin" then
      .respond ⟨403, .message "Access denied. Admin only."⟩
    else .next req

/-- A route as mounted with `app.get`, `app.post`, `app.put` or `app.delete`: the
middleware run in order, then the handler. What a middleware throws is caught by nothing
in the application and reaches the transport layer. -/
def routeRun (mws : List (Ctx → Db → Request → Step))
    (h : Faults → Ctx → Db → Request → Run) (faults : Faults) (ctx : Ctx) (db : Db)
    (req : Request) : Run :=
  match mws with
  | [] => h faults ctx db req
  | m :: ms =>
    match m ctx db req with
    | .respond r => .responded db 0 r
    | .next req1 => routeRun ms h faults ctx db req1
    | .throws e => .uncaught db 0 e

/-- The runs of the routes of the application, mounted as in server.js: `register`,
`login`, the four user routes, the three analytics routes and `seedDatabase`. -/
def routeRuns (faults : Faults) (ctx : Ctx) (db : Db) (req : Request) : List Run :=
  [routeRun [] registerRun faults ctx db req,
    routeRun [] loginRun faults ctx db req,
    routeRun [authenticateTokenStep, isAdminStep] getUsersRun faults ctx db req,
    routeRun [authenticateTokenStep] getUserRun faults ctx db req,
    routeRun [authenticateTokenStep, isAdminStep] updateUserRun faults ctx db req,
    routeRun [authenticateTokenStep, isAdminStep] deleteUserRun faults ctx db req,
    routeRun [authenticateTokenStep] getMetricsRun faults ctx db req,
    routeRun [authenticateTokenStep] getChartRun faults ctx db req,
    routeRun [authenticateTokenStep, isAdminStep] addAnalyticsRun faults ctx db req,
    routeRun [] seedDatabaseRun faults ctx db req]

/-- The policy for store outages, for a handler that answers `quiet` when the store never
fails: either no store operation the run issued was out and the run is `quiet`, or the
last operation it issued was the first one out, and the answer is status 500 with the
policy's `message` and the message of the outage. -/
def OutagesAnswered (faults : Faults) (message : String) (quiet : Db × Response)
    (run : Run) : Prop :=
  (∃ n, (∀ k, k < n → faults k = none) ∧ run = .responded quiet.1 n quiet.2) ∨
    (∃ db n e, (∀ k, k < n → faults k = none) ∧ faults n = some e ∧
      run = .responded db (n + 1) ⟨500, .failure message e⟩)

/-! ## The contract of the token codec

`jsonwebtoken` is an external library.  What the handlers rely on: `sign` stamps the token
with the issue time in whole seconds and, for `expiresIn: '24h'`, an expiry 86400 seconds
later; `verify` with the signing secret returns the signed payload while the clock, in
whole seconds, is before the expiry, and throws from the expiry on.  A token is never the
empty string. -/

/-- The behaviour of `jwt.sign` and `jwt.verify` that the authentication gate relies on. -/
structure CodecContract (P : Prims) : Prop where
  sign_ne_empty : ∀ (c : Claims) (secret ttl : String) (t : Int), P.sign c secret ttl t ≠ ""
  verify_fresh : ∀ (c : Claims) (secret : String) (t t1 : Int),
    t1 / 1000 < t / 1000 + 86400 → P.verify (P.sign c secret "24h" t) secret t1 = .ok c
  verify_expired : ∀ (c : Claims) (secret : String) (t t1 : Int),
    t / 1000 + 86400 ≤ t1 / 1000 →
      ∃ e, P.verify (P.sign c secret "24h" t) secret t1 = .error e

/-! ## A concrete instance of the primitives

A small hasher and an unsigned, length-delimited token format.  They stand in for `bcryptjs`
and `jsonwebtoken` wherever a statement is evaluated on a concrete request. -/

/-- A natural number in unary, closed by `0`. -/
def encNat (n : Nat) : List Char := List.replicate n '1' ++ ['0']

/-- Reads a unary natural number off the front of the input. -/
def decNat : List Char → Option (Nat × List Char)
  | [] => none
  | c :: cs =>
    if c = '1' then
      match decNat cs with
      | some (n, rest) => some (n + 1, rest)
      | none => none
    else if c = '0' then some (0, cs)
    else none

/-- An integer: its sign, then its absolute value. -/
def encInt (z : Int) : List Char := (if z < 0 then '-' else '+') :: encNat z.natAbs

/-- Reads an integer off the front of the input. -/
def decInt : List Char → Option (Int × List Char)
  | [] => none
  | c :: cs =>
    match decNat cs with
    | some (n, rest) => some (if c = '-' then -(n : Int) else (n : Int), rest)
    | none => none

/-- A string: its length, then its characters. -/
def encStr (s : String) : List Char := encNat s.length ++ s.data

/-- Reads a length-delimited string off the front of the input. -/
def decStr (l : List Char) : Option (String × List Char) :=
  match decNat l with
  | some (n, rest) =>
    if n ≤ rest.length then some (String.mk (rest.take n), rest.drop n) else none
  | none => none

/-- An optional string: a presence flag, then the string. -/
def encOpt : Option String → List Char
  | some s => '1' :: encStr s
  | none => ['0']

/-- Reads an optional string off the front of the input. -/
def decOpt : List Char → Option (Option String × List Char)
  | [] => none
  | c :: cs =>
    if c = '1' then
      match decStr cs with
      | some (s, rest) => some (some s, rest)
      | none => none
    else if c = '0' then some (none, cs)
    else none

/-- The sample `jwt.sign`: secret, issue time in seconds, lifetime, then the three claims. -/
def sampleSign (c : Claims) (secret ttl : String) (t : Int) : String :=
  String.mk (encStr secret ++ encInt (t / 1000) ++ encStr ttl
    ++ encNat c.id ++ encStr c.email ++ encOpt c.role)

/-- The sample `jwt.verify`: the secret must match and the clock be before the expiry. -/
def sampleVerify (token secret : String) (t : Int) : Except String Claims :=
  match decStr token.data with
  | none => .error "jwt malformed"
  | some (key, r1) =>
    match decInt r1 with
    | none => .error "jwt malformed"
    | some (iat, r2) =>
      match decStr r2 with
      | none => .error "jwt malformed"
      | some (ttl, r3) =>
        match decNat r3 with
        | none => .error "jwt malformed"
        | some (id, r4) =>
          match decStr r4 with
          | none => .error "jwt malformed"
          | some (email, r5) =>
            match decOpt r5 with
            | none => .error "jwt malformed"
            | some (role, _) =>
              if key ≠ secret then .error "invalid signature"
              else if iat + (if ttl = "24h" then 86400 else 0) ≤ t / 1000 then
                .error "jwt expired"
              else .ok { id := id, email := email, role := role }

/-- The sample primitives. -/
def samplePrims : Prims where
  genSalt := fun _ => .ok "salt"
  hash := fun pw salt =>
    match pw with
    | some p => .ok ("$" ++ salt ++ "$" ++ p)
    | none => .error "Illegal arguments: undefined, string"
  compare := fun pw h =>
    match pw with
    | some p => .ok (h == "$salt$" ++ p)
    | none => .error "Illegal arguments: undefined, string"
  sign := sampleSign
  verify := sampleVerify

/-- The sample context: default secret, clock at 90000 ms, local time is UTC. -/
def sampleCtx : Ctx where
  prims := samplePrims
  jwtSecretEnv := none
  now := 90000
  tzOffset := fun _ => 0
  tzOffsetLocal := fun _ => 0
  monthShort := fun t =>
    if t < 1706745600000 then "Jan" else if t < 1709251200000 then "Feb"
    else if t < 1711929600000 then "Mar" else if t < 1714521600000 then "Apr"
    else if t < 1717200000000 then "May" else "Jun"
  random := fun k => 7 * k + 3

/-- A stored administrator. -/
def sampleAdmin : User :=
  { _id := 1, name := "Admin User", email := "admin@example.com",
    password := "$salt$admin123", role := "Admin", status := "Active",
    joinDate := -5000000000 }

/-- A stored standard user whose account is inactive. -/
def sampleUser : User :=
  { _id := 2, name := "User 3", email := "user3@example.com",
    password := "$salt$user123", role := "User", status := "Inactive",
    joinDate := -1000000000 }

/-- A store holding the two sample accounts. -/
def sampleDb : Db := { users := [sampleAdmin, sampleUser], analytics := [], nextId := 3 }

/-- The store after every account has been deleted. -/
def emptyDb : Db := { users := [], analytics := [], nextId := 3 }

/-- A store of `n` accounts of which the first `k` joined at the epoch and the others two
months before it; every third account is inactive. -/
def accountsDb (n k : Nat) : Db :=
  { users := (List.range n).map (fun i =>
      { _id := i + 1
        name := "User " ++ toString (i + 1)
        email := "user" ++ toString (i + 1) ++ "@example.com"
        password := "$salt$user123"
        role := "User"
        status := if (i + 1) % 3 = 0 then "Inactive" else "Active"
        joinDate := if i < k then 0 else -5000000000 })
    analytics := []
    nextId := n + 1 }

/-- A server in London early in November: local time is UTC now and was one hour ahead of
UTC thirty days ago. -/
def londonCtx : Ctx := { sampleCtx with tzOffsetLocal := fun _ => 3600000 }

/-- A store with one account, which joined thirty days and thirty minutes before the
sample clock. -/
def lateJoinerDb : Db :=
  { users := [{ sampleUser with joinDate := 90000 - 30 * 86400000 - 1800000 }]
    analytics := []
    nextId := 3 }

/-- A store with eight analytics documents, one per day of January 2024, stored out of
order; document `k` has the values `10 k`, `k` and `100 k`. -/
def eightSamplesDb : Db :=
  { users := []
    analytics := [5, 2, 8, 1, 7, 3, 6, 4].map (fun k : Nat =>
      { _id := k
        date := 1704067200000 + (k : Int) * 86400000
        activeUsers := JsNumber.ofNat k
        newSignups := JsNumber.ofNat 0
        sales := JsNumber.ofNat (10 * k)
        revenue := JsNumber.ofNat (100 * k) })
    nextId := 9 }

/-- A store with thirty-two analytics documents, one per day, each with one sale and a
revenue of ten. -/
def thirtyTwoDaysDb : Db :=
  { users := []
    analytics := (List.range 32).map (fun k : Nat =>
      { _id := k + 1
        date := 1704067200000 + (k : Int) * 86400000
        activeUsers := JsNumber.ofNat 5
        newSignups := JsNumber.ofNat 0
        sales := JsNumber.ofNat 1
        revenue := JsNumber.ofNat 10 })
    nextId := 33 }

/-- The store after two analytics documents were posted to the empty store: one with sales
of `2 ^ 53` and a revenue of `0.1`, one with sales of `1` and a revenue of `0.2`. -/
def largeSalesDb : Db :=
  (addAnalytics sampleCtx
    (addAnalytics sampleCtx emptyDb
      { body := { sales := some { digits := 9007199254740992 }
                  revenue := some { digits := 1, exp10 := -1 } } }).1
    { body := { sales := some { digits := 1 }
                revenue := some { digits := 2, exp10 := -1 } } }).1

/-- A schedule in which the third store operation of the request fails. -/
def thirdOpFails : Faults := fun k => if k = 2 then some "connection lost" else none

/-- The claims of the sample standard user. -/
def sampleUserClaims : Claims :=
  { id := sampleUser._id, email := sampleUser.email, role := some sampleUser.role }

/-- The token the sample codec issues to the sample standard user at the sample clock. -/
def sampleUserToken : String :=
  sampleSign sampleUserClaims "your_jwt_secret_key" "24h" 90000

/-- A request of the sample standard user aimed at the administrator account. -/
def sampleUserRequest : Request :=
  { authorization := some ("Bearer " ++ sampleUserToken),
    paramId := "000000000000000000000001" }

/-! ## The sample codec meets the contract -/

theorem decNat_encNat (n : Nat) (r : List Char) : decNat (encNat n ++ r) = some (n, r) := by
  induction n with
  | zero => simp [encNat, decNat]
  | succ k ih =>
    have : encNat (k + 1) ++ r = '1' :: (encNat k ++ r) := by
      simp [encNat, List.replicate_succ]
    rw [this, decNat, if_pos rfl, ih]

theorem decInt_encInt (z : Int) (r : List Char) : decInt (encInt z ++ r) = some (z, r) := by
  by_cases hz : z < 0
  · have : encInt z ++ r = '-' :: (encNat z.natAbs ++ r) := by simp [encInt, hz]
    rw [this, decInt, decNat_encNat]
    have hz2 : -(z.natAbs : Int) = z := by omega
    dsimp only
    rw [if_pos rfl, hz2]
  · have : encInt z ++ r = '+' :: (encNat z.natAbs ++ r) := by simp [encInt, hz]
    rw [this, decInt, decNat_encNat]
    have hz2 : (z.natAbs : Int) = z := by omega
    have hc : ¬ ('+' = '-') := by decide
    dsimp only
    rw [if_neg hc, hz2]

theorem decStr_encStr (s : String) (r : List Char) : decStr (encStr s ++ r) = some (s, r) := by
  have : encStr s ++ r = encNat s.length ++ (s.data ++ r) := by
    simp [encStr, List.append_assoc]
  rw [this, decStr, decNat_encNat]
  have hlen : s.length = s.data.length := rfl
  have hle : s.length ≤ (s.data ++ r).length := by
    rw [hlen, List.length_append]
    omega
  simp only [hle, if_true]
  rw [hlen, List.take_left, List.drop_left]

theorem decOpt_encOpt (o : Option String) (r : List Char) :
    decOpt (encOpt o ++ r) = some (o, r) := by
  cases o with
  | none => simp [encOpt, decOpt]
  | some s =>
    have : encOpt (some s) ++ r = '1' :: (encStr s ++ r) := by simp [encOpt]
    rw [this, decOpt, if_pos rfl, decStr_encStr]

theorem sampleVerify_sampleSign (c : Claims) (secret ttl : String) (t t1 : Int) :
    sampleVerify (sampleSign c secret ttl t) secret t1 =
      if t / 1000 + (if ttl = "24h" then 86400 else 0) ≤ t1 / 1000 then .error "jwt expired"
      else .ok c := by
  have h5 := decOpt_encOpt c.role []
  rw [List.append_nil] at h5
  simp only [sampleVerify, sampleSign, List.append_assoc, decStr_encStr, decInt_encInt,
    decNat_encNat, h5, ne_eq, not_true_eq_false, if_false]

theorem sampleSign_ne_empty (c : Claims) (secret ttl : String) (t : Int) :
    sampleSign c secret ttl t ≠ "" := by
  intro h
  have h2 := congrArg String.data h
  simp [sampleSign, encStr, encNat] at h2

theorem samplePrims_contract : CodecContract samplePrims where
  sign_ne_empty := sampleSign_ne_empty
  verify_fresh := by
    intro c secret t t1 h
    show sampleVerify (sampleSign c secret "24h" t) secret t1 = .ok c
    rw [sampleVerify_sampleSign]
    simp only [if_true]
    rw [if_neg (by omega)]
  verify_expired := by
    intro c secret t t1 h
    refine ⟨"jwt expired", ?_⟩
    show sampleVerify (sampleSign c secret "24h" t) secret t1 = .error "jwt expired"
    rw [sampleVerify_sampleSign]
    simp only [if_true]
    rw [if_pos h]

theorem sampleVerify_sampleUserToken :
    sampleCtx.prims.verify sampleUserToken (jwtSecret sampleCtx) sampleCtx.now
      = .ok sampleUserClaims := by
  have h := sampleVerify_sampleSign sampleUserClaims "your_jwt_secret_key" "24h" 90000 90000
  rw [if_pos rfl, if_neg (by decide)] at h
  simp only [sampleCtx, samplePrims, jwtSecret, orElse, sampleUserToken]
  exact h

/-! ## Lemmas on the store operations -/

theorem findOneByEmail_eq_none (users : List User) (e : Option String)
    (h : ∀ u ∈ users, some u.email ≠ e) : findOneByEmail users e = none := by
  cases e with
  | none => rfl
  | some s =>
    simp only [findOneByEmail, List.find?_eq_none]
    intro u hu
    have := h u hu
    simpa using this

theorem findOneByEmail_mem (users : List User) (e : Option String) (u : User)
    (h : findOneByEmail users e = some u) : u ∈ users ∧ some u.email = e := by
  cases e with
  | none => simp [findOneByEmail] at h
  | some s =>
    simp only [findOneByEmail] at h
    refine ⟨List.mem_of_find?_eq_some h, ?_⟩
    have := List.find?_some h
    simpa using this

theorem findOneByEmail_exists (users : List User) (e : Option String)
    (h : ∃ u ∈ users, some u.email = e) : ∃ v, findOneByEmail users e = some v := by
  cases hf : findOneByEmail users e with
  | some v => exact ⟨v, rfl⟩
  | none =>
    exfalso
    obtain ⟨u, hu, hue⟩ := h
    cases e with
    | none => simp at hue
    | some s =>
      simp only [findOneByEmail, List.find?_eq_none] at hf
      have := hf u hu
      simp at hue
      simp [hue] at this

/-- With the unique index on `email` in force, `findOne` returns the stored account itself. -/
theorem findOneByEmail_of_mem (users : List User) (u : User)
    (huniq : users.Pairwise (fun a b => a.email ≠ b.email)) (hu : u ∈ users) :
    findOneByEmail users (some u.email) = some u := by
  induction users with
  | nil => simp at hu
  | cons v vs ih =>
    rw [List.pairwise_cons] at huniq
    simp only [findOneByEmail, List.find?_cons]
    rcases List.mem_cons.mp hu with rfl | hmem
    · simp
    · have hne : v.email ≠ u.email := huniq.1 u hmem
      have : (v.email == u.email) = false := by simpa using hne
      rw [this]
      exact ih huniq.2 hmem

/-- The unique index is an invariant of `save`: a store without duplicate emails has none
after a successful insert. -/
theorem saveUser_keeps_emails_unique (now : Int) (db db1 : Db) (d : NewUser) (u : User)
    (huniq : db.users.Pairwise (fun a b => a.email ≠ b.email))
    (hsave : saveUser now db d = .ok (db1, u)) :
    db1.users.Pairwise (fun a b => a.email ≠ b.email) := by
  unfold saveUser at hsave
  by_cases hv : validateUser d = true
  · rw [if_pos hv] at hsave
    by_cases hdup : (db.users.any fun u => some u.email == d.email) = true
    · rw [if_pos hdup] at hsave
      cases hsave
    · rw [if_neg hdup] at hsave
      simp only [Except.ok.injEq, Prod.mk.injEq] at hsave
      obtain ⟨h1, h2⟩ := hsave
      have hem : requiredString d.email = true := by
        simp only [validateUser, Bool.and_eq_true] at hv
        exact hv.1.1.1.2
      obtain ⟨em, hemq⟩ : ∃ em, d.email = some em := by
        cases h : d.email with
        | none => simp [h, requiredString] at hem
        | some em => exact ⟨em, rfl⟩
      rw [← h1]
      simp only [List.pairwise_append, List.pairwise_cons, List.Pairwise.nil, and_true,
        List.mem_singleton, List.not_mem_nil, false_implies, implies_true]
      refine ⟨huniq, trivial, ?_⟩
      intro a ha b hb
      rw [hb]
      simp only [Bool.not_eq_true, List.any_eq_false] at hdup
      have := hdup a ha
      simp only [buildUser, hemq, Option.getD_some]
      intro heq
      simp [hemq, heq] at this
  · rw [if_neg hv] at hsave
    cases hsave

/-! ## Login -/

/-- The two refusals written out in the handler agree: a login for an email no account has
and a login whose password comparison returns `false` get the same response, status 400
with the body `Invalid credentials`. The third way to fail, a comparison that throws, is
not covered here. -/
theorem login_failures_indistinguishable (ctx : Ctx) (db1 db2 : Db) (req1 req2 : Request)
    (hnone : ∀ u ∈ db1.users, some u.email ≠ req1.body.email)
    (hsome : ∃ u ∈ db2.users, some u.email = req2.body.email)
    (hbad : ∀ u ∈ db2.users, some u.email = req2.body.email →
      ctx.prims.compare req2.body.password u.password = .ok false) :
    (login ctx db1 req1).2 = ⟨400, .message "Invalid credentials"⟩ ∧
      (login ctx db2 req2).2 = (login ctx db1 req1).2 := by
  have h1 : (login ctx db1 req1).2 = ⟨400, .message "Invalid credentials"⟩ := by
    simp [login, findOneByEmail_eq_none db1.users req1.body.email hnone]
  obtain ⟨v, hv⟩ := findOneByEmail_exists db2.users req2.body.email hsome
  obtain ⟨hmem, hemail⟩ := findOneByEmail_mem db2.users req2.body.email v hv
  have hcmp := hbad v hmem hemail
  refine ⟨h1, ?_⟩
  rw [h1]
  simp [login, hv, hcmp]

theorem login_failures_indistinguishable_witness :
    (login sampleCtx sampleDb
        { body := { email := some "nobody@example.com", password := some "user123" } }).2
      = ⟨400, .message "Invalid credentials"⟩ ∧
    (login sampleCtx sampleDb
        { body := { email := some "user3@example.com", password := some "wrong" } }).2
      = (login sampleCtx sampleDb
        { body := { email := some "nobody@example.com", password := some "user123" } }).2 :=
  login_failures_indistinguishable sampleCtx sampleDb sampleDb
    { body := { email := some "nobody@example.com", password := some "user123" } }
    { body := { email := some "user3@example.com", password := some "wrong" } }
    (by decide) (by decide)
    (by simp [sampleDb, sampleAdmin, sampleUser, sampleCtx, samplePrims])

/-- When the comparison throws for a stored account the answer is 500 with the thrown
text, which differs from the answer 400 given for an email no account has. -/
theorem login_throw_differs_from_unknown (ctx : Ctx) (db1 db2 : Db) (req1 req2 : Request)
    (u : User) (e : String)
    (hnone : ∀ v ∈ db1.users, some v.email ≠ req1.body.email)
    (hfound : findOneByEmail db2.users req2.body.email = some u)
    (hthrow : ctx.prims.compare req2.body.password u.password = .error e) :
    (login ctx db1 req1).2 = ⟨400, .message "Invalid credentials"⟩ ∧
      (login ctx db2 req2).2 = ⟨500, .failure "Server error" e⟩ ∧
      (login ctx db2 req2).2 ≠ (login ctx db1 req1).2 := by
  have h1 : (login ctx db1 req1).2 = ⟨400, .message "Invalid credentials"⟩ := by
    simp [login, findOneByEmail_eq_none db1.users req1.body.email hnone]
  have h2 : (login ctx db2 req2).2 = ⟨500, .failure "Server error" e⟩ := by
    simp [login, hfound, hthrow]
  refine ⟨h1, h2, ?_⟩
  rw [h1, h2]
  simp

/-- Claim C1, evaluated where the code departs from it. A login request that carries no
password is answered 500 `Server error` when an account has the email, because the
comparison throws, and 400 `Invalid credentials` when none has: the two failures can be
told apart, so the request reveals whether the account exists. -/
theorem login_missing_password_reveals_account :
    (∃ u ∈ sampleDb.users, u.email = "user3@example.com") ∧
      (∀ u ∈ sampleDb.users, u.email ≠ "nobody@example.com") ∧
      (login sampleCtx sampleDb { body := { email := some "user3@example.com" } }).2
        = ⟨500, .failure "Server error" "Illegal arguments: undefined, string"⟩ ∧
      (login sampleCtx sampleDb { body := { email := some "nobody@example.com" } }).2
        = ⟨400, .message "Invalid credentials"⟩ ∧
      (login sampleCtx sampleDb { body := { email := some "user3@example.com" } }).2
        ≠ (login sampleCtx sampleDb { body := { email := some "nobody@example.com" } }).2 := by
  decide

theorem findOneByEmail_map_status (users : List User) (f : User → String)
    (e : Option String) :
    findOneByEmail (users.map (fun v => { v with status := f v })) e
      = (findOneByEmail users e).map (fun v => { v with status := f v }) := by
  cases e with
  | none => rfl
  | some s =>
    simp only [findOneByEmail, List.find?_map]
    rfl

/-- Claim C2. For a stored account, active or not, and a password that verifies against its
hash, login answers 200 with a token signed over the account's id, email and role; and the
response of login is the same whatever the `status` fields of the stored accounts are. -/
theorem login_succeeds_with_stored_claims (ctx : Ctx) (db : Db) (req : Request) (u : User)
    (huniq : db.users.Pairwise (fun a b => a.email ≠ b.email))
    (hu : u ∈ db.users) (hemail : req.body.email = some u.email)
    (hpw : ctx.prims.compare req.body.password u.password = .ok true) :
    login ctx db req =
        (db, ⟨200, .session
          (ctx.prims.sign { id := u._id, email := u.email, role := some u.role }
            (jwtSecret ctx) "24h" ctx.now)
          u._id u.name u.email u.role⟩) ∧
      ∀ f : User → String,
        (login ctx { db with users := db.users.map (fun v => { v with status := f v }) }
          req).2 = (login ctx db req).2 := by
  constructor
  · have hfind := findOneByEmail_of_mem db.users u huniq hu
    simp [login, hemail, hfind, hpw]
  · intro f
    simp only [login, findOneByEmail_map_status]
    cases findOneByEmail db.users req.body.email with
    | none => rfl
    | some v =>
      simp only [Option.map_some']
      cases ctx.prims.compare req.body.password v.password with
      | error e => rfl
      | ok b => cases b <;> rfl

theorem login_succeeds_with_stored_claims_witness :
    login sampleCtx sampleDb
        { body := { email := some "user3@example.com", password := some "user123" } } =
        (sampleDb, ⟨200, .session
          (sampleCtx.prims.sign
            { id := sampleUser._id, email := sampleUser.email, role := some sampleUser.role }
            (jwtSecret sampleCtx) "24h" sampleCtx.now)
          sampleUser._id sampleUser.name sampleUser.email sampleUser.role⟩) ∧
      ∀ f : User → String,
        (login sampleCtx
          { sampleDb with users := sampleDb.users.map (fun v => { v with status := f v }) }
          { body := { email := some "user3@example.com", password := some "user123" } }).2 =
        (login sampleCtx sampleDb
          { body := { email := some "user3@example.com", password := some "user123" } }).2 :=
  login_succeeds_with_stored_claims sampleCtx sampleDb
    { body := { email := some "user3@example.com", password := some "user123" } } sampleUser
    (by decide) (by decide) rfl (by rfl)

/-! ## Registration -/

/-- Claim C3. Registering with an email that an account already has answers 400 with
`User already exists` and returns the store as it was: no account is added and every
stored account keeps all its fields. -/
theorem register_duplicate_email_rejected (ctx : Ctx) (db : Db) (req : Request)
    (h : ∃ u ∈ db.users, some u.email = req.body.email) :
    register ctx db req = (db, ⟨400, .message "User already exists"⟩) := by
  obtain ⟨v, hv⟩ := findOneByEmail_exists db.users req.body.email h
  simp [register, hv]

theorem register_duplicate_email_rejected_witness :
    register sampleCtx sampleDb
        { body := { name := some "Again", email := some "admin@example.com",
                    password := some "pw" } } =
      (sampleDb, ⟨400, .message "User already exists"⟩) :=
  register_duplicate_email_rejected sampleCtx sampleDb
    { body := { name := some "Again", email := some "admin@example.com",
                password := some "pw" } }
    (by decide)

/-- The store rejects a role outside the schema enumeration: a register request with a
fresh email and the role `Manager` is answered 500 and no account is created. -/
theorem register_invalid_role_creates_nothing :
    (∀ u ∈ sampleDb.users, some u.email ≠ some "new@example.com") ∧
      register sampleCtx sampleDb
          { body := { name := some "New", email := some "new@example.com",
                      password := some "secret", role := some "Manager" } } =
        (sampleDb, ⟨500, .failure "Server error" "User validation failed"⟩) := by
  decide

/-- Claim C4, amended. A register request with a fresh email that passes the schema
validation (non-empty name and email, a role that is absent, empty, `Admin` or `User`) and
whose password the hasher turns into a non-empty hash creates exactly one account: it is
appended to the collection, its role is the requested one (`User` when none is given),
its status is `Active`, and its password field is the hasher's output, which is not the
plaintext unless the hasher returned its input unchanged. -/
theorem register_creates_one_account (ctx : Ctx) (db : Db) (req : Request)
    (salt hashed : String)
    (hfresh : ∀ u ∈ db.users, some u.email ≠ req.body.email)
    (hname : requiredString req.body.name = true)
    (hemail : requiredString req.body.email = true)
    (hrole : orElse req.body.role "User" = "Admin" ∨ orElse req.body.role "User" = "User")
    (hsalt : ctx.prims.genSalt 10 = .ok salt)
    (hhash : ctx.prims.hash req.body.password salt = .ok hashed)
    (hne : hashed ≠ "") :
    ∃ u : User,
      register ctx db req =
          ({ db with users := db.users ++ [u], nextId := db.nextId + 1 },
            ⟨201, .registered "User registered successfully" u._id⟩) ∧
        u.role = orElse req.body.role "User" ∧
        (req.body.role = none → u.role = "User") ∧
        u.status = "Active" ∧
        u.password = hashed ∧
        (req.body.password ≠ some hashed → req.body.password ≠ some u.password) ∧
        some u.email = req.body.email ∧
        some u.name = req.body.name ∧
        u.joinDate = ctx.now ∧
        u._id = db.nextId := by
  have hfind := findOneByEmail_eq_none db.users req.body.email hfresh
  obtain ⟨nm, hnm⟩ : ∃ nm, req.body.name = some nm := by
    cases h : req.body.name with
    | none => simp [h, requiredString] at hname
    | some nm => exact ⟨nm, rfl⟩
  obtain ⟨em, hem⟩ : ∃ em, req.body.email = some em := by
    cases h : req.body.email with
    | none => simp [h, requiredString] at hemail
    | some em => exact ⟨em, rfl⟩
  have hvalid : validateUser
      { name := req.body.name, email := req.body.email, password := some hashed,
        role := some (orElse req.body.role "User"), status := none } = true := by
    have hp : requiredString (some hashed) = true := by simpa [requiredString] using hne
    have hr : (orElse req.body.role "User" == "Admin" || orElse req.body.role "User" == "User")
        = true := by
      rcases hrole with h | h <;> simp [h]
    simp [validateUser, hname, hemail, hp, hr]
  have hnodup : (db.users.any fun u => some u.email == req.body.email) = false := by
    rw [List.any_eq_false]
    intro u hu
    have := hfresh u hu
    simpa using this
  refine ⟨buildUser db.nextId ctx.now
      { name := req.body.name, email := req.body.email, password := some hashed,
        role := some (orElse req.body.role "User"), status := none }, ?_, ?_, ?_, ?_, ?_, ?_, ?_,
      ?_, ?_, ?_⟩
  · simp [register, hfind, hsalt, hhash, saveUser, hvalid, hnodup]
  · simp [buildUser]
  · intro h
    simp [buildUser, h, orElse]
  · simp [buildUser]
  · simp [buildUser]
  · intro h
    simpa [buildUser] using h
  · simp [buildUser, hem]
  · simp [buildUser, hnm]
  · simp [buildUser]
  · simp [buildUser]

theorem register_creates_one_account_witness :
    ∃ u : User,
      register sampleCtx sampleDb
          { body := { name := some "New", email := some "new@example.com",
                      password := some "secret" } } =
          ({ sampleDb with users := sampleDb.users ++ [u], nextId := sampleDb.nextId + 1 },
            ⟨201, .registered "User registered successfully" u._id⟩) ∧
        u.role = orElse none "User" ∧
        ((none : Option String) = none → u.role = "User") ∧
        u.status = "Active" ∧
        u.password = "$salt$secret" ∧
        (some "secret" ≠ some "$salt$secret" → some "secret" ≠ some u.password) ∧
        some u.email = some "new@example.com" ∧
        some u.name = some "New" ∧
        u.joinDate = sampleCtx.now ∧
        u._id = sampleDb.nextId :=
  register_creates_one_account sampleCtx sampleDb
    { body := { name := some "New", email := some "new@example.com",
                password := some "secret" } }
    "salt" "$salt$secret" (by decide) (by decide) (by decide) (by decide) rfl rfl (by decide)

/-! ## The authentication middleware -/

theorem removeFirst_eq_nil_iff (pat l : List Char) :
    removeFirst pat l = [] ↔ l = [] ∨ l = pat := by
  cases l with
  | nil => simp [removeFirst]
  | cons c cs =>
    by_cases hp : pat.isPrefixOf (c :: cs) = true
    · obtain ⟨t, ht⟩ := List.isPrefixOf_iff_prefix.mp hp
      simp only [removeFirst, hp, if_true]
      rw [← ht, List.drop_left]
      constructor
      · intro h
        right
        simp [h]
      · intro h
        rcases h with h | h
        · exfalso
          rw [h] at ht
          simp at ht
        · simpa using h
    · have hne : c :: cs ≠ pat := by
        intro h
        apply hp
        rw [h]
        exact List.isPrefixOf_iff_prefix.mpr (List.prefix_refl pat)
      simp [removeFirst, hp, hne]

theorem removeFirst_append (pat l : List Char) (hpat : pat ≠ []) :
    removeFirst pat (pat ++ l) = l := by
  cases pat with
  | nil => exact absurd rfl hpat
  | cons p ps =>
    have hp : (p :: ps).isPrefixOf (p :: (ps ++ l)) = true :=
      List.isPrefixOf_iff_prefix.mpr ⟨l, rfl⟩
    have hd : List.drop (p :: ps).length (p :: (ps ++ l)) = l := by
      have := List.drop_left (p :: ps) l
      simp at this
      simp
    rw [List.cons_append, removeFirst, if_pos hp]
    exact hd

theorem extractToken_bearer (tok : String) :
    extractToken (some ("Bearer " ++ tok)) = some tok := by
  simp only [extractToken, Option.map_some', String.data_append]
  rw [removeFirst_append _ _ (by decide)]

theorem extractToken_empty_iff (header : Option String) :
    (extractToken header = none ∨ extractToken header = some "") ↔
      (header = none ∨ header = some "" ∨ header = some "Bearer ") := by
  cases header with
  | none => simp [extractToken]
  | some h =>
    have key : String.mk (removeFirst "Bearer ".data h.data) = "" ↔
        (h = "" ∨ h = "Bearer ") := by
      simp only [String.ext_iff]
      exact removeFirst_eq_nil_iff _ _
    simpa [extractToken] using key

/-- Claim C5. The middleware answers 401 exactly when no token is presented (the
`Authorization` header is absent, empty or the bare scheme `Bearer `), answers 400 exactly
when a token is presented and the codec rejects it, and in either case the rest of the
route does not run: the route's result is that response and the store is untouched. -/
theorem authenticateToken_rejections (ctx : Ctx) (db : Db) (req : Request) :
    (authenticateToken ctx db req =
          .respond ⟨401, .message "Access denied. No token provided."⟩ ↔
        (req.authorization = none ∨ req.authorization = some ""
          ∨ req.authorization = some "Bearer ")) ∧
      (authenticateToken ctx db req = .respond ⟨400, .message "Invalid token"⟩ ↔
        ∃ tok e, extractToken req.authorization = some tok ∧ tok ≠ "" ∧
          ctx.prims.verify tok (jwtSecret ctx) ctx.now = .error e) ∧
      (∀ r, authenticateToken ctx db req = .respond r →
        (r.status = 401 ∨ r.status = 400) ∧
          ∀ (ms : List Middleware) (h : Handler),
            chain (authenticateToken :: ms) h ctx db req = (db, r)) := by
  refine ⟨?_, ?_, ?_⟩
  · rw [← extractToken_empty_iff]
    unfold authenticateToken
    cases extractToken req.authorization with
    | none => simp
    | some tok =>
      by_cases ht : tok = ""
      · simp [ht]
      · simp only [ht, if_false]
        cases ctx.prims.verify tok (jwtSecret ctx) ctx.now with
        | ok v => simp [ht]
        | error e => simp [ht]
  · unfold authenticateToken
    cases extractToken req.authorization with
    | none => simp
    | some tok =>
      by_cases ht : tok = ""
      · simp [ht]
      · simp only [ht, if_false]
        cases hv : ctx.prims.verify tok (jwtSecret ctx) ctx.now with
        | ok v => simp [ht, hv]
        | error e => simp [ht, hv]
  · intro r hr
    constructor
    · unfold authenticateToken at hr
      cases hx : extractToken req.authorization with
      | none =>
        simp only [hx, Outcome.respond.injEq] at hr
        left
        rw [← hr]
      | some tok =>
        simp only [hx] at hr
        by_cases ht : tok = ""
        · simp only [ht, if_true, Outcome.respond.injEq] at hr
          left
          rw [← hr]
        · simp only [ht, if_false] at hr
          cases hv : ctx.prims.verify tok (jwtSecret ctx) ctx.now with
          | ok v => simp [hv] at hr
          | error e =>
            simp only [hv, Outcome.respond.injEq] at hr
            right
            rw [← hr]
    · intro ms h
      simp [chain, hr]

theorem authenticateToken_of_verified (ctx : Ctx) (db : Db) (req : Request) (tok : String)
    (claims : Claims)
    (htok : extractToken req.authorization = some tok) (hne : tok ≠ "")
    (hv : ctx.prims.verify tok (jwtSecret ctx) ctx.now = .ok claims) :
    authenticateToken ctx db req = .next { req with user := some claims } := by
  simp [authenticateToken, htok, hne, hv]

/-- Claim C6. When the codec accepts the presented token, the middleware stores exactly the
decoded claims in `req.user` and hands the request to the next stage, and it does so for
every state of the store. -/
theorem authenticateToken_accepts_verbatim (ctx : Ctx) (req : Request) (tok : String)
    (claims : Claims)
    (htok : extractToken req.authorization = some tok) (hne : tok ≠ "")
    (hv : ctx.prims.verify tok (jwtSecret ctx) ctx.now = .ok claims) :
    ∀ db : Db,
      authenticateToken ctx db req = .next { req with user := some claims } ∧
        ∀ (ms : List Middleware) (h : Handler),
          chain (authenticateToken :: ms) h ctx db req
            = chain ms h ctx db { req with user := some claims } := by
  intro db
  have h1 := authenticateToken_of_verified ctx db req tok claims htok hne hv
  exact ⟨h1, fun ms h => by simp [chain, h1]⟩

/-- Claim C8. For validated claims, `isAdmin` answers 403 if and only if the role in the
claims is not exactly `Admin`, and calls the next stage if and only if it is; claims
without a role are answered 403. -/
theorem isAdmin_forbidden_iff (ctx : Ctx) (db : Db) (req : Request) (claims : Claims)
    (hreq : req.user = some claims) :
    (isAdmin ctx db req = .respond ⟨403, .message "Access denied. Admin only."⟩ ↔
        claims.role ≠ some "Admin") ∧
      (isAdmin ctx db req = .next req ↔ claims.role = some "Admin") ∧
      (claims.role = none →
        isAdmin ctx db req = .respond ⟨403, .message "Access denied. Admin only."⟩) := by
  unfold isAdmin
  rw [hreq]
  by_cases hr : claims.role = some "Admin"
  · simp [hr]
  · simp [hr]

theorem authenticateToken_accepts_verbatim_witness :
    (authenticateToken sampleCtx sampleDb sampleUserRequest
          = .next { sampleUserRequest with user := some sampleUserClaims } ∧
        ∀ (ms : List Middleware) (h : Handler),
          chain (authenticateToken :: ms) h sampleCtx sampleDb sampleUserRequest
            = chain ms h sampleCtx sampleDb
                { sampleUserRequest with user := some sampleUserClaims }) ∧
      (authenticateToken sampleCtx emptyDb sampleUserRequest
          = .next { sampleUserRequest with user := some sampleUserClaims } ∧
        ∀ (ms : List Middleware) (h : Handler),
          chain (authenticateToken :: ms) h sampleCtx emptyDb sampleUserRequest
            = chain ms h sampleCtx emptyDb
                { sampleUserRequest with user := some sampleUserClaims }) :=
  ⟨authenticateToken_accepts_verbatim sampleCtx sampleUserRequest sampleUserToken
      sampleUserClaims (extractToken_bearer sampleUserToken) (by decide)
      sampleVerify_sampleUserToken sampleDb,
    authenticateToken_accepts_verbatim sampleCtx sampleUserRequest sampleUserToken
      sampleUserClaims (extractToken_bearer sampleUserToken) (by decide)
      sampleVerify_sampleUserToken emptyDb⟩

theorem isAdmin_forbidden_iff_witness :
    (isAdmin sampleCtx sampleDb { sampleUserRequest with user := some sampleUserClaims }
          = .respond ⟨403, .message "Access denied. Admin only."⟩ ↔
        sampleUserClaims.role ≠ some "Admin") ∧
      (isAdmin sampleCtx sampleDb { sampleUserRequest with user := some sampleUserClaims }
          = .next { sampleUserRequest with user := some sampleUserClaims } ↔
        sampleUserClaims.role = some "Admin") ∧
      (sampleUserClaims.role = none →
        isAdmin sampleCtx sampleDb { sampleUserRequest with user := some sampleUserClaims }
          = .respond ⟨403, .message "Access denied. Admin only."⟩) :=
  isAdmin_forbidden_iff sampleCtx sampleDb
    { sampleUserRequest with user := some sampleUserClaims } sampleUserClaims rfl

/-! ## Administrative routes -/

/-- Claim C9. A request with a valid token whose role is not `Admin` is answered 403 on each
of the four administrative routes; the handler of the route is not reached, whatever it is,
and the store, both collections included, is returned unchanged; in particular a `DELETE`
leaves the account collection as it was. -/
theorem admin_routes_forbidden_for_non_admin (ctx : Ctx) (db : Db) (req : Request)
    (tok : String) (claims : Claims)
    (htok : extractToken req.authorization = some tok) (hne : tok ≠ "")
    (hv : ctx.prims.verify tok (jwtSecret ctx) ctx.now = .ok claims)
    (hrole : claims.role ≠ some "Admin") :
    (∀ h : Handler, chain [authenticateToken, isAdmin] h ctx db req
        = (db, ⟨403, .message "Access denied. Admin only."⟩)) ∧
      getUsersRoute ctx db req = (db, ⟨403, .message "Access denied. Admin only."⟩) ∧
      updateUserRoute ctx db req = (db, ⟨403, .message "Access denied. Admin only."⟩) ∧
      deleteUserRoute ctx db req = (db, ⟨403, .message "Access denied. Admin only."⟩) ∧
      addAnalyticsRoute ctx db req = (db, ⟨403, .message "Access denied. Admin only."⟩) ∧
      (deleteUserRoute ctx db req).1.users = db.users ∧
      (deleteUserRoute ctx db req).1.analytics = db.analytics := by
  have key : ∀ h : Handler, chain [authenticateToken, isAdmin] h ctx db req
      = (db, ⟨403, .message "Access denied. Admin only."⟩) := by
    intro h
    have h1 := authenticateToken_of_verified ctx db req tok claims htok hne hv
    have h2 : isAdmin ctx db { req with user := some claims }
        = .respond ⟨403, .message "Access denied. Admin only."⟩ := by
      simp [isAdmin, hrole]
    simp [chain, h1, h2]
  refine ⟨key, key _, key _, key _, key _, ?_, ?_⟩
  · rw [deleteUserRoute, key]
  · rw [deleteUserRoute, key]

theorem admin_routes_forbidden_for_non_admin_witness :
    (∀ h : Handler, chain [authenticateToken, isAdmin] h sampleCtx sampleDb sampleUserRequest
        = (sampleDb, ⟨403, .message "Access denied. Admin only."⟩)) ∧
      getUsersRoute sampleCtx sampleDb sampleUserRequest
        = (sampleDb, ⟨403, .message "Access denied. Admin only."⟩) ∧
      updateUserRoute sampleCtx sampleDb sampleUserRequest
        = (sampleDb, ⟨403, .message "Access denied. Admin only."⟩) ∧
      deleteUserRoute sampleCtx sampleDb sampleUserRequest
        = (sampleDb, ⟨403, .message "Access denied. Admin only."⟩) ∧
      addAnalyticsRoute sampleCtx sampleDb sampleUserRequest
        = (sampleDb, ⟨403, .message "Access denied. Admin only."⟩) ∧
      (deleteUserRoute sampleCtx sampleDb sampleUserRequest).1.users = sampleDb.users ∧
      (deleteUserRoute sampleCtx sampleDb sampleUserRequest).1.analytics
        = sampleDb.analytics :=
  admin_routes_forbidden_for_non_admin sampleCtx sampleDb sampleUserRequest sampleUserToken
    sampleUserClaims (extractToken_bearer sampleUserToken) (by decide)
    sampleVerify_sampleUserToken (by decide)

/-- The handler behind `DELETE /api/users/:id` does delete: on the sample store, once the
two middleware have let the request through, the administrator account is gone. -/
theorem deleteUser_removes_target :
    deleteUser sampleCtx sampleDb sampleUserRequest
      = ({ sampleDb with users := [sampleUser] }, ⟨200, .message "User deleted successfully"⟩) := by
  decide

/-! ## Token lifetime -/

theorem login_session_token (ctx : Ctx) (db : Db) (req : Request) (tok : String) (id : Nat)
    (name email role : String)
    (hlogin : (login ctx db req).2 = ⟨200, .session tok id name email role⟩) :
    tok = ctx.prims.sign { id := id, email := email, role := some role } (jwtSecret ctx)
      "24h" ctx.now := by
  unfold login at hlogin
  cases hf : findOneByEmail db.users req.body.email with
  | none => simp [hf] at hlogin
  | some u =>
    simp only [hf] at hlogin
    cases hcmp : ctx.prims.compare req.body.password u.password with
    | error e => simp [hcmp] at hlogin
    | ok b =>
      cases b with
      | false => simp [hcmp] at hlogin
      | true =>
        simp only [hcmp, Response.mk.injEq, Body.session.injEq, true_and] at hlogin
        obtain ⟨h1, h2, -, h4, h5⟩ := hlogin
        rw [← h1, h2, h4, h5]

/-- Claim C7. Let the codec keep its contract. A token issued by a successful login at time
`t`, presented as `Bearer <token>`, is accepted at time `t` with the claims login encoded;
it is accepted, for every store and request, at every time whose second count is below
that of `t` plus 86400, so nothing but expiry invalidates it; and it is answered 400
`Invalid token` at every time later than `t` plus 24 hours. -/
theorem login_token_valid_for_24h (ctx : Ctx) (hc : CodecContract ctx.prims) (db : Db)
    (req : Request) (tok : String) (id : Nat) (name email role : String)
    (hlogin : (login ctx db req).2 = ⟨200, .session tok id name email role⟩) :
    ∀ (db1 : Db) (req1 : Request), req1.authorization = some ("Bearer " ++ tok) →
      authenticateToken ctx db1 req1
          = .next { req1 with user := some { id := id, email := email, role := some role } } ∧
      ∀ t1 : Int,
        (t1 / 1000 < ctx.now / 1000 + 86400 →
          authenticateToken { ctx with now := t1 } db1 req1
            = .next { req1 with
                user := some { id := id, email := email, role := some role } }) ∧
        (ctx.now + 86400000 < t1 →
          authenticateToken { ctx with now := t1 } db1 req1
            = .respond ⟨400, .message "Invalid token"⟩) := by
  intro db1 req1 hreq
  have htok := login_session_token ctx db req tok id name email role hlogin
  have hne : tok ≠ "" := by
    rw [htok]
    exact hc.sign_ne_empty _ _ _ _
  have hx : extractToken req1.authorization = some tok := by
    rw [hreq]
    exact extractToken_bearer tok
  have hfresh : ∀ t1 : Int, t1 / 1000 < ctx.now / 1000 + 86400 →
      authenticateToken { ctx with now := t1 } db1 req1
        = .next { req1 with user := some { id := id, email := email, role := some role } } := by
    intro t1 ht
    have hv : ctx.prims.verify tok (jwtSecret ctx) t1
        = .ok { id := id, email := email, role := some role } := by
      rw [htok]
      exact hc.verify_fresh _ _ _ _ ht
    have hs : jwtSecret { ctx with now := t1 } = jwtSecret ctx := rfl
    simp [authenticateToken, hx, hne, hs, hv]
  refine ⟨?_, fun t1 => ⟨hfresh t1, ?_⟩⟩
  · have := hfresh ctx.now (by omega)
    simpa using this
  · intro ht
    have hle : ctx.now / 1000 + 86400 ≤ t1 / 1000 := by omega
    obtain ⟨e, he⟩ := hc.verify_expired { id := id, email := email, role := some role }
      (jwtSecret ctx) ctx.now t1 hle
    rw [← htok] at he
    have hs : jwtSecret { ctx with now := t1 } = jwtSecret ctx := rfl
    simp [authenticateToken, hx, hne, hs, he]

theorem login_token_valid_for_24h_witness :
    authenticateToken sampleCtx emptyDb sampleUserRequest
        = .next { sampleUserRequest with
            user := some { id := 2, email := "user3@example.com", role := some "User" } } ∧
      ∀ t1 : Int,
        (t1 / 1000 < sampleCtx.now / 1000 + 86400 →
          authenticateToken { sampleCtx with now := t1 } emptyDb sampleUserRequest
            = .next { sampleUserRequest with
                user := some { id := 2, email := "user3@example.com",
                               role := some "User" } }) ∧
        (sampleCtx.now + 86400000 < t1 →
          authenticateToken { sampleCtx with now := t1 } emptyDb sampleUserRequest
            = .respond ⟨400, .message "Invalid token"⟩) :=
  login_token_valid_for_24h sampleCtx samplePrims_contract sampleDb
    { body := { email := some "user3@example.com", password := some "user123" } }
    sampleUserToken 2 "User 3" "user3@example.com" "User" (by rfl)
    emptyDb sampleUserRequest rfl

/-! ## Error analysis of the growth-rate arithmetic -/

theorem floorLog2Aux_spec (fuel n : Nat) (hn : 0 < n) (hf : n ≤ fuel) :
    2 ^ floorLog2Aux fuel n ≤ n ∧ n < 2 ^ (floorLog2Aux fuel n + 1) := by
  induction fuel generalizing n with
  | zero => omega
  | succ k ih =>
    by_cases h2 : 2 ≤ n
    · obtain ⟨h1, h3⟩ := ih (n / 2) (by omega) (by omega)
      simp only [floorLog2Aux, h2, if_true]
      have e1 : 2 ^ (floorLog2Aux k (n / 2) + 1) = 2 * 2 ^ floorLog2Aux k (n / 2) := by
        rw [pow_succ, mul_comm]
      have e2 : 2 ^ (floorLog2Aux k (n / 2) + 1 + 1)
          = 2 * 2 ^ (floorLog2Aux k (n / 2) + 1) := by
        rw [pow_succ, mul_comm]
      constructor
      · rw [e1]
        omega
      · rw [e2]
        omega
    · have h1 : n = 1 := by omega
      subst h1
      simp [floorLog2Aux]

theorem floorLog2_spec (n : Nat) (hn : 0 < n) :
    2 ^ floorLog2 n ≤ n ∧ n < 2 ^ (floorLog2 n + 1) :=
  floorLog2Aux_spec n n hn (Nat.le_refl n)

theorem scale2_spec (p q : Nat) (s : Int) (hq : 0 < q) :
    0 < (scale2 p q s).2 ∧
      ((scale2 p q s).1 : ℚ) / ((scale2 p q s).2 : ℚ) = (p : ℚ) / (q : ℚ) * (2 : ℚ) ^ s := by
  have hq1 : (q : ℚ) ≠ 0 := by exact_mod_cast hq.ne.symm
  by_cases hs : 0 ≤ s
  · obtain ⟨k, rfl⟩ := Int.eq_ofNat_of_zero_le hs
    simp only [scale2, hs, if_true, Int.toNat_ofNat]
    refine ⟨hq, ?_⟩
    push_cast
    rw [zpow_natCast]
    ring
  · obtain ⟨k, rfl⟩ := Int.exists_eq_neg_ofNat (le_of_lt (not_le.mp hs))
    simp only [scale2, hs, if_false, neg_neg, Int.toNat_ofNat]
    refine ⟨Nat.mul_pos hq (Nat.pos_pow_of_pos _ (by decide)), ?_⟩
    push_cast
    rw [zpow_neg, zpow_natCast]
    field_simp

theorem roundNearestEven_spec (p q : Nat) (hq : 0 < q) :
    |(roundNearestEven p q : ℚ) - (p : ℚ) / (q : ℚ)| ≤ 1 / 2 := by
  have hq0 : (0 : ℚ) < q := by exact_mod_cast hq
  have hp : (p : ℚ) = (q : ℚ) * ((p / q : Nat) : ℚ) + ((p % q : Nat) : ℚ) := by
    exact_mod_cast (Nat.div_add_mod p q).symm
  have hr : ((p % q : Nat) : ℚ) < q := by exact_mod_cast Nat.mod_lt p hq
  have hr0 : (0 : ℚ) ≤ ((p % q : Nat) : ℚ) := by positivity
  have key : ∀ x : ℚ, |x * q - p| ≤ q / 2 → |x - (p : ℚ) / q| ≤ 1 / 2 := by
    intro x hx
    have e : x - (p : ℚ) / q = (x * q - p) / q := by field_simp
    rw [e, abs_div, abs_of_pos hq0, div_le_iff₀ hq0]
    linarith
  apply key
  unfold roundNearestEven
  simp only
  by_cases h1 : 2 * (p % q) < q
  · have h1q : (2 : ℚ) * ((p % q : Nat) : ℚ) < q := by exact_mod_cast h1
    rw [if_pos h1, abs_le]
    constructor <;> linarith
  · rw [if_neg h1]
    by_cases h2 : q < 2 * (p % q)
    · have h2q : (q : ℚ) < 2 * ((p % q : Nat) : ℚ) := by exact_mod_cast h2
      rw [if_pos h2, abs_le]
      push_cast
      constructor <;> linarith
    · rw [if_neg h2]
      have h3 : 2 * (p % q) = q := by omega
      have h3q : (2 : ℚ) * ((p % q : Nat) : ℚ) = q := by exact_mod_cast h3
      by_cases h4 : p / q % 2 = 0
      · rw [if_pos h4, abs_le]
        constructor <;> linarith
      · rw [if_neg h4, abs_le]
        push_cast
        constructor <;> linarith

theorem binade_le (p q : Nat) (hp : 0 < p) (hq : 0 < q) :
    (2 : ℚ) ^ binade p q ≤ (p : ℚ) / (q : ℚ) := by
  have hq0 : (0 : ℚ) < q := by exact_mod_cast hq
  have h2 : (2 : ℚ) ≠ 0 := two_ne_zero
  unfold binade
  simp only
  generalize he : (floorLog2 p : Int) - (floorLog2 q : Int) = e0
  obtain ⟨hQ, hPQ⟩ := scale2_spec p q (-e0) hq
  have hQ0 : (0 : ℚ) < ((scale2 p q (-e0)).2 : ℚ) := by exact_mod_cast hQ
  have ht : (0 : ℚ) < (2 : ℚ) ^ e0 := zpow_pos (by norm_num) e0
  by_cases htest : (scale2 p q (-e0)).2 ≤ (scale2 p q (-e0)).1
  · rw [if_pos htest]
    have h1 : (1 : ℚ) ≤ ((scale2 p q (-e0)).1 : ℚ) / ((scale2 p q (-e0)).2 : ℚ) := by
      rw [le_div_iff₀ hQ0, one_mul]
      exact_mod_cast htest
    rw [hPQ, zpow_neg] at h1
    have h3 : (p : ℚ) / q * ((2 : ℚ) ^ e0)⁻¹ = (p : ℚ) / q / (2 : ℚ) ^ e0 := by
      rw [div_eq_mul_inv ((p : ℚ) / q)]
    rw [h3, le_div_iff₀ ht, one_mul] at h1
    exact h1
  · rw [if_neg htest]
    obtain ⟨hp1, -⟩ := floorLog2_spec p hp
    obtain ⟨-, hq2⟩ := floorLog2_spec q hq
    have hp1q : (2 : ℚ) ^ (floorLog2 p) ≤ (p : ℚ) := by exact_mod_cast hp1
    have hq2q : (q : ℚ) ≤ (2 : ℚ) ^ (floorLog2 q + 1) := by exact_mod_cast hq2.le
    have e1 : (2 : ℚ) ^ (e0 - 1) = (2 : ℚ) ^ (floorLog2 p) / (2 : ℚ) ^ (floorLog2 q + 1) := by
      rw [← he, ← zpow_natCast, ← zpow_natCast, ← zpow_sub₀ h2]
      congr 1
      push_cast
      ring
    rw [e1]
    have hpos : (0 : ℚ) < (2 : ℚ) ^ (floorLog2 q + 1) := by positivity
    calc (2 : ℚ) ^ (floorLog2 p) / (2 : ℚ) ^ (floorLog2 q + 1)
        ≤ (p : ℚ) / (2 : ℚ) ^ (floorLog2 q + 1) := by
          apply div_le_div_of_nonneg_right hp1q hpos.le
      _ ≤ (p : ℚ) / q := by
          apply div_le_div_of_nonneg_left _ hq0 hq2q
          positivity

theorem roundF64_err (p q : Nat) (hq : 0 < q) :
    |(roundF64 p q).toRat - (p : ℚ) / (q : ℚ)| ≤ (p : ℚ) / (q : ℚ) * (1 / 2 ^ 53) := by
  by_cases hp : p = 0
  · subst hp
    simp [roundF64, F64.toRat]
  · have hp0 : 0 < p := Nat.pos_of_ne_zero hp
    have h2 : (2 : ℚ) ≠ 0 := two_ne_zero
    have hbin := binade_le p q hp0 hq
    simp only [roundF64, hp, if_false, F64.toRat]
    generalize binade p q = e at hbin ⊢
    obtain ⟨hQ, hPQ⟩ := scale2_spec p q (52 - e) hq
    have hrne := roundNearestEven_spec (scale2 p q (52 - e)).1 (scale2 p q (52 - e)).2 hQ
    rw [hPQ] at hrne
    generalize (roundNearestEven (scale2 p q (52 - e)).1 (scale2 p q (52 - e)).2 : ℚ) = m
      at hrne ⊢
    have ht : (0 : ℚ) < (2 : ℚ) ^ e := zpow_pos (by norm_num) e
    have e1 : (2 : ℚ) ^ (52 - e) = 2 ^ 52 / (2 : ℚ) ^ e := by
      rw [zpow_sub₀ h2]
      norm_num
    have e2 : (2 : ℚ) ^ (e - 52) = (2 : ℚ) ^ e / 2 ^ 52 := by
      rw [zpow_sub₀ h2]
      norm_num
    rw [e1] at hrne
    rw [e2]
    generalize (2 : ℚ) ^ e = t at ht hbin hrne ⊢
    generalize (p : ℚ) / (q : ℚ) = v at hbin hrne ⊢
    have e3 : m * (t / 2 ^ 52) - v = (m - v * (2 ^ 52 / t)) * (t / 2 ^ 52) := by
      field_simp
      ring
    rw [e3, abs_mul, abs_of_pos (by positivity : (0 : ℚ) < t / 2 ^ 52)]
    calc |m - v * (2 ^ 52 / t)| * (t / 2 ^ 52)
        ≤ 1 / 2 * (t / 2 ^ 52) := by
          apply mul_le_mul_of_nonneg_right hrne
          positivity
      _ = t * (1 / 2 ^ 53) := by ring
      _ ≤ v * (1 / 2 ^ 53) := by
          apply mul_le_mul_of_nonneg_right hbin
          positivity

theorem scale2_one_toRat (x : F64) (c : Nat) :
    0 < (scale2 (x.mant * c) 1 x.expo).2 ∧
      ((scale2 (x.mant * c) 1 x.expo).1 : ℚ) / ((scale2 (x.mant * c) 1 x.expo).2 : ℚ)
        = x.toRat * c := by
  obtain ⟨h1, h2⟩ := scale2_spec (x.mant * c) 1 x.expo (by decide)
  refine ⟨h1, ?_⟩
  rw [h2, F64.toRat]
  push_cast
  ring

theorem mulNat_err (x : F64) (c : Nat) :
    |(x.mulNat c).toRat - x.toRat * c| ≤ x.toRat * c * (1 / 2 ^ 53) := by
  obtain ⟨h1, h2⟩ := scale2_one_toRat x c
  have := roundF64_err (scale2 (x.mant * c) 1 x.expo).1 (scale2 (x.mant * c) 1 x.expo).2 h1
  rw [h2] at this
  exact this

theorem tenths_spec (x : F64) :
    (x.tenths : ℚ) ≤ 10 * x.toRat + 1 / 2 ∧ 10 * x.toRat + 1 / 2 < (x.tenths : ℚ) + 1 := by
  obtain ⟨h1, h2⟩ := scale2_one_toRat x 1
  simp only [Nat.mul_one, Nat.cast_one, mul_one] at h1 h2
  unfold F64.tenths
  simp only
  generalize (scale2 x.mant 1 x.expo).1 = P at h2 ⊢
  generalize (scale2 x.mant 1 x.expo).2 = Q at h1 h2 ⊢
  have hQ : (0 : ℚ) < Q := by exact_mod_cast h1
  have hv : (P : ℚ) = x.toRat * Q := by
    rw [← h2]
    field_simp
  have hlo : 2 * Q * ((20 * P + Q) / (2 * Q)) ≤ 20 * P + Q := Nat.mul_div_le _ _
  have hhi : 20 * P + Q < 2 * Q * ((20 * P + Q) / (2 * Q) + 1) :=
    Nat.lt_mul_div_succ _ (by omega)
  have hloq : (2 : ℚ) * Q * (((20 * P + Q) / (2 * Q) : Nat) : ℚ) ≤ 20 * P + Q := by
    exact_mod_cast hlo
  have hhiq : (20 : ℚ) * P + Q < 2 * Q * ((((20 * P + Q) / (2 * Q) : Nat) : ℚ) + 1) := by
    exact_mod_cast hhi
  generalize (((20 * P + Q) / (2 * Q) : Nat) : ℚ) = n at hloq hhiq ⊢
  rw [hv] at hloq hhiq
  constructor
  · have : 2 * (Q : ℚ) * n ≤ 2 * Q * (10 * x.toRat + 1 / 2) := by
      calc 2 * (Q : ℚ) * n ≤ 20 * (x.toRat * Q) + Q := hloq
        _ = 2 * Q * (10 * x.toRat + 1 / 2) := by ring
    exact le_of_mul_le_mul_left this (by positivity)
  · have : 2 * (Q : ℚ) * (10 * x.toRat + 1 / 2) < 2 * Q * (n + 1) := by
      calc 2 * (Q : ℚ) * (10 * x.toRat + 1 / 2) = 20 * (x.toRat * Q) + Q := by ring
        _ < 2 * Q * (n + 1) := hhiq
    exact lt_of_mul_lt_mul_left this (by positivity)

theorem growth_tenths_near (a b : Nat) (hb : 0 < b) (hab : a ≤ b) :
    |(((F64.ofDiv a b).mulNat 100).tenths : ℚ) - 1000 * ((a : ℚ) / (b : ℚ))|
      ≤ 1 / 2 + 1 / 2 ^ 42 := by
  have hb0 : (0 : ℚ) < b := by exact_mod_cast hb
  have hr0 : (0 : ℚ) ≤ (a : ℚ) / b := by positivity
  have hr1 : (a : ℚ) / b ≤ 1 := by
    rw [div_le_one hb0]
    exact_mod_cast hab
  have h1 := roundF64_err a b hb
  have h2 := mulNat_err (F64.ofDiv a b) 100
  obtain ⟨h3, h4⟩ := tenths_spec ((F64.ofDiv a b).mulNat 100)
  change |(F64.ofDiv a b).toRat - (a : ℚ) / b| ≤ _ at h1
  generalize (((F64.ofDiv a b).mulNat 100).tenths : ℚ) = n at h3 h4 ⊢
  generalize ((F64.ofDiv a b).mulNat 100).toRat = v2 at h2 h3 h4
  generalize (F64.ofDiv a b).toRat = v1 at h1 h2
  generalize (a : ℚ) / b = r at hr0 hr1 h1
  rw [abs_le] at h1 h2 ⊢
  obtain ⟨h1a, h1b⟩ := h1
  obtain ⟨h2a, h2b⟩ := h2
  push_cast at h2a h2b
  norm_num at h1a h1b h2a h2b ⊢
  constructor <;> linarith

theorem growth_tenths_nearest (a b : Nat) (hb : 0 < b) (hab : a ≤ b) (hsize : b < 2 ^ 40) :
    |(((F64.ofDiv a b).mulNat 100).tenths : ℚ) / 10 - 100 * ((a : ℚ) / (b : ℚ))|
      ≤ 1 / 20 := by
  have hb0 : (0 : ℚ) < b := by exact_mod_cast hb
  have hbs : (b : ℚ) < 2 ^ 40 := by exact_mod_cast hsize
  have hnear := growth_tenths_near a b hb hab
  generalize ((F64.ofDiv a b).mulNat 100).tenths = n at hnear ⊢
  have hz : ((((n : Int) * b - 1000 * a : Int)) : ℚ)
      = ((n : ℚ) - 1000 * ((a : ℚ) / b)) * b := by
    push_cast
    field_simp
  have habs : |((((n : Int) * b - 1000 * a : Int)) : ℚ)| ≤ (1 / 2 + 1 / 2 ^ 42) * b := by
    rw [hz, abs_mul, abs_of_pos hb0]
    exact mul_le_mul_of_nonneg_right hnear hb0.le
  have hlt : ((2 * |(n : Int) * b - 1000 * a| : Int) : ℚ) < ((b + 1 : Int) : ℚ) := by
    push_cast
    push_cast at habs
    norm_num at habs ⊢
    linarith
  have hint : 2 * |(n : Int) * b - 1000 * a| ≤ (b : Int) := by
    have := Int.cast_lt.mp hlt
    omega
  have hq : (2 : ℚ) * |(n : ℚ) * b - 1000 * a| ≤ b := by
    have : ((2 * |(n : Int) * b - 1000 * a| : Int) : ℚ) ≤ ((b : Int) : ℚ) :=
      Int.cast_le.mpr hint
    push_cast at this
    exact this
  have e : (n : ℚ) / 10 - 100 * ((a : ℚ) / b) = ((n : ℚ) * b - 1000 * a) / (10 * b) := by
    field_simp
    ring
  rw [e, abs_div, abs_of_pos (by positivity : (0 : ℚ) < 10 * b), div_le_iff₀ (by positivity)]
  linarith

/-! ## The metrics handler -/

/-- The handler against the specification's wording. On a store of 80 accounts of which 23
joined in the last thirty days the exact rate is 28.75, which rounds to 28.8 both with
halves going up and with halves going to the even digit; the handler returns `28.7`,
because the binary64 product is 28.749999999999996. -/
theorem metrics_growthRate_midpoint :
    (computeMetrics sampleCtx (accountsDb 80 23)).totalUsers = 80 ∧
      (computeMetrics sampleCtx (accountsDb 80 23)).newSignups = 23 ∧
      (computeMetrics sampleCtx (accountsDb 80 23)).growthRate = .string "28.7" ∧
      renderTenths (specGrowthTenths 23 80) = "28.8" ∧
      renderTenths (roundNearestEven (1000 * 23) 80) = "28.8" ∧
      (computeMetrics sampleCtx (accountsDb 80 23)).growthRate
        ≠ .string (renderTenths (specGrowthTenths 23 80)) := by
  set_option maxRecDepth 4000 in decide

/-- Beyond the range of the nearest-tenth guarantee: for 5342921890859 accounts of which
4111378395016 are recent the exact rate lies just below 76.95, and the expression yields
`77.0`, which is not a tenth nearest to it. -/
theorem growthRate_not_nearest_at_scale :
    growthRate 4111378395016 5342921890859 = .string (renderTenths 770) ∧
      ¬ (2 * |(770 : Int) * 5342921890859 - 1000 * 4111378395016| ≤ 5342921890859) := by
  decide

/-- Claim C10, amended. The metrics handler answers 200 and leaves the store alone. With no
account `growthRate` is the number `0`. Otherwise it is the string of `toFixed(1)` for a
number of tenths `n` with `n / 10` within `0.05 + 2 ^ (-42) / 10` of the exact percentage
`100 * newSignups / totalUsers`, and within `0.05` of it, that is a nearest tenth, for a
store of fewer than `2 ^ 40` accounts. For 10 accounts of which 3 joined in the last
thirty days `newSignups` is `3` and `growthRate` is `30.0`. -/
theorem metrics_growthRate_nearest_tenth (ctx : Ctx) (db : Db) (req : Request) :
    getMetrics ctx db req = (db, ⟨200, .metrics (computeMetrics ctx db)⟩) ∧
      (computeMetrics ctx db).totalUsers = db.users.length ∧
      ((computeMetrics ctx db).totalUsers = 0 →
        (computeMetrics ctx db).growthRate = .number 0) ∧
      (0 < (computeMetrics ctx db).totalUsers →
        ∃ n : Nat,
          (computeMetrics ctx db).growthRate = .string (renderTenths n) ∧
          |(n : ℚ) / 10 - 100 * (((computeMetrics ctx db).newSignups : ℚ)
              / ((computeMetrics ctx db).totalUsers : ℚ))| ≤ 1 / 20 + 1 / (10 * 2 ^ 42) ∧
          ((computeMetrics ctx db).totalUsers < 2 ^ 40 →
            |(n : ℚ) / 10 - 100 * (((computeMetrics ctx db).newSignups : ℚ)
              / ((computeMetrics ctx db).totalUsers : ℚ))| ≤ 1 / 20)) ∧
      (db.users.length = 10 →
        (db.users.filter (fun u => decide (thirtyDaysAgo ctx ≤ u.joinDate))).length = 3 →
        (computeMetrics ctx db).newSignups = 3 ∧
          (computeMetrics ctx db).growthRate = .string "30.0") := by
  have hle : db.users.countP (fun u => decide (thirtyDaysAgo ctx ≤ u.joinDate))
      ≤ db.users.length := List.countP_le_length _
  refine ⟨rfl, rfl, ?_, ?_, ?_⟩
  · intro h0
    have h0 : db.users.length = 0 := h0
    simp [computeMetrics, growthRate, h0]
  · intro hpos
    have hpos : 0 < db.users.length := hpos
    refine ⟨((F64.ofDiv (db.users.countP (fun u => decide (thirtyDaysAgo ctx ≤ u.joinDate)))
      db.users.length).mulNat 100).tenths, ?_, ?_, ?_⟩
    · simp [computeMetrics, growthRate, hpos, F64.toFixed1]
    · have hnear := growth_tenths_near _ _ hpos hle
      simp only [computeMetrics]
      generalize (((F64.ofDiv (db.users.countP (fun u => decide (thirtyDaysAgo ctx ≤ u.joinDate)))
        db.users.length).mulNat 100).tenths : ℚ) = n at hnear ⊢
      generalize ((db.users.countP (fun u => decide (thirtyDaysAgo ctx ≤ u.joinDate)) : Nat) : ℚ)
        / (db.users.length : ℚ) = r at hnear ⊢
      rw [abs_le] at hnear ⊢
      obtain ⟨ha, hb⟩ := hnear
      constructor
      · have : (-(1 / 20 + 1 / (10 * 2 ^ 42)) : ℚ) = (-(1 / 2 + 1 / 2 ^ 42)) / 10 := by
          norm_num
        rw [this]
        linarith
      · have : ((1 / 20 + 1 / (10 * 2 ^ 42)) : ℚ) = (1 / 2 + 1 / 2 ^ 42) / 10 := by
          norm_num
        rw [this]
        linarith
    · intro hsize
      exact growth_tenths_nearest _ _ hpos hle hsize
  · intro hlen hrecent
    have hcount : db.users.countP (fun u => decide (thirtyDaysAgo ctx ≤ u.joinDate)) = 3 := by
      rw [List.countP_eq_length_filter]
      exact hrecent
    constructor
    · simp only [computeMetrics]
      exact hcount
    · simp only [computeMetrics, hcount, hlen]
      decide

theorem metrics_growthRate_nearest_tenth_witness :
    (computeMetrics sampleCtx (accountsDb 10 3)).newSignups = 3 ∧
      (computeMetrics sampleCtx (accountsDb 10 3)).growthRate = .string "30.0" :=
  (metrics_growthRate_nearest_tenth sampleCtx (accountsDb 10 3) {}).2.2.2.2
    (by decide) (by decide)

/-! ## Rounding to binary64 -/

theorem binade_lt (p q : Nat) (hp : 0 < p) (hq : 0 < q) :
    (p : ℚ) / (q : ℚ) < (2 : ℚ) ^ (binade p q + 1) := by
  have hq0 : (0 : ℚ) < q := by exact_mod_cast hq
  have h2 : (2 : ℚ) ≠ 0 := two_ne_zero
  unfold binade
  simp only
  generalize he : (floorLog2 p : Int) - (floorLog2 q : Int) = e0
  obtain ⟨hQ, hPQ⟩ := scale2_spec p q (-e0) hq
  have hQ0 : (0 : ℚ) < ((scale2 p q (-e0)).2 : ℚ) := by exact_mod_cast hQ
  have ht : (0 : ℚ) < (2 : ℚ) ^ e0 := zpow_pos (by norm_num) e0
  by_cases htest : (scale2 p q (-e0)).2 ≤ (scale2 p q (-e0)).1
  · rw [if_pos htest]
    obtain ⟨-, hp2⟩ := floorLog2_spec p hp
    obtain ⟨hq1, -⟩ := floorLog2_spec q hq
    have hp2q : (p : ℚ) < (2 : ℚ) ^ (floorLog2 p + 1) := by exact_mod_cast hp2
    have hq1q : (2 : ℚ) ^ (floorLog2 q) ≤ (q : ℚ) := by exact_mod_cast hq1
    have e1 : (2 : ℚ) ^ (e0 + 1) = (2 : ℚ) ^ (floorLog2 p + 1) / (2 : ℚ) ^ (floorLog2 q) := by
      rw [← he, ← zpow_natCast, ← zpow_natCast, ← zpow_sub₀ h2]
      congr 1
      push_cast
      ring
    rw [e1]
    have hpos : (0 : ℚ) < (2 : ℚ) ^ (floorLog2 q) := by positivity
    calc (p : ℚ) / q ≤ (p : ℚ) / (2 : ℚ) ^ (floorLog2 q) := by
          apply div_le_div_of_nonneg_left _ hpos hq1q
          positivity
      _ < (2 : ℚ) ^ (floorLog2 p + 1) / (2 : ℚ) ^ (floorLog2 q) := by
          apply div_lt_div_of_pos_right hp2q hpos
  · rw [if_neg htest]
    have h1 : ((scale2 p q (-e0)).1 : ℚ) / ((scale2 p q (-e0)).2 : ℚ) < 1 := by
      rw [div_lt_iff₀ hQ0, one_mul]
      exact_mod_cast not_le.mp htest
    rw [hPQ, zpow_neg] at h1
    rw [sub_add_cancel]
    have h3 : (p : ℚ) / q * ((2 : ℚ) ^ e0)⁻¹ = (p : ℚ) / q / (2 : ℚ) ^ e0 := by
      rw [div_eq_mul_inv ((p : ℚ) / q)]
    rw [h3, div_lt_iff₀ ht, one_mul] at h1
    exact h1

theorem binade_unique (r : ℚ) (e e2 : Int)
    (h1 : (2 : ℚ) ^ e ≤ r) (h2 : r < (2 : ℚ) ^ (e + 1))
    (h3 : (2 : ℚ) ^ e2 ≤ r) (h4 : r < (2 : ℚ) ^ (e2 + 1)) : e = e2 := by
  have a := (zpow_lt_zpow_iff_right₀ (by norm_num : (1 : ℚ) < 2)).mp (lt_of_le_of_lt h1 h4)
  have b := (zpow_lt_zpow_iff_right₀ (by norm_num : (1 : ℚ) < 2)).mp (lt_of_le_of_lt h3 h2)
  omega

theorem binade_congr (p q p2 q2 : Nat) (hp : 0 < p) (hq : 0 < q) (hp2 : 0 < p2)
    (hq2 : 0 < q2) (h : p * q2 = p2 * q) : binade p q = binade p2 q2 := by
  have hr : (p : ℚ) / q = (p2 : ℚ) / q2 := by
    have hq0 : (q : ℚ) ≠ 0 := by exact_mod_cast hq.ne.symm
    have hq0b : (q2 : ℚ) ≠ 0 := by exact_mod_cast hq2.ne.symm
    rw [div_eq_div_iff hq0 hq0b]
    exact_mod_cast h
  apply binade_unique ((p : ℚ) / q)
  · exact binade_le p q hp hq
  · exact binade_lt p q hp hq
  · rw [hr]
    exact binade_le p2 q2 hp2 hq2
  · rw [hr]
    exact binade_lt p2 q2 hp2 hq2

theorem scale2_congr (p q p2 q2 : Nat) (s : Int) (h : p * q2 = p2 * q) :
    (scale2 p q s).1 * (scale2 p2 q2 s).2 = (scale2 p2 q2 s).1 * (scale2 p q s).2 := by
  by_cases hs : 0 ≤ s
  · simp only [scale2, hs, if_true]
    calc p * 2 ^ s.toNat * q2 = p * q2 * 2 ^ s.toNat := by ring
      _ = p2 * q * 2 ^ s.toNat := by rw [h]
      _ = p2 * 2 ^ s.toNat * q := by ring
  · simp only [scale2, hs, if_false]
    calc p * (q2 * 2 ^ (-s).toNat) = p * q2 * 2 ^ (-s).toNat := by ring
      _ = p2 * q * 2 ^ (-s).toNat := by rw [h]
      _ = p2 * (q * 2 ^ (-s).toNat) := by ring

theorem roundNearestEven_mul (k p q : Nat) (hk : 0 < k) :
    roundNearestEven (k * p) (k * q) = roundNearestEven p q := by
  unfold roundNearestEven
  simp only [Nat.mul_div_mul_left p q hk, Nat.mul_mod_mul_left]
  have e1 : (2 * (k * (p % q)) < k * q) ↔ (2 * (p % q) < q) := by
    rw [show 2 * (k * (p % q)) = k * (2 * (p % q)) by ring]
    exact Nat.mul_lt_mul_left hk
  have e2 : (k * q < 2 * (k * (p % q))) ↔ (q < 2 * (p % q)) := by
    rw [show 2 * (k * (p % q)) = k * (2 * (p % q)) by ring]
    exact Nat.mul_lt_mul_left hk
  simp only [e1, e2]

theorem roundNearestEven_congr (p q p2 q2 : Nat) (hq : 0 < q) (hq2 : 0 < q2)
    (h : p * q2 = p2 * q) : roundNearestEven p q = roundNearestEven p2 q2 := by
  rw [← roundNearestEven_mul q2 p q hq2, ← roundNearestEven_mul q p2 q2 hq]
  rw [show q2 * p = q * p2 by rw [mul_comm, h, mul_comm], mul_comm q2 q]

theorem roundNearestEven_one (p : Nat) : roundNearestEven p 1 = p := by
  simp [roundNearestEven, Nat.mod_one]

/-- The rounded value depends on the fraction only, not on how it is written. -/
theorem roundBinary64_congr (p q p2 q2 : Nat) (hq : 0 < q) (hq2 : 0 < q2)
    (h : p * q2 = p2 * q) : roundBinary64 p q = roundBinary64 p2 q2 := by
  by_cases hp : p = 0
  · have hp2 : p2 = 0 := by
      subst hp
      rw [Nat.zero_mul] at h
      rcases Nat.mul_eq_zero.mp h.symm with h1 | h1
      · exact h1
      · omega
    simp [roundBinary64, hp, hp2]
  · have hp2 : p2 ≠ 0 := by
      intro h0
      subst h0
      rw [Nat.zero_mul] at h
      rcases Nat.mul_eq_zero.mp h with h1 | h1 <;> omega
    have hb := binade_congr p q p2 q2 (Nat.pos_of_ne_zero hp) hq (Nat.pos_of_ne_zero hp2) hq2 h
    have r1 := roundNearestEven_congr _ _ _ _ (scale2_spec p q 1074 hq).1
      (scale2_spec p2 q2 1074 hq2).1 (scale2_congr p q p2 q2 1074 h)
    have r2 := roundNearestEven_congr _ _ _ _ (scale2_spec p q (52 - binade p q) hq).1
      (scale2_spec p2 q2 (52 - binade p q) hq2).1
      (scale2_congr p q p2 q2 (52 - binade p q) h)
    simp only [roundBinary64, hp, hp2, if_false, ← hb, r1, r2]

/-- A positive integer up to `2 ^ 53` is a binary64 value: rounding does not change it. -/
theorem roundBinary64_nat (n : Nat) (hn : 0 < n) (hle : n ≤ 2 ^ 53) :
    ∃ m e, roundBinary64 n 1 = some (m, e) ∧ m ≠ 0 ∧ (m : ℚ) * (2 : ℚ) ^ e = n := by
  have hlo := binade_le n 1 hn Nat.one_pos
  have hhi := binade_lt n 1 hn Nat.one_pos
  rw [Nat.cast_one, div_one] at hlo hhi
  have hnq : (n : ℚ) ≤ (2 : ℚ) ^ (53 : Int) := by
    have : ((2 ^ 53 : Nat) : ℚ) = (2 : ℚ) ^ (53 : Int) := by norm_num
    rw [← this]
    exact_mod_cast hle
  have h1q : (2 : ℚ) ^ (0 : Int) ≤ (n : ℚ) := by
    rw [zpow_zero]
    exact_mod_cast hn
  have hub : binade n 1 ≤ 53 :=
    (zpow_le_zpow_iff_right₀ (by norm_num : (1 : ℚ) < 2)).mp (le_trans hlo hnq)
  have hlb : 0 < binade n 1 + 1 :=
    (zpow_lt_zpow_iff_right₀ (by norm_num : (1 : ℚ) < 2)).mp (lt_of_le_of_lt h1q hhi)
  obtain ⟨k, hk⟩ := Int.eq_ofNat_of_zero_le (by omega : 0 ≤ binade n 1)
  rw [hk] at hlo hhi hub
  have hk53 : k ≤ 53 := by exact_mod_cast hub
  have hloN : 2 ^ k ≤ n := by
    rw [zpow_natCast] at hlo
    exact_mod_cast hlo
  have hhiN : n < 2 ^ (k + 1) := by
    have : ((k : Int) + 1) = ((k + 1 : Nat) : Int) := by push_cast; ring
    rw [this, zpow_natCast] at hhi
    exact_mod_cast hhi
  have hn0 : n ≠ 0 := by omega
  by_cases hk52 : k ≤ 52
  · have hs : (0 : Int) ≤ 52 - (k : Int) := by omega
    have hm : n * 2 ^ (52 - k) < 2 ^ 53 := by
      calc n * 2 ^ (52 - k) < 2 ^ (k + 1) * 2 ^ (52 - k) :=
            Nat.mul_lt_mul_of_pos_right hhiN (Nat.pos_pow_of_pos _ (by decide))
        _ = 2 ^ 53 := by
            rw [← pow_add]
            congr 1
            omega
    have htn : (52 - (k : Int)).toNat = 52 - k := by omega
    refine ⟨n * 2 ^ (52 - k), (k : Int) - 52, ?_, ?_, ?_⟩
    · have hne : ¬ ((k : Int) < -1022) := by omega
      have hne2 : ¬ ((1023 : Int) < (k : Int)) := by omega
      simp only [roundBinary64, hn0, if_false, hk, hne, scale2, hs, if_true, htn,
        roundNearestEven_one, Nat.ne_of_lt hm, hne2]
    · exact Nat.mul_ne_zero hn0 (Nat.pos_pow_of_pos _ (by decide)).ne.symm
    · push_cast
      have e1 : ((k : Int) - 52) = -((52 - k : Nat) : Int) := by omega
      rw [e1, zpow_neg, zpow_natCast, mul_assoc, mul_inv_cancel₀ (by positivity), mul_one]
  · have hk' : k = 53 := by omega
    subst hk'
    have hn53 : n = 2 ^ 53 := by omega
    subst hn53
    refine ⟨2 ^ 52, 1, ?_, by norm_num, by norm_num⟩
    have hne : ¬ (((53 : Nat) : Int) < -1022) := by omega
    have hne2 : ¬ ((1023 : Int) < ((53 : Nat) : Int) - 0) := by omega
    simp only [roundBinary64, hn0, if_false, hk, hne]
    norm_num [scale2, roundNearestEven]

/-! ## Sums of stored numbers -/

theorem ofInt_toRat (z : Int) (h : z.natAbs ≤ 2 ^ 53) :
    (JsNumber.ofInt z).toRat? = some (z : ℚ) := by
  by_cases hz : z = 0
  · subst hz
    simp [JsNumber.ofInt, roundBinary64, JsNumber.ofRounded, JsNumber.toRat?]
  · have hpos : 0 < z.natAbs := Int.natAbs_pos.mpr hz
    obtain ⟨m, e, hr, hm, hv⟩ := roundBinary64_nat z.natAbs hpos h
    simp only [JsNumber.ofInt, hr, JsNumber.ofRounded, hm, if_false, JsNumber.toRat?]
    congr 1
    rw [mul_assoc, hv]
    by_cases hneg : z < 0
    · simp only [hneg, decide_True, if_true]
      have : ((z.natAbs : Int) : ℚ) = -(z : ℚ) := by
        rw [Int.ofNat_natAbs_of_nonpos hneg.le]
        push_cast
        ring
      have h2 : ((z.natAbs : Nat) : ℚ) = ((z.natAbs : Int) : ℚ) := (Int.cast_natCast _).symm
      rw [h2, this]
      ring
    · simp only [hneg, decide_False, if_false, Bool.false_eq_true]
      have : ((z.natAbs : Int) : ℚ) = (z : ℚ) := by
        rw [Int.natAbs_of_nonneg (not_lt.mp hneg)]
      have h2 : ((z.natAbs : Nat) : ℚ) = ((z.natAbs : Int) : ℚ) := (Int.cast_natCast _).symm
      rw [h2, this]
      ring

theorem two_zpow_toNat (d : Int) (hd : 0 ≤ d) : (2 : ℚ) ^ d.toNat = (2 : ℚ) ^ d := by
  obtain ⟨k, rfl⟩ := Int.eq_ofNat_of_zero_le hd
  rw [Int.toNat_ofNat, zpow_natCast]

/-- The sum of two finite Numbers whose values are the integers `a` and `b` is the exact
sum `a + b` rounded once. -/
theorem add_of_int_values (x y : JsNumber) (a b : Int) (hx : x.toRat? = some (a : ℚ))
    (hy : y.toRat? = some (b : ℚ)) : x.add y = JsNumber.ofInt (a + b) := by
  cases x with
  | nan => simp [JsNumber.toRat?] at hx
  | infinite s => simp [JsNumber.toRat?] at hx
  | finite na ma ea =>
    cases y with
    | nan => simp [JsNumber.toRat?] at hy
    | infinite s => simp [JsNumber.toRat?] at hy
    | finite nb mb eb =>
      simp only [JsNumber.toRat?, Option.some.injEq] at hx hy
      have h2 : (2 : ℚ) ≠ 0 := two_ne_zero
      generalize he : min ea eb = e
      have hea : 0 ≤ ea - e := by
        have := min_le_left ea eb
        omega
      have heb : 0 ≤ eb - e := by
        have := min_le_right ea eb
        omega
      generalize hs : ((if na then -1 else 1) * ((ma * 2 ^ (ea - e).toNat : Nat) : Int)
        + (if nb then -1 else 1) * ((mb * 2 ^ (eb - e).toNat : Nat) : Int) : Int) = s
      have hval : (s : ℚ) * (2 : ℚ) ^ e = (a : ℚ) + (b : ℚ) := by
        rw [← hs, ← hx, ← hy]
        push_cast
        rw [two_zpow_toNat _ hea, two_zpow_toNat _ heb, zpow_sub₀ h2, zpow_sub₀ h2]
        have hpe : (2 : ℚ) ^ e ≠ 0 := zpow_ne_zero e h2
        cases na <;> cases nb <;> simp <;> field_simp <;> ring
      have hpe : (0 : ℚ) < (2 : ℚ) ^ e := zpow_pos (by norm_num) e
      have hsign : decide (s < 0) = decide (a + b < 0) := by
        have hiff : s < 0 ↔ a + b < 0 := by
          have hq : ((s : ℚ) < 0) ↔ (((a + b : Int) : ℚ) < 0) := by
            push_cast
            rw [← hval]
            constructor
            · intro h
              exact mul_neg_of_neg_of_pos h hpe
            · intro h
              by_contra hc
              exact absurd h (not_lt.mpr (mul_nonneg (not_lt.mp hc) hpe.le))
          exact_mod_cast hq
        simp only [hiff]
      obtain ⟨hQ, hPQ⟩ := scale2_spec s.natAbs 1 e Nat.one_pos
      have hcross : (scale2 s.natAbs 1 e).1 * 1 = (a + b).natAbs * (scale2 s.natAbs 1 e).2 := by
        have hQ0 : ((scale2 s.natAbs 1 e).2 : ℚ) ≠ 0 := by exact_mod_cast hQ.ne.symm
        have habs : (((a + b).natAbs : Nat) : ℚ) = ((s.natAbs : Nat) : ℚ) * (2 : ℚ) ^ e := by
          rw [Nat.cast_natAbs, Nat.cast_natAbs, Int.cast_abs, Int.cast_abs]
          push_cast
          rw [← hval, abs_mul, abs_of_pos hpe]
        have : ((scale2 s.natAbs 1 e).1 : ℚ)
            = (((a + b).natAbs : Nat) : ℚ) * ((scale2 s.natAbs 1 e).2 : ℚ) := by
          have hPQ2 : ((scale2 s.natAbs 1 e).1 : ℚ) / ((scale2 s.natAbs 1 e).2 : ℚ)
              = ((s.natAbs : Nat) : ℚ) * (2 : ℚ) ^ e := by
            rw [hPQ, Nat.cast_one, div_one]
          rw [habs, ← hPQ2]
          field_simp
        rw [Nat.mul_one]
        exact_mod_cast this
      have hrb := roundBinary64_congr _ _ _ _ hQ Nat.one_pos hcross
      simp only [JsNumber.add, he, hs, hsign, hrb, JsNumber.ofInt]

theorem toInt_iff_toRat (x : JsNumber) (z : Int) :
    x.toInt? = some z ↔ x.toRat? = some (z : ℚ) := by
  cases x with
  | nan => simp [JsNumber.toInt?, JsNumber.toRat?]
  | infinite s => simp [JsNumber.toInt?, JsNumber.toRat?]
  | finite n m e =>
    have h2 : (2 : ℚ) ≠ 0 := two_ne_zero
    by_cases he : 0 ≤ e
    · obtain ⟨k, rfl⟩ := Int.eq_ofNat_of_zero_le he
      simp only [JsNumber.toInt?, he, if_true, Int.toNat_ofNat, JsNumber.toRat?,
        Option.some.injEq, zpow_natCast]
      constructor
      · intro h
        rw [← h]
        cases n <;> simp
      · intro h
        have : (((if n then -1 else 1) * ((m * 2 ^ k : Nat) : Int) : Int) : ℚ) = (z : ℚ) := by
          rw [← h]
          cases n <;> simp
        exact_mod_cast this
    · obtain ⟨k, hk⟩ := Int.exists_eq_neg_ofNat (le_of_lt (not_le.mp he))
      subst hk
      have hD : 0 < 2 ^ k := Nat.pos_pow_of_pos _ (by decide)
      have hDq : ((2 ^ k : Nat) : ℚ) ≠ 0 := by exact_mod_cast hD.ne.symm
      simp only [JsNumber.toInt?, he, if_false, neg_neg, Int.toNat_ofNat, JsNumber.toRat?,
        zpow_neg, zpow_natCast]
      constructor
      · intro h
        by_cases hmod : m % 2 ^ k = 0
        · rw [if_pos hmod, Option.some.injEq] at h
          have hm : m = 2 ^ k * (m / 2 ^ k) := by
            have := Nat.div_add_mod m (2 ^ k)
            omega
          generalize m / 2 ^ k = w at h hm
          subst hm
          have hp : ((2 : ℚ) ^ k) ≠ 0 := pow_ne_zero k h2
          rw [← h, Option.some.injEq]
          push_cast
          cases n <;> simp <;> field_simp
        · rw [if_neg hmod] at h
          exact absurd h (by simp)
      · intro h
        rw [Option.some.injEq] at h
        have hp : ((2 : ℚ) ^ k) ≠ 0 := pow_ne_zero k h2
        have hI : ((if n then -1 else 1 : Int)) * (m : Int) = z * ((2 ^ k : Nat) : Int) := by
          have : ((((if n then -1 else 1 : Int)) * (m : Int) : Int) : ℚ)
              = ((z * ((2 ^ k : Nat) : Int) : Int) : ℚ) := by
            push_cast
            rw [← h]
            cases n <;> simp
          exact_mod_cast this
        have hm : (m : Int) = ((if n then -1 else 1 : Int) * z) * ((2 ^ k : Nat) : Int) := by
          cases n
          · simp only [Bool.false_eq_true, if_false, one_mul] at hI ⊢
            exact hI
          · simp only [if_true] at hI ⊢
            linarith
        have hw : 0 ≤ (if n then -1 else 1 : Int) * z := by
          by_contra hc
          have hneg : ((if n then -1 else 1 : Int) * z) * ((2 ^ k : Nat) : Int) < 0 :=
            mul_neg_of_neg_of_pos (not_le.mp hc) (by exact_mod_cast hD)
          have : (0 : Int) ≤ (m : Int) := Int.ofNat_nonneg m
          omega
        obtain ⟨w, hwe⟩ := Int.eq_ofNat_of_zero_le hw
        rw [hwe] at hm
        have hmN : m = w * 2 ^ k := by exact_mod_cast hm
        have hmod : m % 2 ^ k = 0 := by
          rw [hmN]
          exact Nat.mul_mod_left w (2 ^ k)
        have hdiv : m / 2 ^ k = w := by
          rw [hmN]
          exact Nat.mul_div_cancel w hD
        rw [if_pos hmod, hdiv, Option.some.injEq, ← hwe]
        cases n
        · simp
        · simp

theorem ofInt_toInt (z : Int) (h : z.natAbs ≤ 2 ^ 53) :
    (JsNumber.ofInt z).toInt? = some z :=
  (toInt_iff_toRat _ _).mpr (ofInt_toRat z h)

/-- Adding up Numbers that are integers, left to right: while the absolute values add up
to at most `2 ^ 53`, no addition rounds and the result is the exact sum. -/
theorem foldl_add_of_int_values (xs : List JsNumber) (zs : List Int) (acc : JsNumber) (c : Int)
    (hacc : acc.toInt? = some c) (hxs : xs.map JsNumber.toInt? = zs.map some)
    (hb : c.natAbs + (zs.map Int.natAbs).sum ≤ 2 ^ 53) :
    (xs.foldl JsNumber.add acc).toInt? = some (c + zs.sum) := by
  induction xs generalizing zs acc c with
  | nil =>
    cases zs with
    | nil => simpa using hacc
    | cons z t => simp at hxs
  | cons x t ih =>
    cases zs with
    | nil => simp at hxs
    | cons z zt =>
      simp only [List.map_cons, List.cons.injEq, List.sum_cons] at hxs hb
      obtain ⟨hx, ht⟩ := hxs
      have hadd : acc.add x = JsNumber.ofInt (c + z) :=
        add_of_int_values acc x c z ((toInt_iff_toRat _ _).mp hacc) ((toInt_iff_toRat _ _).mp hx)
      have hcz : (c + z).natAbs ≤ c.natAbs + z.natAbs := Int.natAbs_add_le c z
      have hstep := ih zt (acc.add x) (c + z)
        (by rw [hadd]; exact ofInt_toInt _ (by omega)) ht (by omega)
      rw [List.foldl_cons, hstep, List.sum_cons, add_assoc]

/-! ## The analytics window -/

/-- The query `find().sort({ date: -1 }).limit(k)` splits the collection in two: the `k`
documents it returns, latest first, and the others, none of which is later than a
returned one. -/
theorem recentAnalytics_split (k : Nat) (analytics : List Analytics) :
    ∃ rest : List Analytics,
      (recentAnalytics k analytics ++ rest).Perm analytics ∧
      (recentAnalytics k analytics).length = min k analytics.length ∧
      (recentAnalytics k analytics).Pairwise (fun a b => b.date ≤ a.date) ∧
      ∀ a ∈ recentAnalytics k analytics, ∀ b ∈ rest, b.date ≤ a.date := by
  haveI : IsTotal Analytics (fun a b => b.date ≤ a.date) := ⟨fun a b => le_total b.date a.date⟩
  haveI : IsTrans Analytics (fun a b => b.date ≤ a.date) :=
    ⟨fun _ _ _ h1 h2 => le_trans h2 h1⟩
  have hsorted := List.sorted_insertionSort (fun a b : Analytics => b.date ≤ a.date) analytics
  have hperm := List.perm_insertionSort (fun a b : Analytics => b.date ≤ a.date) analytics
  refine ⟨(analytics.insertionSort (fun a b => b.date ≤ a.date)).drop k, ?_, ?_, ?_, ?_⟩
  · rw [recentAnalytics, List.take_append_drop]
    exact hperm
  · rw [recentAnalytics, List.length_take, List.length_insertionSort]
  · rw [recentAnalytics]
    exact List.Pairwise.sublist (List.take_sublist _ _) hsorted
  · have h := hsorted
    unfold List.Sorted at h
    rw [← List.take_append_drop k (analytics.insertionSort (fun a b => b.date ≤ a.date)),
      List.pairwise_append] at h
    exact h.2.2

/-- Against the exact sums. Two documents are posted, one with sales of `2 ^ 53` and a
revenue of `0.1`, one with sales of `1` and a revenue of `0.2`. The handler returns
`2 ^ 53` as the total of the sales, not `2 ^ 53 + 1`, and `0.30000000000000004` as the
total of the revenue, not `0.3`. -/
theorem metrics_totals_are_rounded :
    largeSalesDb.analytics.map (fun item => item.sales.toInt?)
        = [some 9007199254740992, some 1] ∧
      (computeMetrics sampleCtx largeSalesDb).totalSales.toInt? = some 9007199254740992 ∧
      (computeMetrics sampleCtx largeSalesDb).totalSales.toInt?
        ≠ some (9007199254740992 + 1) ∧
      largeSalesDb.analytics.map (fun item => item.revenue)
        = [JsNumber.ofLiteral { digits := 1, exp10 := -1 },
            JsNumber.ofLiteral { digits := 2, exp10 := -1 }] ∧
      (computeMetrics sampleCtx largeSalesDb).totalRevenue
        = JsNumber.ofLiteral { digits := 30000000000000004, exp10 := -17 } ∧
      (computeMetrics sampleCtx largeSalesDb).totalRevenue
        ≠ JsNumber.ofLiteral { digits := 3, exp10 := -1 } := by
  decide!

/-- Claim C11, amended. The metrics handler reads a window of `min 30 n` documents, latest
first, such that no document outside the window is later than one inside; with at most
thirty documents stored the window holds all of them. `totalSales` and `totalRevenue` are
the `sales` and `revenue` of the window added up as binary64 Numbers, from `0` and in the
order of the window, each addition rounded to the nearest Number. When the values of the
window are integers whose absolute values add up to at most `2 ^ 53`, no addition rounds
and the total is their exact sum; with no document stored both totals are `0`. -/
theorem metrics_totals_over_latest_thirty (ctx : Ctx) (db : Db) :
    (∃ rest : List Analytics,
        (recentAnalytics 30 db.analytics ++ rest).Perm db.analytics ∧
        (recentAnalytics 30 db.analytics).length = min 30 db.analytics.length ∧
        (recentAnalytics 30 db.analytics).Pairwise (fun a b => b.date ≤ a.date) ∧
        (∀ a ∈ recentAnalytics 30 db.analytics, ∀ b ∈ rest, b.date ≤ a.date)) ∧
      (computeMetrics ctx db).totalSales
        = sumNumbers ((recentAnalytics 30 db.analytics).map (fun item => item.sales)) ∧
      (computeMetrics ctx db).totalRevenue
        = sumNumbers ((recentAnalytics 30 db.analytics).map (fun item => item.revenue)) ∧
      (∀ zs : List Int,
        (recentAnalytics 30 db.analytics).map (fun item => item.sales.toInt?) = zs.map some →
        (zs.map Int.natAbs).sum ≤ 2 ^ 53 →
        (computeMetrics ctx db).totalSales.toInt? = some zs.sum) ∧
      (∀ zs : List Int,
        (recentAnalytics 30 db.analytics).map (fun item => item.revenue.toInt?)
          = zs.map some →
        (zs.map Int.natAbs).sum ≤ 2 ^ 53 →
        (computeMetrics ctx db).totalRevenue.toInt? = some zs.sum) ∧
      (db.analytics.length ≤ 30 → (recentAnalytics 30 db.analytics).Perm db.analytics) ∧
      (db.analytics = [] →
        (computeMetrics ctx db).totalSales = .finite false 0 0 ∧
        (computeMetrics ctx db).totalRevenue = .finite false 0 0) := by
  obtain ⟨rest, hperm, hlen, hsorted, hle⟩ := recentAnalytics_split 30 db.analytics
  have hs : (computeMetrics ctx db).totalSales
      = sumNumbers ((recentAnalytics 30 db.analytics).map (fun item => item.sales)) := by
    simp only [computeMetrics, sumNumbers, List.foldl_map]
  have hr : (computeMetrics ctx db).totalRevenue
      = sumNumbers ((recentAnalytics 30 db.analytics).map (fun item => item.revenue)) := by
    simp only [computeMetrics, sumNumbers, List.foldl_map]
  have h0 : (JsNumber.ofNat 0).toInt? = some 0 := by decide
  refine ⟨⟨rest, hperm, hlen, hsorted, hle⟩, hs, hr, ?_, ?_, ?_, ?_⟩
  · intro zs hzs hb
    have h := foldl_add_of_int_values
      ((recentAnalytics 30 db.analytics).map (fun item => item.sales)) zs (JsNumber.ofNat 0) 0
      h0 (by rw [List.map_map]; exact hzs) (by simpa using hb)
    rw [hs, sumNumbers, h, zero_add]
  · intro zs hzs hb
    have h := foldl_add_of_int_values
      ((recentAnalytics 30 db.analytics).map (fun item => item.revenue)) zs (JsNumber.ofNat 0) 0
      h0 (by rw [List.map_map]; exact hzs) (by simpa using hb)
    rw [hr, sumNumbers, h, zero_add]
  · intro hsmall
    have hrest : rest = [] := by
      have h1 := hperm.length_eq
      rw [List.length_append, hlen] at h1
      have h2 : min 30 db.analytics.length = db.analytics.length := by omega
      rw [h2] at h1
      exact List.length_eq_zero.mp (by omega)
    rw [hrest, List.append_nil] at hperm
    exact hperm
  · intro hnil
    rw [hs, hr]
    simp only [recentAnalytics, hnil, List.insertionSort, List.take_nil, List.map_nil]
    exact ⟨by decide, by decide⟩

theorem metrics_totals_over_latest_thirty_witness :
    thirtyTwoDaysDb.analytics.length = 32 ∧
      (computeMetrics sampleCtx thirtyTwoDaysDb).totalSales.toInt? = some 30 ∧
      (computeMetrics sampleCtx thirtyTwoDaysDb).totalRevenue.toInt? = some 300 :=
  ⟨by decide,
    (metrics_totals_over_latest_thirty sampleCtx thirtyTwoDaysDb).2.2.2.1
      (List.replicate 30 1) (by decide) (by decide),
    (metrics_totals_over_latest_thirty sampleCtx thirtyTwoDaysDb).2.2.2.2.1
      (List.replicate 30 10) (by decide) (by decide)⟩

/-! ## The account counts -/

/-- Against the fixed duration. A server whose local time is one hour ahead of UTC thirty
days ago and on UTC now (London in early November): an account that joined thirty days and
thirty minutes ago is counted as a new signup, although it joined before `now - 30 days`. -/
theorem metrics_newSignups_across_clock_change :
    londonCtx.now - 30 * 86400000 = -2591910000 ∧
      thirtyDaysAgo londonCtx = -2595510000 ∧
      (computeMetrics londonCtx lateJoinerDb).newSignups = 1 ∧
      specNewSignups londonCtx.now lateJoinerDb.users = 0 ∧
      (computeMetrics londonCtx lateJoinerDb).newSignups
        ≠ specNewSignups londonCtx.now lateJoinerDb.users := by
  decide

/-- Claim C12, amended. The metrics handler returns the number of all accounts, the number
of accounts whose status is `Active`, and the number of accounts that joined at or after
the instant whose local date and time of day lie thirty calendar days before now. That
instant is `now - 30 days` shifted by the change of the local UTC offset between the two
instants, so it is `now - 30 days` exactly when the offset is the same at both. -/
theorem metrics_counts (ctx : Ctx) (db : Db) :
    (computeMetrics ctx db).totalUsers = db.users.length ∧
      (computeMetrics ctx db).activeUsers
        = (db.users.filter (fun u => u.status = "Active")).length ∧
      (computeMetrics ctx db).newSignups
        = (db.users.filter (fun u => decide (thirtyDaysAgo ctx ≤ u.joinDate))).length ∧
      thirtyDaysAgo ctx = ctx.now - 30 * 86400000
        + (ctx.tzOffset ctx.now
            - ctx.tzOffsetLocal (ctx.now + ctx.tzOffset ctx.now - 30 * 86400000)) ∧
      (ctx.tzOffsetLocal (ctx.now + ctx.tzOffset ctx.now - 30 * 86400000)
          = ctx.tzOffset ctx.now →
        (computeMetrics ctx db).newSignups = specNewSignups ctx.now db.users) := by
  have hcut : thirtyDaysAgo ctx = ctx.now - 30 * 86400000
      + (ctx.tzOffset ctx.now
          - ctx.tzOffsetLocal (ctx.now + ctx.tzOffset ctx.now - 30 * 86400000)) := by
    simp only [thirtyDaysAgo]
    ring
  refine ⟨rfl, ?_, ?_, hcut, ?_⟩
  · simp only [computeMetrics, List.countP_eq_length_filter]
    congr 1
  · simp only [computeMetrics, List.countP_eq_length_filter]
  · intro hsame
    have h30 : thirtyDaysAgo ctx = ctx.now - 30 * 86400000 := by
      rw [hcut, hsame]
      ring
    simp only [computeMetrics, specNewSignups, h30]

theorem metrics_counts_witness :
    (computeMetrics sampleCtx (accountsDb 10 3)).newSignups
      = specNewSignups sampleCtx.now (accountsDb 10 3).users :=
  (metrics_counts sampleCtx (accountsDb 10 3)).2.2.2.2 (by decide)

/-- Claim C19. The three counts are taken over one list of accounts, so `activeUsers` and
`newSignups` are at most `totalUsers`, and `growthRate` is the number `0` or the string of
a number of tenths between `0` and `1000`, a rate between `0.0` and `100.0`. -/
theorem metrics_counts_bounded (ctx : Ctx) (db : Db) :
    (computeMetrics ctx db).activeUsers ≤ (computeMetrics ctx db).totalUsers ∧
      (computeMetrics ctx db).newSignups ≤ (computeMetrics ctx db).totalUsers ∧
      ((computeMetrics ctx db).growthRate = .number 0 ∨
        ∃ n : Nat, n ≤ 1000 ∧ (computeMetrics ctx db).growthRate = .string (renderTenths n)) := by
  have hle : db.users.countP (fun u => decide (thirtyDaysAgo ctx ≤ u.joinDate))
      ≤ db.users.length := List.countP_le_length _
  refine ⟨List.countP_le_length _, hle, ?_⟩
  by_cases hpos : 0 < db.users.length
  · right
    refine ⟨((F64.ofDiv (db.users.countP (fun u => decide (thirtyDaysAgo ctx ≤ u.joinDate)))
      db.users.length).mulNat 100).tenths, ?_, ?_⟩
    · have hnear := growth_tenths_near _ _ hpos hle
      have hb0 : (0 : ℚ) < db.users.length := by exact_mod_cast hpos
      have hr1 : ((db.users.countP (fun u => decide (thirtyDaysAgo ctx ≤ u.joinDate)) : Nat) : ℚ)
          / (db.users.length : ℚ) ≤ 1 := by
        rw [div_le_one hb0]
        exact_mod_cast hle
      generalize ((F64.ofDiv (db.users.countP (fun u => decide (thirtyDaysAgo ctx ≤ u.joinDate)))
        db.users.length).mulNat 100).tenths = n at hnear ⊢
      rw [abs_le] at hnear
      have hlt : (n : ℚ) < 1001 := by
        norm_num at hnear
        linarith [hnear.2]
      have : n < 1001 := by exact_mod_cast hlt
      omega
    · simp [computeMetrics, growthRate, hpos, F64.toFixed1]
  · left
    have h0 : db.users.length = 0 := by omega
    simp [computeMetrics, growthRate, h0]

/-! ## The chart series -/

/-- Claim C13. The chart handler returns `min 6 n` rows, one for each document of a window
such that no document outside the window is later than one inside, the six latest; the
rows stand in ascending order of date and carry `sales`, `activeUsers` (as `users`) and
`revenue` of their documents unchanged. With 8 stored documents there are 6 rows. -/
theorem chart_latest_six_ascending (ctx : Ctx) (db : Db) (req : Request) :
    getChart ctx db req = (db, ⟨200, .chart (computeChart ctx db)⟩) ∧
      (∃ recent rest : List Analytics,
        (recent ++ rest).Perm db.analytics ∧
        recent.length = min 6 db.analytics.length ∧
        (∀ a ∈ recent, ∀ b ∈ rest, b.date ≤ a.date) ∧
        recent.Pairwise (fun a b => a.date ≤ b.date) ∧
        computeChart ctx db = recent.map (chartRow ctx)) ∧
      (∀ item : Analytics,
        (chartRow ctx item).sales = item.sales ∧
        (chartRow ctx item).users = item.activeUsers ∧
        (chartRow ctx item).revenue = item.revenue) ∧
      (computeChart ctx db).length = min 6 db.analytics.length ∧
      (db.analytics.length = 8 → (computeChart ctx db).length = 6) := by
  obtain ⟨rest, hperm, hlen, hsorted, hle⟩ := recentAnalytics_split 6 db.analytics
  have hlen2 : (computeChart ctx db).length = min 6 db.analytics.length := by
    simp only [computeChart, List.length_map, List.length_reverse]
    exact hlen
  refine ⟨rfl, ⟨(recentAnalytics 6 db.analytics).reverse, rest, ?_, ?_, ?_, ?_, rfl⟩,
    fun item => ⟨rfl, rfl, rfl⟩, hlen2, ?_⟩
  · exact (List.Perm.append_right rest (List.reverse_perm _)).trans hperm
  · rw [List.length_reverse]
    exact hlen
  · intro a ha b hb
    exact hle a (List.mem_reverse.mp ha) b hb
  · rw [List.pairwise_reverse]
    exact hsorted
  · intro h8
    rw [hlen2, h8]
    rfl

/-- Eight documents stored out of order: the chart shows the six latest, oldest first. -/
theorem chart_of_eight_samples :
    (computeChart sampleCtx eightSamplesDb).map
        (fun row => (row.date, row.sales.toInt?, row.users.toInt?, row.revenue.toInt?)) =
      [("Jan", some 30, some 3, some 300), ("Jan", some 40, some 4, some 400),
        ("Jan", some 50, some 5, some 500), ("Jan", some 60, some 6, some 600),
        ("Jan", some 70, some 7, some 700), ("Jan", some 80, some 8, some 800)] := by
  decide

/-! ## The `Authorization` header -/

theorem removeFirst_of_absent (pat l : List Char) (h : ¬ pat <:+: l) :
    removeFirst pat l = l := by
  induction l with
  | nil => rfl
  | cons c cs ih =>
    have hp : pat.isPrefixOf (c :: cs) = false := by
      cases hx : pat.isPrefixOf (c :: cs) with
      | false => rfl
      | true => exact absurd (List.isPrefixOf_iff_prefix.mp hx).isInfix h
    have htail : ¬ pat <:+: cs := by
      intro hc
      apply h
      obtain ⟨s, t, hst⟩ := hc
      exact ⟨c :: s, t, by simp [← hst]⟩
    simp [removeFirst, hp, ih htail]

theorem removeFirst_first_occurrence (pat u v : List Char)
    (h : ∀ i, i < u.length → pat.isPrefixOf ((u ++ (pat ++ v)).drop i) = false) :
    removeFirst pat (u ++ (pat ++ v)) = u ++ v := by
  induction u with
  | nil =>
    simp only [List.nil_append]
    cases hp : pat with
    | nil =>
      cases v with
      | nil => rfl
      | cons c cs => simp [removeFirst]
    | cons p ps =>
      rw [← hp]
      exact removeFirst_append pat v (by simp [hp])
  | cons c cs ih =>
    have h0 := h 0 (by simp)
    simp only [List.drop_zero, List.cons_append] at h0
    have hrest : ∀ i, i < cs.length → pat.isPrefixOf ((cs ++ (pat ++ v)).drop i) = false := by
      intro i hi
      have := h (i + 1) (by simp; omega)
      simpa using this
    have hn : ¬ (pat.isPrefixOf (c :: (cs ++ (pat ++ v))) = true) := by simp [h0]
    rw [List.cons_append, removeFirst, if_neg hn, ih hrest]
    rfl

theorem authenticateToken_congr (ctx : Ctx) (db : Db) (req1 req2 : Request)
    (h : extractToken req1.authorization = extractToken req2.authorization) :
    (∀ r, authenticateToken ctx db req1 = .respond r ↔
        authenticateToken ctx db req2 = .respond r) ∧
      (∀ c, authenticateToken ctx db req1 = .next { req1 with user := some c } ↔
        authenticateToken ctx db req2 = .next { req2 with user := some c }) := by
  unfold authenticateToken
  rw [h]
  cases extractToken req2.authorization with
  | none => simp
  | some tok =>
    by_cases ht : tok = ""
    · simp [ht]
    · simp only [ht, if_false]
      cases ctx.prims.verify tok (jwtSecret ctx) ctx.now with
      | error e => simp
      | ok v => simp

/-- Claim C20. The token is the header value with the first occurrence of `Bearer `
deleted, wherever it stands. For a token `t` without `Bearer ` in it the headers
`Bearer ` + `t` and `t` give the same outcome. An absent or empty header and the bare
`Bearer ` are answered 401 whatever the codec is, which therefore is not consulted. -/
theorem authenticateToken_strips_first_bearer (ctx : Ctx) (db : Db) (req : Request) :
    (∀ u v : List Char,
        (∀ i, i < u.length →
          "Bearer ".data.isPrefixOf ((u ++ ("Bearer ".data ++ v)).drop i) = false) →
        extractToken (some (String.mk (u ++ ("Bearer ".data ++ v))))
          = some (String.mk (u ++ v))) ∧
      (∀ t : String, ¬ "Bearer ".data <:+: t.data →
        extractToken (some ("Bearer " ++ t)) = some t ∧
        extractToken (some t) = some t ∧
        (∀ r, authenticateToken ctx db { req with authorization := some ("Bearer " ++ t) }
              = .respond r ↔
            authenticateToken ctx db { req with authorization := some t } = .respond r) ∧
        (∀ c, authenticateToken ctx db { req with authorization := some ("Bearer " ++ t) }
              = .next { req with authorization := some ("Bearer " ++ t), user := some c } ↔
            authenticateToken ctx db { req with authorization := some t }
              = .next { req with authorization := some t, user := some c })) ∧
      ((req.authorization = none ∨ req.authorization = some ""
          ∨ req.authorization = some "Bearer ") →
        ∀ prims : Prims, authenticateToken { ctx with prims := prims } db req
          = .respond ⟨401, .message "Access denied. No token provided."⟩) := by
  refine ⟨?_, ?_, ?_⟩
  · intro u v h
    simp only [extractToken, Option.map_some']
    rw [removeFirst_first_occurrence _ u v h]
  · intro t ht
    have h1 : extractToken (some ("Bearer " ++ t)) = some t := extractToken_bearer t
    have h2 : extractToken (some t) = some t := by
      simp only [extractToken, Option.map_some']
      rw [removeFirst_of_absent _ _ ht]
    have hc := authenticateToken_congr ctx db
      { req with authorization := some ("Bearer " ++ t) }
      { req with authorization := some t } (by rw [h1, h2])
    exact ⟨h1, h2, hc.1, hc.2⟩
  · intro h prims
    have hx := (extractToken_empty_iff req.authorization).mpr h
    unfold authenticateToken
    rcases hx with hx | hx
    · rw [hx]
    · rw [hx]
      simp

theorem authenticateToken_strips_first_bearer_witness :
    extractToken (some ("Bearer " ++ "abc.def")) = some "abc.def" ∧
      extractToken (some "abc.def") = some "abc.def" ∧
      (∀ r, authenticateToken sampleCtx sampleDb
              { sampleUserRequest with authorization := some ("Bearer " ++ "abc.def") }
              = .respond r ↔
            authenticateToken sampleCtx sampleDb
              { sampleUserRequest with authorization := some "abc.def" } = .respond r) ∧
      (∀ c, authenticateToken sampleCtx sampleDb
              { sampleUserRequest with authorization := some ("Bearer " ++ "abc.def") }
              = .next { sampleUserRequest with
                  authorization := some ("Bearer " ++ "abc.def"), user := some c } ↔
            authenticateToken sampleCtx sampleDb
              { sampleUserRequest with authorization := some "abc.def" }
              = .next { sampleUserRequest with
                  authorization := some "abc.def", user := some c }) :=
  (authenticateToken_strips_first_bearer sampleCtx sampleDb sampleUserRequest).2.1
    "abc.def" (by decide)

/-! ## Seeding -/

theorem saveUser_ok (now : Int) (db db1 : Db) (d : NewUser) (u : User)
    (h : saveUser now db d = .ok (db1, u)) :
    db1 = { db with users := db.users ++ [u], nextId := db.nextId + 1 } ∧
      u = buildUser db.nextId now d := by
  unfold saveUser at h
  by_cases hv : validateUser d = true
  · rw [if_pos hv] at h
    by_cases hdup : (db.users.any fun u => some u.email == d.email) = true
    · rw [if_pos hdup] at h
      cases h
    · rw [if_neg hdup] at h
      simp only [Except.ok.injEq, Prod.mk.injEq] at h
      obtain ⟨h1, h2⟩ := h
      rw [← h2]
      exact ⟨h1.symm, rfl⟩
  · rw [if_neg hv] at h
    cases h

theorem seedUsers_keeps (ctx : Ctx) (salt : String) (l : List Nat) (db : Db) :
    db.users <+: (seedUsers ctx salt l db).1.users ∧
      (seedUsers ctx salt l db).1.analytics = db.analytics := by
  induction l generalizing db with
  | nil => exact ⟨List.prefix_refl _, rfl⟩
  | cons i rest ih =>
    unfold seedUsers
    cases ctx.prims.hash (some "user123") salt with
    | error e => exact ⟨List.prefix_refl _, rfl⟩
    | ok pw =>
      simp only
      cases hs : saveUser ctx.now db (seedUserDoc i pw) with
      | error e => exact ⟨List.prefix_refl _, rfl⟩
      | ok p =>
        obtain ⟨db1, u⟩ := p
        obtain ⟨h1, -⟩ := saveUser_ok ctx.now db db1 _ u hs
        obtain ⟨ih1, ih2⟩ := ih db1
        simp only
        constructor
        · refine List.IsPrefix.trans ?_ ih1
          rw [h1]
          exact List.prefix_append _ _
        · rw [ih2, h1]

theorem seedAnalytics_keeps (ctx : Ctx) (l : List Nat) (db : Db) :
    (seedAnalytics ctx l db).users = db.users ∧
      db.analytics <+: (seedAnalytics ctx l db).analytics := by
  induction l generalizing db with
  | nil => exact ⟨rfl, List.prefix_refl _⟩
  | cons i rest ih =>
    unfold seedAnalytics
    simp only
    obtain ⟨h1, h2⟩ := ih
      { db with
        analytics := db.analytics ++ [
          { _id := db.nextId
            date := seedDate ctx i
            activeUsers := JsNumber.ofInt (200 + randomBelow ctx (4 * i) 200)
            newSignups := JsNumber.ofInt (50 + randomBelow ctx (4 * i + 1) 100)
            sales := JsNumber.ofInt (3000 + randomBelow ctx (4 * i + 2) 3000)
            revenue := JsNumber.ofInt (30000 + randomBelow ctx (4 * i + 3) 30000) }]
        nextId := db.nextId + 1 }
    exact ⟨h1, List.IsPrefix.trans (List.prefix_append _ _) h2⟩

theorem seedDatabase_of_admin (ctx : Ctx) (db : Db) (req : Request)
    (h : ∃ u ∈ db.users, u.email = "admin@example.com") :
    seedDatabase ctx db req = (db, ⟨200, .message alreadySeeded⟩) := by
  obtain ⟨v, hv⟩ := findOneByEmail_exists db.users (some "admin@example.com")
    (by
      obtain ⟨u, hu, he⟩ := h
      exact ⟨u, hu, by rw [he]⟩)
  simp [seedDatabase, hv]

/-- The three ways a run of `seedDatabase` ends: the administrator was there and nothing
is touched; a step threw, the answer is 500 and what was saved before the throw stays;
or the run completed and the administrator is in the store. -/
theorem seedDatabase_cases (ctx : Ctx) (db : Db) (req : Request) :
    (seedDatabase ctx db req = (db, ⟨200, .message alreadySeeded⟩) ∧
        ∃ u ∈ db.users, u.email = "admin@example.com") ∨
      (∃ e, (seedDatabase ctx db req).2 = ⟨500, .failure "Seed error" e⟩ ∧
        db.users <+: (seedDatabase ctx db req).1.users ∧
        (seedDatabase ctx db req).1.analytics = db.analytics) ∨
      ((seedDatabase ctx db req).2 = ⟨200, .message seededNow⟩ ∧
        (∃ u ∈ (seedDatabase ctx db req).1.users, u.email = "admin@example.com") ∧
        db.users <+: (seedDatabase ctx db req).1.users) := by
  unfold seedDatabase
  cases hf : findOneByEmail db.users (some "admin@example.com") with
  | some v =>
    left
    obtain ⟨hm, he⟩ := findOneByEmail_mem db.users _ v hf
    exact ⟨rfl, v, hm, by simpa using he⟩
  | none =>
    right
    simp only
    cases ctx.prims.genSalt 10 with
    | error e => exact Or.inl ⟨e, rfl, List.prefix_refl _, rfl⟩
    | ok salt =>
      simp only
      cases ctx.prims.hash (some "admin123") salt with
      | error e => exact Or.inl ⟨e, rfl, List.prefix_refl _, rfl⟩
      | ok adminPassword =>
        simp only
        cases hs : saveUser ctx.now db
            { name := some "Admin User", email := some "admin@example.com",
              password := some adminPassword, role := some "Admin",
              status := some "Active" } with
        | error e => exact Or.inl ⟨e, rfl, List.prefix_refl _, rfl⟩
        | ok p =>
          obtain ⟨db1, u⟩ := p
          obtain ⟨h1, h2⟩ := saveUser_ok ctx.now db db1 _ u hs
          have hpre : db.users <+: db1.users := by
            rw [h1]
            exact List.prefix_append _ _
          have hadmin : u ∈ db1.users ∧ u.email = "admin@example.com" := by
            constructor
            · rw [h1]
              simp
            · rw [h2]
              rfl
          have han : db1.analytics = db.analytics := by rw [h1]
          obtain ⟨k1, k2⟩ := seedUsers_keeps ctx salt (List.range' 1 10) db1
          simp only
          cases hu : seedUsers ctx salt (List.range' 1 10) db1 with
          | mk db2 err =>
            rw [hu] at k1 k2
            simp only at k1 k2
            cases err with
            | some e =>
              exact Or.inl ⟨e, rfl, hpre.trans k1, by simp only; rw [k2, han]⟩
            | none =>
              obtain ⟨a1, -⟩ := seedAnalytics_keeps ctx (List.range 6) db2
              refine Or.inr ⟨rfl, ⟨u, ?_, hadmin.2⟩, ?_⟩
              · simp only
                rw [a1]
                exact k1.subset hadmin.1
              · simp only
                rw [a1]
                exact hpre.trans k1

/-- Claim C14. Whenever an account with the administrator email exists, `seedDatabase`
reports `already seeded` and returns the store as it found it; so a second run after a
completed first run, at any time and with any request, reports `already seeded` and leaves
the store exactly as the first run left it. -/
theorem seedDatabase_idempotent (ctx ctx2 : Ctx) (db : Db) (req req2 : Request) :
    ((∃ u ∈ db.users, u.email = "admin@example.com") →
        seedDatabase ctx db req = (db, ⟨200, .message alreadySeeded⟩)) ∧
      ((seedDatabase ctx db req).2 = ⟨200, .message seededNow⟩ →
        seedDatabase ctx2 (seedDatabase ctx db req).1 req2
          = ((seedDatabase ctx db req).1, ⟨200, .message alreadySeeded⟩)) := by
  refine ⟨seedDatabase_of_admin ctx db req, ?_⟩
  intro hok
  rcases seedDatabase_cases ctx db req with h | h | h
  · rw [h.1] at hok
    simp [alreadySeeded, seededNow] at hok
  · obtain ⟨e, he, -⟩ := h
    rw [he] at hok
    simp at hok
  · exact seedDatabase_of_admin ctx2 _ req2 h.2.1

theorem seedDatabase_idempotent_witness :
    seedDatabase londonCtx (seedDatabase sampleCtx emptyDb {}).1 sampleUserRequest
      = ((seedDatabase sampleCtx emptyDb {}).1, ⟨200, .message alreadySeeded⟩) :=
  (seedDatabase_idempotent sampleCtx londonCtx emptyDb {} sampleUserRequest).2 (by decide)

/-! ## Failed requests and the store -/

theorem chain_error_unchanged (mws : List Middleware) (h : Handler) (ctx : Ctx) (db : Db)
    (hh : ∀ req, (h ctx db req).2.status ≥ 400 → (h ctx db req).1 = db) (req : Request) :
    (chain mws h ctx db req).2.status ≥ 400 → (chain mws h ctx db req).1 = db := by
  induction mws generalizing req with
  | nil => exact hh req
  | cons m ms ih =>
    unfold chain
    cases m ctx db req with
    | respond r => exact fun _ => rfl
    | next req1 => exact ih req1

theorem register_error_unchanged (ctx : Ctx) (db : Db) (req : Request) :
    (register ctx db req).2.status ≥ 400 → (register ctx db req).1 = db := by
  unfold register
  cases findOneByEmail db.users req.body.email with
  | some v => exact fun _ => rfl
  | none =>
    simp only
    cases ctx.prims.genSalt 10 with
    | error e => exact fun _ => rfl
    | ok salt =>
      simp only
      cases ctx.prims.hash req.body.password salt with
      | error e => exact fun _ => rfl
      | ok hashed =>
        simp only
        cases saveUser ctx.now db
            { name := req.body.name, email := req.body.email, password := some hashed,
              role := some (orElse req.body.role "User"), status := none } with
        | error e => exact fun _ => rfl
        | ok p =>
          intro hst
          simp at hst

theorem updateUser_error_unchanged (ctx : Ctx) (db : Db) (req : Request) :
    (updateUser ctx db req).2.status ≥ 400 → (updateUser ctx db req).1 = db := by
  unfold updateUser
  cases castId req.paramId with
  | none => exact fun _ => rfl
  | some id =>
    simp only
    cases db.users.find? (fun u => u._id == id) with
    | none => exact fun _ => rfl
    | some u =>
      simp only
      split
      · exact fun _ => rfl
      · intro hst
        simp at hst

theorem deleteUser_error_unchanged (ctx : Ctx) (db : Db) (req : Request) :
    (deleteUser ctx db req).2.status ≥ 400 → (deleteUser ctx db req).1 = db := by
  unfold deleteUser
  cases castId req.paramId with
  | none => exact fun _ => rfl
  | some id =>
    simp only
    cases db.users.find? (fun u => u._id == id) with
    | none => exact fun _ => rfl
    | some u =>
      intro hst
      simp at hst

theorem addAnalytics_error_unchanged (ctx : Ctx) (db : Db) (req : Request) :
    (addAnalytics ctx db req).2.status ≥ 400 → (addAnalytics ctx db req).1 = db := by
  intro hst
  simp [addAnalytics] at hst

/-- Seeding is not all-or-nothing. With `user1@example.com` registered and no
administrator, `seedDatabase` saves the administrator, fails on the first sample user
with status 500, and the administrator account stays in the store. -/
theorem seedDatabase_partial_failure :
    (∀ u ∈ (accountsDb 1 0).users, u.email ≠ "admin@example.com") ∧
      (seedDatabase sampleCtx (accountsDb 1 0) {}).2
        = ⟨500, .failure "Seed error" "E11000 duplicate key error"⟩ ∧
      (seedDatabase sampleCtx (accountsDb 1 0) {}).1 ≠ accountsDb 1 0 ∧
      (seedDatabase sampleCtx (accountsDb 1 0) {}).1.users.map (fun u => u.email)
        = ["user1@example.com", "admin@example.com"] := by
  decide

/-- Claim C15, amended. For register, update, delete and add analytics, as handlers and as
routes behind their middleware, a response with an error status comes with the store
unchanged. For `seedDatabase` an error response comes with the analytics collection
unchanged and the account collection extended by the accounts saved before the failure,
the old accounts all kept; it is unchanged when the salt could not be generated. -/
theorem error_responses_and_store (ctx : Ctx) (db : Db) (req : Request) :
    ((register ctx db req).2.status ≥ 400 → (register ctx db req).1 = db) ∧
      ((updateUser ctx db req).2.status ≥ 400 → (updateUser ctx db req).1 = db) ∧
      ((deleteUser ctx db req).2.status ≥ 400 → (deleteUser ctx db req).1 = db) ∧
      ((addAnalytics ctx db req).2.status ≥ 400 → (addAnalytics ctx db req).1 = db) ∧
      ((updateUserRoute ctx db req).2.status ≥ 400 → (updateUserRoute ctx db req).1 = db) ∧
      ((deleteUserRoute ctx db req).2.status ≥ 400 → (deleteUserRoute ctx db req).1 = db) ∧
      ((addAnalyticsRoute ctx db req).2.status ≥ 400 →
        (addAnalyticsRoute ctx db req).1 = db) ∧
      ((seedDatabase ctx db req).2.status ≥ 400 →
        db.users <+: (seedDatabase ctx db req).1.users ∧
        (seedDatabase ctx db req).1.analytics = db.analytics) ∧
      ((∃ e, ctx.prims.genSalt 10 = .error e) → (seedDatabase ctx db req).1 = db) := by
  refine ⟨register_error_unchanged ctx db req, updateUser_error_unchanged ctx db req,
    deleteUser_error_unchanged ctx db req, addAnalytics_error_unchanged ctx db req,
    chain_error_unchanged _ _ ctx db (updateUser_error_unchanged ctx db) req,
    chain_error_unchanged _ _ ctx db (deleteUser_error_unchanged ctx db) req,
    chain_error_unchanged _ _ ctx db (addAnalytics_error_unchanged ctx db) req, ?_, ?_⟩
  · intro hst
    rcases seedDatabase_cases ctx db req with h | h | h
    · rw [h.1] at hst
      simp at hst
    · obtain ⟨e, -, h2⟩ := h
      exact h2
    · rw [h.1] at hst
      simp at hst
  · rintro ⟨e, he⟩
    unfold seedDatabase
    cases findOneByEmail db.users (some "admin@example.com") with
    | some v => rfl
    | none => simp [he]

theorem error_responses_and_store_witness :
    (register sampleCtx sampleDb
        { body := { name := some "New", email := some "new@example.com",
                    password := some "secret", role := some "Manager" } }).1 = sampleDb :=
  (error_responses_and_store sampleCtx sampleDb
    { body := { name := some "New", email := some "new@example.com",
                password := some "secret", role := some "Manager" } }).1 (by decide)

/-! ## Malformed registration -/

/-- A register request without a name and with a fresh email is answered 500, not 400. -/
theorem register_missing_name_is_500 :
    (∀ u ∈ sampleDb.users, some u.email ≠ some "nameless@example.com") ∧
      register sampleCtx sampleDb
          { body := { email := some "nameless@example.com", password := some "secret" } }
        = (sampleDb, ⟨500, .failure "Server error" "User validation failed"⟩) ∧
      (register sampleCtx sampleDb
          { body := { email := some "nameless@example.com",
                      password := some "secret" } }).2.status ≠ 400 := by
  decide

/-- Claim C16, amended. A register request with a fresh email whose body is malformed (the
name or the email is missing or empty, the role is outside the enumeration, or the
password is missing and the hasher rejects a missing password) is answered with status
500 and the body `Server error`, and the store is unchanged. -/
theorem register_malformed_is_500 (ctx : Ctx) (db : Db) (req : Request)
    (hfresh : ∀ u ∈ db.users, some u.email ≠ req.body.email)
    (hbad : requiredString req.body.name = false ∨ requiredString req.body.email = false ∨
      (orElse req.body.role "User" ≠ "Admin" ∧ orElse req.body.role "User" ≠ "User") ∨
      (req.body.password = none ∧ ∀ salt, ∃ e, ctx.prims.hash none salt = .error e)) :
    ∃ e, register ctx db req = (db, ⟨500, .failure "Server error" e⟩) := by
  have hfind := findOneByEmail_eq_none db.users req.body.email hfresh
  unfold register
  rw [hfind]
  simp only
  cases ctx.prims.genSalt 10 with
  | error e => exact ⟨e, rfl⟩
  | ok salt =>
    simp only
    cases hh : ctx.prims.hash req.body.password salt with
    | error e => exact ⟨e, rfl⟩
    | ok hashed =>
      simp only
      have hinvalid : validateUser
          { name := req.body.name, email := req.body.email, password := some hashed,
            role := some (orElse req.body.role "User"), status := none } = false := by
        rcases hbad with h | h | h | h
        · simp [validateUser, h]
        · simp [validateUser, h]
        · simp [validateUser, h.1, h.2]
        · exfalso
          obtain ⟨e, he⟩ := h.2 salt
          rw [h.1, he] at hh
          cases hh
      refine ⟨"User validation failed", ?_⟩
      simp [saveUser, hinvalid]

theorem register_malformed_is_500_witness :
    ∃ e, register sampleCtx sampleDb
        { body := { email := some "nameless@example.com", password := some "secret" } }
      = (sampleDb, ⟨500, .failure "Server error" e⟩) :=
  register_malformed_is_500 sampleCtx sampleDb
    { body := { email := some "nameless@example.com", password := some "secret" } }
    (by decide) (Or.inl (by decide))

/-! ## Passwords and response bodies -/

theorem find_id_rewritePasswords (f : User → String) (users : List User) (id : Nat) :
    (users.map (fun u => { u with password := f u })).find? (fun u => u._id == id)
      = (users.find? (fun u => u._id == id)).map (fun u => { u with password := f u }) := by
  rw [List.find?_map]
  rfl

theorem getUser_rewritePasswords (ctx : Ctx) (db : Db) (f : User → String) (req : Request) :
    (getUser ctx (rewritePasswords f db) req).2 = (getUser ctx db req).2 := by
  unfold getUser
  cases castId req.paramId with
  | none => rfl
  | some id =>
    simp only [rewritePasswords, find_id_rewritePasswords]
    cases db.users.find? (fun u => u._id == id) with
    | none => rfl
    | some u => rfl

theorem getUsers_rewritePasswords (ctx : Ctx) (db : Db) (f : User → String) (req : Request) :
    (getUsers ctx (rewritePasswords f db) req).2 = (getUsers ctx db req).2 := by
  simp only [getUsers, rewritePasswords, List.map_map]
  rfl

theorem updateUser_rewritePasswords (ctx : Ctx) (db : Db) (f : User → String)
    (req : Request) :
    (updateUser ctx (rewritePasswords f db) req).2 = (updateUser ctx db req).2 := by
  unfold updateUser
  cases castId req.paramId with
  | none => rfl
  | some id =>
    simp only [rewritePasswords, find_id_rewritePasswords]
    cases db.users.find? (fun u => u._id == id) with
    | none => rfl
    | some u =>
      simp only [Option.map_some', List.any_map]
      have hany : (db.users.any ((fun v => v._id != id &&
            v.email == (applyUpdate req.body { u with password := f u }).email) ∘
              fun u => { u with password := f u }))
          = db.users.any (fun v => v._id != id && v.email == (applyUpdate req.body u).email) :=
        rfl
      rw [hany]
      split <;> rfl

theorem chain_response_congr (mws : List Middleware) (h : Handler) (ctx : Ctx) (db1 db2 : Db)
    (hm : ∀ m ∈ mws, ∀ req, m ctx db1 req = m ctx db2 req)
    (hh : ∀ req, (h ctx db1 req).2 = (h ctx db2 req).2) (req : Request) :
    (chain mws h ctx db1 req).2 = (chain mws h ctx db2 req).2 := by
  induction mws generalizing req with
  | nil => exact hh req
  | cons m ms ih =>
    unfold chain
    rw [hm m (List.mem_cons_self _ _) req]
    cases m ctx db2 req with
    | respond r => rfl
    | next req1 => exact ih (fun m1 hm1 => hm m1 (List.mem_cons_of_mem _ hm1)) req1

theorem gate_ignores_store (ctx : Ctx) (db1 db2 : Db) :
    ∀ m ∈ [authenticateToken, isAdmin], ∀ req, m ctx db1 req = m ctx db2 req := by
  intro m hm req
  simp only [List.mem_cons, List.mem_singleton, List.not_mem_nil, or_false] at hm
  rcases hm with rfl | rfl <;> rfl

theorem register_response_shape (ctx : Ctx) (db : Db) (req : Request) :
    (register ctx db req).2 = ⟨400, .message "User already exists"⟩ ∨
      (∃ e, (register ctx db req).2 = ⟨500, .failure "Server error" e⟩ ∧
        (ctx.prims.genSalt 10 = .error e ∨
          (∃ salt, ctx.prims.hash req.body.password salt = .error e) ∨
          e = "User validation failed" ∨ e = "E11000 duplicate key error")) ∨
      (register ctx db req).2 = ⟨201, .registered "User registered successfully" db.nextId⟩ := by
  unfold register
  cases findOneByEmail db.users req.body.email with
  | some v => exact Or.inl rfl
  | none =>
    right
    simp only
    cases hg : ctx.prims.genSalt 10 with
    | error e => exact Or.inl ⟨e, rfl, Or.inl rfl⟩
    | ok salt =>
      simp only
      cases hh : ctx.prims.hash req.body.password salt with
      | error e => exact Or.inl ⟨e, rfl, Or.inr (Or.inl ⟨salt, hh⟩)⟩
      | ok hashed =>
        simp only
        cases hs : saveUser ctx.now db
            { name := req.body.name, email := req.body.email, password := some hashed,
              role := some (orElse req.body.role "User"), status := none } with
        | error e =>
          refine Or.inl ⟨e, rfl, Or.inr (Or.inr ?_)⟩
          unfold saveUser at hs
          split at hs
          · split at hs
            · simp only [Except.error.injEq] at hs
              exact Or.inr hs.symm
            · cases hs
          · simp only [Except.error.injEq] at hs
            exact Or.inl hs.symm
        | ok p =>
          obtain ⟨db1, u⟩ := p
          obtain ⟨-, h2⟩ := saveUser_ok ctx.now db db1 _ u hs
          right
          simp only [h2, buildUser]

theorem login_response_shape (ctx : Ctx) (db : Db) (req : Request) :
    (login ctx db req).2 = ⟨400, .message "Invalid credentials"⟩ ∨
      (∃ e u, u ∈ db.users ∧ ctx.prims.compare req.body.password u.password = .error e ∧
        (login ctx db req).2 = ⟨500, .failure "Server error" e⟩) ∨
      (∃ u ∈ db.users,
        (login ctx db req).2 = ⟨200, .session
          (ctx.prims.sign { id := u._id, email := u.email, role := some u.role }
            (jwtSecret ctx) "24h" ctx.now)
          u._id u.name u.email u.role⟩) := by
  unfold login
  cases hf : findOneByEmail db.users req.body.email with
  | none => exact Or.inl rfl
  | some u =>
    have hu := (findOneByEmail_mem db.users _ u hf).1
    simp only
    cases hc : ctx.prims.compare req.body.password u.password with
    | error e => exact Or.inr (Or.inl ⟨e, u, hu, hc, rfl⟩)
    | ok b =>
      cases b with
      | false => exact Or.inl rfl
      | true => exact Or.inr (Or.inr ⟨u, hu, rfl⟩)

/-- Claim C17. Register answers with a message, with a message and the text of a thrown
error, or with a message and the new account id; login answers with a message, a thrown
error, or the token signed over id, email and role together with id, name, email and
role of the account. The responses of list users, get user and update user, as handlers
and as routes, do not change when the password fields of the stored accounts are
replaced by anything else: no response body depends on a stored password. -/
theorem responses_carry_no_password (ctx : Ctx) (db : Db) (req : Request) :
    ((register ctx db req).2 = ⟨400, .message "User already exists"⟩ ∨
        (∃ e, (register ctx db req).2 = ⟨500, .failure "Server error" e⟩ ∧
          (ctx.prims.genSalt 10 = .error e ∨
            (∃ salt, ctx.prims.hash req.body.password salt = .error e) ∨
            e = "User validation failed" ∨ e = "E11000 duplicate key error")) ∨
        (register ctx db req).2
          = ⟨201, .registered "User registered successfully" db.nextId⟩) ∧
      ((login ctx db req).2 = ⟨400, .message "Invalid credentials"⟩ ∨
        (∃ e u, u ∈ db.users ∧ ctx.prims.compare req.body.password u.password = .error e ∧
          (login ctx db req).2 = ⟨500, .failure "Server error" e⟩) ∨
        (∃ u ∈ db.users,
          (login ctx db req).2 = ⟨200, .session
            (ctx.prims.sign { id := u._id, email := u.email, role := some u.role }
              (jwtSecret ctx) "24h" ctx.now)
            u._id u.name u.email u.role⟩)) ∧
      (∀ f : User → String,
        (getUsers ctx (rewritePasswords f db) req).2 = (getUsers ctx db req).2 ∧
        (getUser ctx (rewritePasswords f db) req).2 = (getUser ctx db req).2 ∧
        (updateUser ctx (rewritePasswords f db) req).2 = (updateUser ctx db req).2 ∧
        (getUsersRoute ctx (rewritePasswords f db) req).2 = (getUsersRoute ctx db req).2 ∧
        (getUserRoute ctx (rewritePasswords f db) req).2 = (getUserRoute ctx db req).2 ∧
        (updateUserRoute ctx (rewritePasswords f db) req).2
          = (updateUserRoute ctx db req).2) := by
  refine ⟨register_response_shape ctx db req, login_response_shape ctx db req, ?_⟩
  intro f
  refine ⟨getUsers_rewritePasswords ctx db f req, getUser_rewritePasswords ctx db f req,
    updateUser_rewritePasswords ctx db f req, ?_, ?_, ?_⟩
  · exact chain_response_congr _ _ ctx _ _ (gate_ignores_store ctx _ _)
      (getUsers_rewritePasswords ctx db f) req
  · refine chain_response_congr _ _ ctx _ _ ?_ (getUser_rewritePasswords ctx db f) req
    intro m hm r
    simp only [List.mem_singleton] at hm
    rw [hm]
    rfl
  · exact chain_response_congr _ _ ctx _ _ (gate_ignores_store ctx _ _)
      (updateUser_rewritePasswords ctx db f) req

/-! ## Failures inside the handlers: store outages -/

theorem saveUserWith_cases (faults : Faults) (k : Nat) (now : Int) (db : Db) (d : NewUser) :
    (validateUser d = false ∧ saveUser now db d = .error "User validation failed" ∧
        saveUserWith faults k now db d = (k, .error "User validation failed")) ∨
      (validateUser d = true ∧ faults k = none ∧
        saveUserWith faults k now db d = (k + 1, saveUser now db d)) ∨
      (∃ e, validateUser d = true ∧ faults k = some e ∧
        saveUserWith faults k now db d = (k + 1, .error e)) := by
  cases hv : validateUser d with
  | false =>
    left
    simp [saveUserWith, saveUser, hv]
  | true =>
    right
    cases hf : faults k with
    | none =>
      left
      simp [saveUserWith, hv, hf]
    | some e =>
      right
      exact ⟨e, rfl, rfl, by simp [saveUserWith, hv, hf]⟩

theorem faults_none_below_succ (faults : Faults) (k n : Nat) (hk : faults k = none)
    (h : ∀ j, k + 1 ≤ j → j < n → faults j = none) :
    ∀ j, k ≤ j → j < n → faults j = none := by
  intro j h1 h2
  by_cases hj : j = k
  · rw [hj]
    exact hk
  · exact h j (by omega) h2

theorem seedUsersWith_outages (faults : Faults) (ctx : Ctx) (salt : String) (l : List Nat)
    (k : Nat) (db : Db) :
    (∃ n, k ≤ n ∧ (∀ j, k ≤ j → j < n → faults j = none) ∧
        seedUsersWith faults ctx salt l k db
          = ((seedUsers ctx salt l db).1, n, (seedUsers ctx salt l db).2) ∧
        ((seedUsers ctx salt l db).2 = none → n = k + l.length)) ∨
      (∃ db1 n e, k ≤ n ∧ (∀ j, k ≤ j → j < n → faults j = none) ∧ faults n = some e ∧
        seedUsersWith faults ctx salt l k db = (db1, n + 1, some e)) := by
  induction l generalizing k db with
  | nil =>
    left
    exact ⟨k, Nat.le_refl k, by intro j h1 h2; omega, rfl, fun _ => rfl⟩
  | cons i rest ih =>
    cases hh : ctx.prims.hash (some "user123") salt with
    | error e =>
      left
      refine ⟨k, Nat.le_refl k, by intro j h1 h2; omega, ?_, ?_⟩
      · simp [seedUsersWith, seedUsers, hh]
      · simp [seedUsers, hh]
    | ok userPassword =>
      rcases saveUserWith_cases faults k ctx.now db (seedUserDoc i userPassword) with
        ⟨-, hq, hs⟩ | ⟨-, hk, hs⟩ | ⟨e, -, hk, hs⟩
      · left
        refine ⟨k, Nat.le_refl k, by intro j h1 h2; omega, ?_, ?_⟩
        · simp [seedUsersWith, seedUsers, hh, hs, hq]
        · simp [seedUsers, hh, hq]
      · cases hsave : saveUser ctx.now db (seedUserDoc i userPassword) with
        | error e =>
          left
          refine ⟨k + 1, Nat.le_succ k, ?_, ?_, ?_⟩
          · intro j h1 h2
            have : j = k := by omega
            rw [this]
            exact hk
          · simp [seedUsersWith, seedUsers, hh, hs, hsave]
          · simp [seedUsers, hh, hsave]
        | ok pair =>
          obtain ⟨db1, u⟩ := pair
          have e1 : seedUsersWith faults ctx salt (i :: rest) k db
              = seedUsersWith faults ctx salt rest (k + 1) db1 := by
            simp [seedUsersWith, hh, hs, hsave]
          have e2 : seedUsers ctx salt (i :: rest) db = seedUsers ctx salt rest db1 := by
            simp [seedUsers, hh, hsave]
          rw [e1, e2]
          rcases ih (k + 1) db1 with ⟨n, hn, hq, heq, hlen⟩ | ⟨db2, n, e, hn, hq, hf, heq⟩
          · left
            refine ⟨n, by omega, faults_none_below_succ faults k n hk hq, heq, ?_⟩
            intro hnone
            rw [hlen hnone, List.length_cons]
            omega
          · right
            exact ⟨db2, n, e, by omega, faults_none_below_succ faults k n hk hq, hf, heq⟩
      · right
        refine ⟨db, k, e, Nat.le_refl k, by intro j h1 h2; omega, hk, ?_⟩
        simp [seedUsersWith, hh, hs]

theorem seedAnalytics_cons (ctx : Ctx) (i : Nat) (rest : List Nat) (db : Db) :
    seedAnalytics ctx (i :: rest) db = seedAnalytics ctx rest (seedAnalytics ctx [i] db) := by
  simp [seedAnalytics]

theorem seedAnalyticsWith_outages (faults : Faults) (ctx : Ctx) (l : List Nat) (k : Nat)
    (db : Db) :
    ((∀ j, k ≤ j → j < k + l.length → faults j = none) ∧
        seedAnalyticsWith faults ctx l k db = (seedAnalytics ctx l db, k + l.length, none)) ∨
      (∃ db1 n e, k ≤ n ∧ (∀ j, k ≤ j → j < n → faults j = none) ∧ faults n = some e ∧
        seedAnalyticsWith faults ctx l k db = (db1, n + 1, some e)) := by
  induction l generalizing k db with
  | nil =>
    left
    exact ⟨by intro j h1 h2; simp at h2; omega, rfl⟩
  | cons i rest ih =>
    cases hk : faults k with
    | some e =>
      right
      refine ⟨db, k, e, Nat.le_refl k, by intro j h1 h2; omega, hk, ?_⟩
      simp [seedAnalyticsWith, hk]
    | none =>
      have e1 : seedAnalyticsWith faults ctx (i :: rest) k db
          = seedAnalyticsWith faults ctx rest (k + 1) (seedAnalytics ctx [i] db) := by
        simp [seedAnalyticsWith, hk]
      rw [e1, seedAnalytics_cons ctx i rest db]
      rcases ih (k + 1) (seedAnalytics ctx [i] db) with ⟨hq, heq⟩ | ⟨db2, n, e, hn, hq, hf, heq⟩
      · left
        refine ⟨?_, ?_⟩
        · apply faults_none_below_succ faults k _ hk
          intro j h1 h2
          apply hq j h1
          rw [List.length_cons] at h2
          omega
        · rw [heq, List.length_cons]
          congr 2
          omega
      · right
        exact ⟨db2, n, e, by omega, faults_none_below_succ faults k n hk hq, hf, heq⟩

theorem faults_none_below_one (faults : Faults) (h0 : faults 0 = none) :
    ∀ k, k < 1 → faults k = none := by
  intro k hk
  have : k = 0 := by omega
  rw [this]
  exact h0

theorem faults_none_below_two (faults : Faults) (h0 : faults 0 = none) (h1 : faults 1 = none) :
    ∀ k, k < 2 → faults k = none := by
  intro k hk
  have : k = 0 ∨ k = 1 := by omega
  rcases this with h | h <;> rw [h] <;> assumption

theorem outages_at_first (faults : Faults) (message e : String) (quiet : Db × Response)
    (db : Db) (h0 : faults 0 = some e) :
    OutagesAnswered faults message quiet (.responded db 1 ⟨500, .failure message e⟩) :=
  Or.inr ⟨db, 0, e, by intro k hk; omega, h0, rfl⟩

theorem registerRun_outages (faults : Faults) (ctx : Ctx) (db : Db) (req : Request) :
    OutagesAnswered faults "Server error" (register ctx db req)
      (registerRun faults ctx db req) := by
  cases h0 : faults 0 with
  | some e =>
    have : registerRun faults ctx db req
        = .responded db 1 ⟨500, .failure "Server error" e⟩ := by
      simp [registerRun, registerAttempt, h0, tryCatch]
    rw [this]
    exact outages_at_first faults _ e _ db h0
  | none =>
    have q1 := faults_none_below_one faults h0
    cases hf : findOneByEmail db.users req.body.email with
    | some u =>
      left
      exact ⟨1, q1, by simp [registerRun, registerAttempt, register, h0, hf, tryCatch]⟩
    | none =>
      cases hg : ctx.prims.genSalt 10 with
      | error e =>
        left
        exact ⟨1, q1, by simp [registerRun, registerAttempt, register, h0, hf, hg, tryCatch]⟩
      | ok salt =>
        cases hh : ctx.prims.hash req.body.password salt with
        | error e =>
          left
          exact ⟨1, q1, by
            simp [registerRun, registerAttempt, register, h0, hf, hg, hh, tryCatch]⟩
        | ok hashed =>
          rcases saveUserWith_cases faults 1 ctx.now db
            { name := req.body.name, email := req.body.email, password := some hashed,
              role := some (orElse req.body.role "User"), status := none } with
            ⟨-, hq, hs⟩ | ⟨-, h1, hs⟩ | ⟨e, -, h1, hs⟩
          · left
            exact ⟨1, q1, by
              simp [registerRun, registerAttempt, register, h0, hf, hg, hh, hs, hq, tryCatch]⟩
          · left
            refine ⟨2, faults_none_below_two faults h0 h1, ?_⟩
            cases hsave : saveUser ctx.now db
              { name := req.body.name, email := req.body.email, password := some hashed,
                role := some (orElse req.body.role "User"), status := none } with
            | error e =>
              simp [registerRun, registerAttempt, register, h0, hf, hg, hh, hs, hsave, tryCatch]
            | ok pair =>
              simp [registerRun, registerAttempt, register, h0, hf, hg, hh, hs, hsave, tryCatch]
          · right
            exact ⟨db, 1, e, q1, h1, by
              simp [registerRun, registerAttempt, h0, hf, hg, hh, hs, tryCatch]⟩

theorem loginRun_outages (faults : Faults) (ctx : Ctx) (db : Db) (req : Request) :
    OutagesAnswered faults "Server error" (login ctx db req) (loginRun faults ctx db req) := by
  cases h0 : faults 0 with
  | some e =>
    have : loginRun faults ctx db req = .responded db 1 ⟨500, .failure "Server error" e⟩ := by
      simp [loginRun, loginAttempt, h0, tryCatch]
    rw [this]
    exact outages_at_first faults _ e _ db h0
  | none =>
    left
    refine ⟨1, faults_none_below_one faults h0, ?_⟩
    cases hf : findOneByEmail db.users req.body.email with
    | none => simp [loginRun, loginAttempt, login, h0, hf, tryCatch]
    | some u =>
      cases hc : ctx.prims.compare req.body.password u.password with
      | error e => simp [loginRun, loginAttempt, login, h0, hf, hc, tryCatch]
      | ok b =>
        cases b <;> simp [loginRun, loginAttempt, login, h0, hf, hc, tryCatch]

theorem getUsersRun_outages (faults : Faults) (ctx : Ctx) (db : Db) (req : Request) :
    OutagesAnswered faults "Server error" (getUsers ctx db req)
      (getUsersRun faults ctx db req) := by
  cases h0 : faults 0 with
  | some e =>
    have : getUsersRun faults ctx db req
        = .responded db 1 ⟨500, .failure "Server error" e⟩ := by
      simp [getUsersRun, getUsersAttempt, h0, tryCatch]
    rw [this]
    exact outages_at_first faults _ e _ db h0
  | none =>
    left
    exact ⟨1, faults_none_below_one faults h0, by
      simp [getUsersRun, getUsersAttempt, getUsers, h0, tryCatch]⟩

theorem getUserRun_outages (faults : Faults) (ctx : Ctx) (db : Db) (req : Request) :
    OutagesAnswered faults "Server error" (getUser ctx db req)
      (getUserRun faults ctx db req) := by
  cases hc : castId req.paramId with
  | none =>
    left
    exact ⟨0, by intro k hk; omega, by simp [getUserRun, getUserAttempt, getUser, hc, tryCatch]⟩
  | some id =>
    cases h0 : faults 0 with
    | some e =>
      have : getUserRun faults ctx db req
          = .responded db 1 ⟨500, .failure "Server error" e⟩ := by
        simp [getUserRun, getUserAttempt, hc, h0, tryCatch]
      rw [this]
      exact outages_at_first faults _ e _ db h0
    | none =>
      left
      refine ⟨1, faults_none_below_one faults h0, ?_⟩
      cases hf : db.users.find? (fun u => u._id == id) with
      | none => simp [getUserRun, getUserAttempt, getUser, hc, h0, hf, tryCatch]
      | some u => simp [getUserRun, getUserAttempt, getUser, hc, h0, hf, tryCatch]

theorem updateUserRun_outages (faults : Faults) (ctx : Ctx) (db : Db) (req : Request) :
    OutagesAnswered faults "Server error" (updateUser ctx db req)
      (updateUserRun faults ctx db req) := by
  cases hc : castId req.paramId with
  | none =>
    left
    exact ⟨0, by intro k hk; omega, by
      simp [updateUserRun, updateUserAttempt, updateUser, hc, tryCatch]⟩
  | some id =>
    cases h0 : faults 0 with
    | some e =>
      have : updateUserRun faults ctx db req
          = .responded db 1 ⟨500, .failure "Server error" e⟩ := by
        simp [updateUserRun, updateUserAttempt, hc, h0, tryCatch]
      rw [this]
      exact outages_at_first faults _ e _ db h0
    | none =>
      left
      refine ⟨1, faults_none_below_one faults h0, ?_⟩
      cases hf : db.users.find? (fun u => u._id == id) with
      | none => simp [updateUserRun, updateUserAttempt, updateUser, hc, h0, hf, tryCatch]
      | some u =>
        by_cases hdup : (db.users.any fun v =>
            v._id != id && v.email == (applyUpdate req.body u).email) = true
        · simp [updateUserRun, updateUserAttempt, updateUser, hc, h0, hf, hdup, tryCatch]
        · simp [updateUserRun, updateUserAttempt, updateUser, hc, h0, hf, hdup, tryCatch]

theorem deleteUserRun_outages (faults : Faults) (ctx : Ctx) (db : Db) (req : Request) :
    OutagesAnswered faults "Server error" (deleteUser ctx db req)
      (deleteUserRun faults ctx db req) := by
  cases hc : castId req.paramId with
  | none =>
    left
    exact ⟨0, by intro k hk; omega, by
      simp [deleteUserRun, deleteUserAttempt, deleteUser, hc, tryCatch]⟩
  | some id =>
    cases h0 : faults 0 with
    | some e =>
      have : deleteUserRun faults ctx db req
          = .responded db 1 ⟨500, .failure "Server error" e⟩ := by
        simp [deleteUserRun, deleteUserAttempt, hc, h0, tryCatch]
      rw [this]
      exact outages_at_first faults _ e _ db h0
    | none =>
      left
      refine ⟨1, faults_none_below_one faults h0, ?_⟩
      cases hf : db.users.find? (fun u => u._id == id) with
      | none => simp [deleteUserRun, deleteUserAttempt, deleteUser, hc, h0, hf, tryCatch]
      | some u => simp [deleteUserRun, deleteUserAttempt, deleteUser, hc, h0, hf, tryCatch]

/-- The metrics handler issues four store operations; the first one that is out ends it. -/
theorem getMetricsRun_first_outage (faults : Faults) (ctx : Ctx) (db : Db) (req : Request)
    (k : Nat) (e : String) (hk : k < 4) (hq : ∀ j, j < k → faults j = none)
    (hf : faults k = some e) :
    getMetricsRun faults ctx db req
      = .responded db (k + 1) ⟨500, .failure "Server error" e⟩ := by
  have hcases : k = 0 ∨ k = 1 ∨ k = 2 ∨ k = 3 := by omega
  rcases hcases with h | h | h | h
  · subst h
    simp [getMetricsRun, getMetricsAttempt, hf, tryCatch]
  · subst h
    simp [getMetricsRun, getMetricsAttempt, hf, hq 0 (by omega), tryCatch]
  · subst h
    simp [getMetricsRun, getMetricsAttempt, hf, hq 0 (by omega), hq 1 (by omega), tryCatch]
  · subst h
    simp [getMetricsRun, getMetricsAttempt, hf, hq 0 (by omega), hq 1 (by omega),
      hq 2 (by omega), tryCatch]

theorem getMetricsRun_quiet (faults : Faults) (ctx : Ctx) (db : Db) (req : Request)
    (hq : ∀ j, j < 4 → faults j = none) :
    getMetricsRun faults ctx db req
      = .responded db 4 ⟨200, .metrics (computeMetrics ctx db)⟩ := by
  simp [getMetricsRun, getMetricsAttempt, hq 0 (by omega), hq 1 (by omega), hq 2 (by omega),
    hq 3 (by omega), tryCatch]

theorem getMetricsRun_outages (faults : Faults) (ctx : Ctx) (db : Db) (req : Request) :
    OutagesAnswered faults "Server error" (getMetrics ctx db req)
      (getMetricsRun faults ctx db req) := by
  by_cases hq : ∀ j, j < 4 → faults j = none
  · left
    exact ⟨4, hq, by rw [getMetricsRun_quiet faults ctx db req hq]; rfl⟩
  · right
    have hex : ∃ k, k < 4 ∧ faults k ≠ none := by
      by_contra hc
      apply hq
      intro j hj
      by_contra hne
      exact hc ⟨j, hj, hne⟩
    classical
    obtain ⟨hk4, hkne⟩ := Nat.find_spec hex
    have hmin : ∀ j, j < Nat.find hex → faults j = none := by
      intro j hj
      by_contra hne
      exact Nat.find_min hex hj ⟨by omega, hne⟩
    obtain ⟨e, he⟩ := Option.ne_none_iff_exists'.mp hkne
    exact ⟨db, Nat.find hex, e, hmin, he,
      getMetricsRun_first_outage faults ctx db req _ e hk4 hmin he⟩

theorem getChartRun_outages (faults : Faults) (ctx : Ctx) (db : Db) (req : Request) :
    OutagesAnswered faults "Server error" (getChart ctx db req)
      (getChartRun faults ctx db req) := by
  cases h0 : faults 0 with
  | some e =>
    have : getChartRun faults ctx db req
        = .responded db 1 ⟨500, .failure "Server error" e⟩ := by
      simp [getChartRun, getChartAttempt, h0, tryCatch]
    rw [this]
    exact outages_at_first faults _ e _ db h0
  | none =>
    left
    exact ⟨1, faults_none_below_one faults h0, by
      simp [getChartRun, getChartAttempt, getChart, h0, tryCatch]⟩

theorem addAnalyticsRun_outages (faults : Faults) (ctx : Ctx) (db : Db) (req : Request) :
    OutagesAnswered faults "Server error" (addAnalytics ctx db req)
      (addAnalyticsRun faults ctx db req) := by
  cases h0 : faults 0 with
  | some e =>
    have : addAnalyticsRun faults ctx db req
        = .responded db 1 ⟨500, .failure "Server error" e⟩ := by
      simp [addAnalyticsRun, addAnalyticsAttempt, h0, tryCatch]
    rw [this]
    exact outages_at_first faults _ e _ db h0
  | none =>
    left
    exact ⟨1, faults_none_below_one faults h0, by
      simp [addAnalyticsRun, addAnalyticsAttempt, h0, tryCatch]⟩

theorem seededNow_ne_alreadySeeded : alreadySeeded ≠ seededNow := by decide

/-- The runs of `seedDatabase`: the answer of the handler with a store that never fails,
short of success; success, after eighteen store operations none of which was out; or an
outage, answered with status 500. -/
theorem seedDatabaseRun_cases (faults : Faults) (ctx : Ctx) (db : Db) (req : Request) :
    (∃ n, (∀ k, k < n → faults k = none) ∧
        seedDatabaseRun faults ctx db req
          = .responded (seedDatabase ctx db req).1 n (seedDatabase ctx db req).2 ∧
        (seedDatabase ctx db req).2 ≠ ⟨200, .message seededNow⟩) ∨
      ((∀ k, k < 18 → faults k = none) ∧
        seedDatabaseRun faults ctx db req
          = .responded (seedDatabase ctx db req).1 18 (seedDatabase ctx db req).2 ∧
        (seedDatabase ctx db req).2 = ⟨200, .message seededNow⟩) ∨
      (∃ db1 n e, (∀ k, k < n → faults k = none) ∧ faults n = some e ∧
        seedDatabaseRun faults ctx db req
          = .responded db1 (n + 1) ⟨500, .failure "Seed error" e⟩) := by
  cases h0 : faults 0 with
  | some e =>
    right
    right
    exact ⟨db, 0, e, by intro k hk; omega, h0, by
      simp [seedDatabaseRun, seedDatabaseAttempt, h0, tryCatch]⟩
  | none =>
    have q1 := faults_none_below_one faults h0
    cases hf : findOneByEmail db.users (some "admin@example.com") with
    | some u =>
      left
      refine ⟨1, q1, by
        simp [seedDatabaseRun, seedDatabaseAttempt, seedDatabase, h0, hf, tryCatch], ?_⟩
      simp only [seedDatabase, hf]
      intro h
      injection h with h1 h2
      injection h2 with h3
      exact seededNow_ne_alreadySeeded h3
    | none =>
      cases hg : ctx.prims.genSalt 10 with
      | error e =>
        left
        exact ⟨1, q1, by
          simp [seedDatabaseRun, seedDatabaseAttempt, seedDatabase, h0, hf, hg, tryCatch], by
          simp [seedDatabase, hf, hg]⟩
      | ok salt =>
        cases hh : ctx.prims.hash (some "admin123") salt with
        | error e =>
          left
          exact ⟨1, q1, by
            simp [seedDatabaseRun, seedDatabaseAttempt, seedDatabase, h0, hf, hg, hh, tryCatch],
            by simp [seedDatabase, hf, hg, hh]⟩
        | ok adminPassword =>
          rcases saveUserWith_cases faults 1 ctx.now db
            { name := some "Admin User", email := some "admin@example.com",
              password := some adminPassword, role := some "Admin",
              status := some "Active" } with
            ⟨-, hq, hs⟩ | ⟨-, h1, hs⟩ | ⟨e, -, h1, hs⟩
          · left
            exact ⟨1, q1, by
              simp [seedDatabaseRun, seedDatabaseAttempt, seedDatabase, h0, hf, hg, hh, hs, hq,
                tryCatch], by
              simp [seedDatabase, hf, hg, hh, hq]⟩
          · have q2 := faults_none_below_two faults h0 h1
            cases hsave : saveUser ctx.now db
              { name := some "Admin User", email := some "admin@example.com",
                password := some adminPassword, role := some "Admin",
                status := some "Active" } with
            | error e =>
              left
              exact ⟨2, q2, by
                simp [seedDatabaseRun, seedDatabaseAttempt, seedDatabase, h0, hf, hg, hh, hs,
                  hsave, tryCatch], by
                simp [seedDatabase, hf, hg, hh, hsave]⟩
            | ok pair =>
              obtain ⟨db1, u⟩ := pair
              have below : ∀ n, (∀ j, 2 ≤ j → j < n → faults j = none) →
                  ∀ k, k < n → faults k = none := by
                intro n hq k hk
                by_cases h2 : k < 2
                · exact q2 k h2
                · exact hq k (by omega) hk
              rcases seedUsersWith_outages faults ctx salt (List.range' 1 10) 2 db1 with
                ⟨n, hn, hq, heq, hlen⟩ | ⟨db2, n, e, hn, hq, hfault, heq⟩
              · cases hres : (seedUsers ctx salt (List.range' 1 10) db1) with
                | mk db2 res =>
                  rw [hres] at heq hlen
                  cases res with
                  | some e =>
                    left
                    exact ⟨n, below n hq, by
                      simp [seedDatabaseRun, seedDatabaseAttempt, seedDatabase, h0, hf, hg, hh,
                        hs, hsave, heq, hres, tryCatch], by
                      simp [seedDatabase, hf, hg, hh, hsave, hres]⟩
                  | none =>
                    have hn12 : n = 12 := by
                      have := hlen rfl
                      simpa using this
                    subst hn12
                    rcases seedAnalyticsWith_outages faults ctx (List.range 6) 12 db2 with
                      ⟨hqa, heqa⟩ | ⟨db3, m, e, hm, hqa, hfa, heqa⟩
                    · right
                      left
                      have hall : ∀ k, k < 18 → faults k = none := by
                        intro k hk
                        by_cases h12 : k < 12
                        · exact below 12 hq k h12
                        · exact hqa k (by omega) (by simpa using hk)
                      refine ⟨hall, ?_, ?_⟩
                      · simp [seedDatabaseRun, seedDatabaseAttempt, seedDatabase, h0, hf, hg, hh,
                          hs, hsave, heq, hres, heqa, tryCatch]
                      · simp [seedDatabase, hf, hg, hh, hsave, hres]
                    · right
                      right
                      refine ⟨db3, m, e, ?_, hfa, ?_⟩
                      · intro k hk
                        by_cases h12 : k < 12
                        · exact below 12 hq k h12
                        · exact hqa k (by omega) hk
                      · simp [seedDatabaseRun, seedDatabaseAttempt, h0, hf, hg, hh, hs, hsave,
                          heq, heqa, tryCatch]
              · right
                right
                exact ⟨db2, n, e, below n hq, hfault, by
                  simp [seedDatabaseRun, seedDatabaseAttempt, h0, hf, hg, hh, hs, hsave, heq,
                    tryCatch]⟩
          · right
            right
            exact ⟨db, 1, e, q1, h1, by
              simp [seedDatabaseRun, seedDatabaseAttempt, h0, hf, hg, hh, hs, tryCatch]⟩

theorem seedDatabaseRun_outages (faults : Faults) (ctx : Ctx) (db : Db) (req : Request) :
    OutagesAnswered faults "Seed error" (seedDatabase ctx db req)
      (seedDatabaseRun faults ctx db req) := by
  rcases seedDatabaseRun_cases faults ctx db req with
    ⟨n, hq, heq, -⟩ | ⟨hq, heq, -⟩ | ⟨db1, n, e, hq, hf, heq⟩
  · exact Or.inl ⟨n, hq, heq⟩
  · exact Or.inl ⟨18, hq, heq⟩
  · exact Or.inr ⟨db1, n, e, hq, hf, heq⟩

theorem seedDatabaseRun_success (faults : Faults) (ctx : Ctx) (db : Db) (req : Request)
    (db1 : Db) (n : Nat)
    (h : seedDatabaseRun faults ctx db req = .responded db1 n ⟨200, .message seededNow⟩) :
    n = 18 ∧ ∀ k, k < 18 → faults k = none := by
  rcases seedDatabaseRun_cases faults ctx db req with
    ⟨m, -, heq, hne⟩ | ⟨hq, heq, -⟩ | ⟨db2, m, e, -, -, heq⟩
  · rw [heq] at h
    injection h with h1 h2 h3
    exact absurd h3 hne
  · rw [heq] at h
    injection h with h1 h2 h3
    exact ⟨h2.symm, hq⟩
  · rw [heq] at h
    injection h with h1 h2 h3
    injection h3 with h4 h5
    omega

theorem outages_responded (faults : Faults) (message : String) (quiet : Db × Response)
    (run : Run) (h : OutagesAnswered faults message quiet run) :
    ∃ db n r, run = .responded db n r := by
  rcases h with ⟨n, -, heq⟩ | ⟨db, n, e, -, -, heq⟩
  · exact ⟨_, _, _, heq⟩
  · exact ⟨_, _, _, heq⟩

theorem authenticateTokenStep_cases (ctx : Ctx) (db : Db) (req : Request) :
    (∃ r, authenticateTokenStep ctx db req = .respond r) ∨
      (∃ req1 claims, authenticateTokenStep ctx db req = .next req1 ∧
        req1.user = some claims) := by
  unfold authenticateTokenStep authenticateToken
  cases extractToken req.authorization with
  | none => exact Or.inl ⟨_, rfl⟩
  | some token =>
    simp only
    by_cases ht : token = ""
    · rw [if_pos ht]
      exact Or.inl ⟨_, rfl⟩
    · rw [if_neg ht]
      cases ctx.prims.verify token (jwtSecret ctx) ctx.now with
      | error e => exact Or.inl ⟨_, rfl⟩
      | ok verified => exact Or.inr ⟨_, verified, rfl, rfl⟩

/-- A route behind `authenticateToken` ends in a response when its handler does. -/
theorem routeRun_authenticated (h : Faults → Ctx → Db → Request → Run) (faults : Faults)
    (ctx : Ctx) (db : Db) (req : Request)
    (hh : ∀ req1, ∃ db1 n r, h faults ctx db req1 = .responded db1 n r) :
    ∃ db1 n r, routeRun [authenticateTokenStep] h faults ctx db req = .responded db1 n r := by
  rcases authenticateTokenStep_cases ctx db req with ⟨r, hr⟩ | ⟨req1, claims, hr, -⟩
  · exact ⟨db, 0, r, by simp [routeRun, hr]⟩
  · obtain ⟨db1, n, r, heq⟩ := hh req1
    exact ⟨db1, n, r, by simp [routeRun, hr, heq]⟩

/-- A route behind `authenticateToken, isAdmin` ends in a response when its handler does:
`isAdmin` finds the `req.user` that `authenticateToken` has set. -/
theorem routeRun_admin (h : Faults → Ctx → Db → Request → Run) (faults : Faults)
    (ctx : Ctx) (db : Db) (req : Request)
    (hh : ∀ req1, ∃ db1 n r, h faults ctx db req1 = .responded db1 n r) :
    ∃ db1 n r,
      routeRun [authenticateTokenStep, isAdminStep] h faults ctx db req
        = .responded db1 n r := by
  rcases authenticateTokenStep_cases ctx db req with ⟨r, hr⟩ | ⟨req1, claims, hr, hu⟩
  · exact ⟨db, 0, r, by simp [routeRun, hr]⟩
  · by_cases hrole : claims.role ≠ some "Admin"
    · exact ⟨db, 0, ⟨403, .message "Access denied. Admin only."⟩, by
        simp [routeRun, hr, isAdminStep, hu, hrole]⟩
    · obtain ⟨db1, n, r, heq⟩ := hh req1
      exact ⟨db1, n, r, by simp [routeRun, hr, isAdminStep, hu, hrole, heq]⟩

/-- Mounted without `authenticateToken` before it, `isAdmin` throws, and nothing in the
application catches the error. -/
theorem isAdmin_alone_escapes (faults : Faults) (ctx : Ctx) (db : Db) :
    routeRun [isAdminStep] getUsersRun faults ctx db { body := {} }
      = .uncaught db 0 "Cannot read properties of undefined (reading 'role')" := by
  rfl

/-- Claim C18. Every handler is run with its `try` and `catch` apart, under every schedule
of store outages. No error reaches the transport layer: each route, mounted behind its
middleware as in the source, ends in a response. A run of a handler in which no store
operation was out ends as the handler does with a store that never fails; otherwise the
first operation that is out ends the run with status 500 and a body `message, error` that
carries the message of the outage. So does an outage at the first
operation of any handler, at any of the four operations of the metrics handler and at the
insert of a registration, and `seedDatabase` reports success only after eighteen store
operations none of which was out. The failures of the handler's own computation are
answered the same way: a throw of the salt generator, the hasher or the password
comparison, a document that fails validation, an identifier that cannot be cast and an
update that the unique index rejects. -/
theorem handler_failures_answered_500 (faults : Faults) (ctx : Ctx) (db : Db) (req : Request) :
    (OutagesAnswered faults "Server error" (register ctx db req)
        (registerRun faults ctx db req) ∧
      OutagesAnswered faults "Server error" (login ctx db req) (loginRun faults ctx db req) ∧
      OutagesAnswered faults "Server error" (getUsers ctx db req)
        (getUsersRun faults ctx db req) ∧
      OutagesAnswered faults "Server error" (getUser ctx db req)
        (getUserRun faults ctx db req) ∧
      OutagesAnswered faults "Server error" (updateUser ctx db req)
        (updateUserRun faults ctx db req) ∧
      OutagesAnswered faults "Server error" (deleteUser ctx db req)
        (deleteUserRun faults ctx db req) ∧
      OutagesAnswered faults "Server error" (getMetrics ctx db req)
        (getMetricsRun faults ctx db req) ∧
      OutagesAnswered faults "Server error" (getChart ctx db req)
        (getChartRun faults ctx db req) ∧
      OutagesAnswered faults "Server error" (addAnalytics ctx db req)
        (addAnalyticsRun faults ctx db req) ∧
      OutagesAnswered faults "Seed error" (seedDatabase ctx db req)
        (seedDatabaseRun faults ctx db req)) ∧
      (∀ run ∈ routeRuns faults ctx db req, ∃ db1 n r, run = .responded db1 n r) ∧
      (∀ e, faults 0 = some e →
        registerRun faults ctx db req = .responded db 1 ⟨500, .failure "Server error" e⟩ ∧
        loginRun faults ctx db req = .responded db 1 ⟨500, .failure "Server error" e⟩ ∧
        getUsersRun faults ctx db req = .responded db 1 ⟨500, .failure "Server error" e⟩ ∧
        getMetricsRun faults ctx db req = .responded db 1 ⟨500, .failure "Server error" e⟩ ∧
        getChartRun faults ctx db req = .responded db 1 ⟨500, .failure "Server error" e⟩ ∧
        addAnalyticsRun faults ctx db req
          = .responded db 1 ⟨500, .failure "Server error" e⟩ ∧
        seedDatabaseRun faults ctx db req = .responded db 1 ⟨500, .failure "Seed error" e⟩ ∧
        (castId req.paramId ≠ none →
          getUserRun faults ctx db req = .responded db 1 ⟨500, .failure "Server error" e⟩ ∧
          updateUserRun faults ctx db req
            = .responded db 1 ⟨500, .failure "Server error" e⟩ ∧
          deleteUserRun faults ctx db req
            = .responded db 1 ⟨500, .failure "Server error" e⟩)) ∧
      (∀ k e, k < 4 → (∀ j, j < k → faults j = none) → faults k = some e →
        getMetricsRun faults ctx db req
          = .responded db (k + 1) ⟨500, .failure "Server error" e⟩) ∧
      (∀ salt hashed e, faults 0 = none →
        findOneByEmail db.users req.body.email = none →
        ctx.prims.genSalt 10 = .ok salt →
        ctx.prims.hash req.body.password salt = .ok hashed →
        validateUser
          { name := req.body.name, email := req.body.email, password := some hashed,
            role := some (orElse req.body.role "User"), status := none } = true →
        faults 1 = some e →
        registerRun faults ctx db req = .responded db 2 ⟨500, .failure "Server error" e⟩) ∧
      (∀ db1 n,
        seedDatabaseRun faults ctx db req = .responded db1 n ⟨200, .message seededNow⟩ →
        n = 18 ∧ ∀ k, k < 18 → faults k = none) ∧
      (faults 0 = none → findOneByEmail db.users req.body.email = none →
        (∀ e, ctx.prims.genSalt 10 = .error e →
          registerRun faults ctx db req
            = .responded db 1 ⟨500, .failure "Server error" e⟩) ∧
        (∀ salt e, ctx.prims.genSalt 10 = .ok salt →
          ctx.prims.hash req.body.password salt = .error e →
          registerRun faults ctx db req
            = .responded db 1 ⟨500, .failure "Server error" e⟩) ∧
        (∀ salt hashed, ctx.prims.genSalt 10 = .ok salt →
          ctx.prims.hash req.body.password salt = .ok hashed →
          validateUser
            { name := req.body.name, email := req.body.email, password := some hashed,
              role := some (orElse req.body.role "User"), status := none } = false →
          registerRun faults ctx db req
            = .responded db 1 ⟨500, .failure "Server error" "User validation failed"⟩)) ∧
      (∀ u e, faults 0 = none → findOneByEmail db.users req.body.email = some u →
        ctx.prims.compare req.body.password u.password = .error e →
        loginRun faults ctx db req = .responded db 1 ⟨500, .failure "Server error" e⟩) ∧
      (castId req.paramId = none →
        getUserRun faults ctx db req
          = .responded db 0 ⟨500, .failure "Server error" "Cast to ObjectId failed"⟩ ∧
        updateUserRun faults ctx db req
          = .responded db 0 ⟨500, .failure "Server error" "Cast to ObjectId failed"⟩ ∧
        deleteUserRun faults ctx db req
          = .responded db 0 ⟨500, .failure "Server error" "Cast to ObjectId failed"⟩) ∧
      (∀ id u, castId req.paramId = some id → faults 0 = none →
        db.users.find? (fun v => v._id == id) = some u →
        (db.users.any fun v => v._id != id && v.email == (applyUpdate req.body u).email)
          = true →
        updateUserRun faults ctx db req
          = .responded db 1 ⟨500, .failure "Server error" "E11000 duplicate key error"⟩) ∧
      (faults 0 = none → findOneByEmail db.users (some "admin@example.com") = none →
        (∀ e, ctx.prims.genSalt 10 = .error e →
          seedDatabaseRun faults ctx db req
            = .responded db 1 ⟨500, .failure "Seed error" e⟩) ∧
        (∀ salt e, ctx.prims.genSalt 10 = .ok salt →
          ctx.prims.hash (some "admin123") salt = .error e →
          seedDatabaseRun faults ctx db req
            = .responded db 1 ⟨500, .failure "Seed error" e⟩)) := by
  have hall := And.intro (registerRun_outages faults ctx db req)
    (And.intro (loginRun_outages faults ctx db req)
    (And.intro (getUsersRun_outages faults ctx db req)
    (And.intro (getUserRun_outages faults ctx db req)
    (And.intro (updateUserRun_outages faults ctx db req)
    (And.intro (deleteUserRun_outages faults ctx db req)
    (And.intro (getMetricsRun_outages faults ctx db req)
    (And.intro (getChartRun_outages faults ctx db req)
    (And.intro (addAnalyticsRun_outages faults ctx db req)
      (seedDatabaseRun_outages faults ctx db req)))))))))
  refine ⟨hall, ?_, ?_, ?_, ?_, ?_, ?_, ?_, ?_, ?_, ?_⟩
  · intro run hrun
    simp only [routeRuns, List.mem_cons, List.mem_singleton, List.not_mem_nil, or_false]
      at hrun
    rcases hrun with h | h | h | h | h | h | h | h | h | h
    · rw [h]
      exact outages_responded _ _ _ _ hall.1
    · rw [h]
      exact outages_responded _ _ _ _ hall.2.1
    · rw [h]
      exact routeRun_admin getUsersRun faults ctx db req
        (fun req1 => outages_responded _ _ _ _ (getUsersRun_outages faults ctx db req1))
    · rw [h]
      exact routeRun_authenticated getUserRun faults ctx db req
        (fun req1 => outages_responded _ _ _ _ (getUserRun_outages faults ctx db req1))
    · rw [h]
      exact routeRun_admin updateUserRun faults ctx db req
        (fun req1 => outages_responded _ _ _ _ (updateUserRun_outages faults ctx db req1))
    · rw [h]
      exact routeRun_admin deleteUserRun faults ctx db req
        (fun req1 => outages_responded _ _ _ _ (deleteUserRun_outages faults ctx db req1))
    · rw [h]
      exact routeRun_authenticated getMetricsRun faults ctx db req
        (fun req1 => outages_responded _ _ _ _ (getMetricsRun_outages faults ctx db req1))
    · rw [h]
      exact routeRun_authenticated getChartRun faults ctx db req
        (fun req1 => outages_responded _ _ _ _ (getChartRun_outages faults ctx db req1))
    · rw [h]
      exact routeRun_admin addAnalyticsRun faults ctx db req
        (fun req1 => outages_responded _ _ _ _ (addAnalyticsRun_outages faults ctx db req1))
    · rw [h]
      exact outages_responded _ _ _ _ hall.2.2.2.2.2.2.2.2.2
  · intro e h0
    refine ⟨?_, ?_, ?_, ?_, ?_, ?_, ?_, ?_⟩
    · simp [registerRun, registerAttempt, h0, tryCatch]
    · simp [loginRun, loginAttempt, h0, tryCatch]
    · simp [getUsersRun, getUsersAttempt, h0, tryCatch]
    · simp [getMetricsRun, getMetricsAttempt, h0, tryCatch]
    · simp [getChartRun, getChartAttempt, h0, tryCatch]
    · simp [addAnalyticsRun, addAnalyticsAttempt, h0, tryCatch]
    · simp [seedDatabaseRun, seedDatabaseAttempt, h0, tryCatch]
    · intro hc
      obtain ⟨id, hid⟩ := Option.ne_none_iff_exists'.mp hc
      refine ⟨?_, ?_, ?_⟩
      · simp [getUserRun, getUserAttempt, hid, h0, tryCatch]
      · simp [updateUserRun, updateUserAttempt, hid, h0, tryCatch]
      · simp [deleteUserRun, deleteUserAttempt, hid, h0, tryCatch]
  · intro k e hk hq hf
    exact getMetricsRun_first_outage faults ctx db req k e hk hq hf
  · intro salt hashed e h0 hf hg hh hv h1
    simp [registerRun, registerAttempt, saveUserWith, h0, hf, hg, hh, hv, h1, tryCatch]
  · intro db1 n h
    exact seedDatabaseRun_success faults ctx db req db1 n h
  · intro h0 hf
    refine ⟨?_, ?_, ?_⟩
    · intro e hg
      simp [registerRun, registerAttempt, h0, hf, hg, tryCatch]
    · intro salt e hg hh
      simp [registerRun, registerAttempt, h0, hf, hg, hh, tryCatch]
    · intro salt hashed hg hh hv
      simp [registerRun, registerAttempt, saveUserWith, h0, hf, hg, hh, hv, tryCatch]
  · intro u e h0 hf hc
    simp [loginRun, loginAttempt, h0, hf, hc, tryCatch]
  · intro hc
    refine ⟨?_, ?_, ?_⟩
    · simp [getUserRun, getUserAttempt, hc, tryCatch]
    · simp [updateUserRun, updateUserAttempt, hc, tryCatch]
    · simp [deleteUserRun, deleteUserAttempt, hc, tryCatch]
  · intro id u hc h0 hf hdup
    simp [updateUserRun, updateUserAttempt, hc, h0, hf, hdup, tryCatch]
  · intro h0 hf
    refine ⟨?_, ?_⟩
    · intro e hg
      simp [seedDatabaseRun, seedDatabaseAttempt, h0, hf, hg, tryCatch]
    · intro salt e hg hh
      simp [seedDatabaseRun, seedDatabaseAttempt, h0, hf, hg, hh, tryCatch]

theorem handler_failures_answered_500_witness :
    getMetricsRun thirdOpFails sampleCtx sampleDb { body := {} }
      = .responded sampleDb 3 ⟨500, .failure "Server error" "connection lost"⟩ :=
  (handler_failures_answered_500 thirdOpFails sampleCtx sampleDb { body := {} }).2.2.2.1
    2 "connection lost" (by decide) (by decide) (by decide)

/-! ## Worked instances -/

/-- The scheme word is deleted wherever it first occurs, also in the middle of the header. -/
theorem extractToken_of_inner_bearer :
    extractToken (some "abcBearer defBearer ghi") = some "abcdefBearer ghi" := by
  decide

end AdminDashboard
